import Mathlib

/-!
Verification of the anaStruct truss-generation preprocessor.

The development shallowly embeds the Python sources:
  * anastruct/vertex.py            (2D vector primitive),
  * anastruct/preprocess/truss_class.py  (Truss base, FlatTruss, RoofTruss,
    validate, add_elements, get_element_ids_of_chord),
  * anastruct/preprocess/truss.py  (14 concrete topologies, create_truss),
  * anastruct/fem/util/load.py     (LoadCase / LoadCombination).

Floating point arithmetic is modelled by exact arithmetic over a linear
ordered field (instantiated at ℚ for executable checks and at ℝ where the
trigonometric derivations of the roof family are stated).  Python exceptions
are modelled by Except with structured error values.
-/

namespace AnaStruct

/-- A 2D coordinate pair, the value carried by vertex.py's Vertex
(`self.coordinates`, a length-2 array). -/
abbrev Vec (α : Type) := α × α

section VertexOps

variable {α : Type} [LinearOrderedField α]

/-- Right-hand operands accepted by Vertex arithmetic in vertex.py:
another Vertex, a 2-element tuple/list/array (all of which hold a pair of
floats), or a scalar that numpy broadcasts to both components. -/
inductive Operand (α : Type) where
  | vx (v : Vec α)
  | pair (p : Vec α)
  | scalar (s : α)
deriving DecidableEq

/-- The coordinates the operand contributes after the tuple/list to array
conversion and Vertex unwrapping performed at the top of each operator,
with numpy broadcasting for scalars. -/
def Operand.coords : Operand α → Vec α
  | .vx v => v
  | .pair p => p
  | .scalar s => (s, s)

/-- Vertex.__add__: componentwise addition of self.coordinates and the
operand (numpy broadcast for scalars). -/
def vAdd (self : Vec α) (other : Operand α) : Vec α :=
  (self.1 + other.coords.1, self.2 + other.coords.2)

/-- Vertex.__radd__: delegates to __add__ unchanged. -/
def vRadd (self : Vec α) (other : Operand α) : Vec α :=
  vAdd self other

/-- Vertex.__sub__: componentwise subtraction self.coordinates - other. -/
def vSub (self : Vec α) (other : Operand α) : Vec α :=
  (self.1 - other.coords.1, self.2 - other.coords.2)

/-- Vertex.__rsub__: the source delegates to __sub__ without swapping the
operands (`return self.__sub__(other)`). -/
def vRsub (self : Vec α) (other : Operand α) : Vec α :=
  vSub self other

/-- Vertex.__mul__: componentwise product. -/
def vMul (self : Vec α) (other : Operand α) : Vec α :=
  (self.1 * other.coords.1, self.2 * other.coords.2)

/-- Vertex.__rmul__: delegates to __mul__ unchanged. -/
def vRmul (self : Vec α) (other : Operand α) : Vec α :=
  vMul self other

/-- Reference definition following the specification's words: the
mathematical reflected difference, subtracting the Vertex from the
left operand (other - self). -/
def mathReflSub (self : Vec α) (other : Operand α) : Vec α :=
  (other.coords.1 - self.1, other.coords.2 - self.2)

/-- Reference definition: the mathematical reflected sum other + self. -/
def mathReflAdd (self : Vec α) (other : Operand α) : Vec α :=
  (other.coords.1 + self.1, other.coords.2 + self.2)

/-- Reference definition: the mathematical reflected product other * self. -/
def mathReflMul (self : Vec α) (other : Operand α) : Vec α :=
  (other.coords.1 * self.1, other.coords.2 * self.2)

end VertexOps

section GeometryModel

variable {α : Type} [LinearOrderedField α]

/-- A chord's node-id collection: either a flat ordered list of node
indices or a mapping from segment name to node-id list.  Python dicts
iterate in insertion order, so the mapping is an association list. -/
inductive Chord where
  | flatIds (ids : List ℤ)
  | segmented (segs : List (String × List ℤ))
deriving DecidableEq

/-- The generated geometric state of a Truss: the node list and the four
connectivity collections populated by define_nodes/define_connectivity. -/
structure TrussGeom (α : Type) where
  nodes : List (Vec α)
  top_chord_node_ids : Chord
  bottom_chord_node_ids : Chord
  web_node_pairs : List (ℤ × ℤ)
  web_verticals_node_pairs : List (ℤ × ℤ)
deriving DecidableEq

/-- The absolute tolerance 1e-6 used by Truss.validate. -/
def tol : α := 1 / 1000000

/-- Structured model of the ValueError messages raised by Truss.validate:
each constructor carries exactly the data interpolated into the message. -/
inductive VErr (α : Type) where
  | badIndex (nodeId : ℤ) (maxNodeId : ℤ)
  | dup (i j : ℕ) (pos : Vec α)
  | zeroLen (nodeA nodeB : ℤ) (pos : Vec α)
deriving DecidableEq

/-- The violation category of a validation error (index reference,
duplicate node, zero-length element). -/
inductive VCat where
  | index
  | dupNode
  | zeroLength
deriving DecidableEq

/-- Category of a structured validation error. -/
def VErr.cat : VErr α → VCat
  | .badIndex _ _ => .index
  | .dup _ _ _ => .dupNode
  | .zeroLen _ _ _ => .zeroLength

/-- Loop body of validate_node_ids: checks each id against 0..max_node_id,
raising on the first out-of-range reference. -/
def checkIds (maxId : ℤ) : List ℤ → Except (VErr α) Unit
  | [] => .ok ()
  | nodeId :: rest =>
      if nodeId < 0 ∨ nodeId > maxId then .error (.badIndex nodeId maxId)
      else checkIds maxId rest

/-- validate_node_ids: a flat list is scanned directly, a segmented chord
is scanned segment by segment in mapping order. -/
def checkChordIds (maxId : ℤ) : Chord → Except (VErr α) Unit
  | .flatIds ids => checkIds maxId ids
  | .segmented segs =>
      match segs with
      | [] => .ok ()
      | (_, ids) :: rest => do
          checkIds (α := α) maxId ids
          checkChordIds maxId (.segmented rest)

/-- The loops over web_node_pairs / web_verticals_node_pairs in validate:
each pair's first then second id is bounds-checked. -/
def checkPairIds (maxId : ℤ) : List (ℤ × ℤ) → Except (VErr α) Unit
  | [] => .ok ()
  | (a, b) :: rest =>
      if a < 0 ∨ a > maxId then .error (.badIndex a maxId)
      else if b < 0 ∨ b > maxId then .error (.badIndex b maxId)
      else checkPairIds maxId rest

/-- Two positions coincide within the validator's tolerance: both
coordinate differences are below 1e-6 in absolute value. -/
def nearB (p q : Vec α) : Bool :=
  |p.1 - q.1| < tol ∧ |p.2 - q.2| < tol

/-- Inner loop of the duplicate-node scan: node i (at position p) against
the nodes from index j onward. -/
def dupFrom (i : ℕ) (p : Vec α) : ℕ → List (Vec α) → Except (VErr α) Unit
  | _, [] => .ok ()
  | j, q :: rest =>
      if nearB p q then .error (.dup i j p)
      else dupFrom i p (j + 1) rest

/-- Outer loop of the duplicate-node scan in validate: every node is
compared against all later nodes, failing on the first coincident pair. -/
def dupScan : ℕ → List (Vec α) → Except (VErr α) Unit
  | _, [] => .ok ()
  | i, p :: rest => do
      dupFrom i p (i + 1) rest
      dupScan (i + 1) rest

/-- self.nodes[id] as read by check_element_length (ids have been bounds
checked when this runs; out-of-range reads default to the origin). -/
def nodeAt (g : TrussGeom α) (i : ℤ) : Vec α :=
  g.nodes.getD i.toNat ((0 : α), (0 : α))

/-- check_element_length: the source compares sqrt(dx^2 + dy^2) < 1e-6;
over an ordered field this is equivalent to dx^2 + dy^2 < (1e-6)^2, which
is the comparison used here. -/
def checkElementLength (g : TrussGeom α) (a b : ℤ) : Except (VErr α) Unit :=
  let pa := nodeAt g a
  let pb := nodeAt g b
  if (pb.1 - pa.1) ^ 2 + (pb.2 - pa.2) ^ 2 < tol * tol then
    .error (.zeroLen a b pa)
  else .ok ()

/-- The consecutive pairs (ids[i], ids[i+1]) of a node-id list: the pairs
a chord segment contributes as elements. -/
def consecPairs (ids : List ℤ) : List (ℤ × ℤ) :=
  ids.zip ids.tail

/-- Zero-length scan of one node-id sequence (consecutive pairs). -/
def checkSeqLengths (g : TrussGeom α) : List (ℤ × ℤ) → Except (VErr α) Unit
  | [] => .ok ()
  | (a, b) :: rest => do
      checkElementLength g a b
      checkSeqLengths g rest

/-- check_chord_elements: consecutive pairs per segment (mapping order)
or of the flat list. -/
def checkChordLengths (g : TrussGeom α) : Chord → Except (VErr α) Unit
  | .flatIds ids => checkSeqLengths g (consecPairs ids)
  | .segmented segs =>
      match segs with
      | [] => .ok ()
      | (_, ids) :: rest => do
          checkSeqLengths g (consecPairs ids)
          checkChordLengths g (.segmented rest)

/-- Truss.validate: bounds checks for the top chord, the bottom chord, the
web diagonals and the web verticals, then the duplicate-node scan, then
the zero-length checks (top chord, bottom chord, webs, verticals), each
raising a structured ValueError on the first violation, returning True
when every check passes. -/
def validate (g : TrussGeom α) : Except (VErr α) Bool := do
  let maxId : ℤ := (g.nodes.length : ℤ) - 1
  checkChordIds maxId g.top_chord_node_ids
  checkChordIds maxId g.bottom_chord_node_ids
  checkPairIds maxId g.web_node_pairs
  checkPairIds maxId g.web_verticals_node_pairs
  dupScan 0 g.nodes
  checkChordLengths g g.top_chord_node_ids
  checkChordLengths g g.bottom_chord_node_ids
  checkSeqLengths g g.web_node_pairs
  checkSeqLengths g g.web_verticals_node_pairs
  pure true

/-- All node ids referenced by a chord. -/
def Chord.allIds : Chord → List ℤ
  | .flatIds ids => ids
  | .segmented segs => (segs.map Prod.snd).flatten

/-- Every node index referenced by a chord, diagonal or vertical list of
the geometry, in validation order. -/
def refIds (g : TrussGeom α) : List ℤ :=
  g.top_chord_node_ids.allIds ++ g.bottom_chord_node_ids.allIds ++
    (g.web_node_pairs.map Prod.fst ++ g.web_node_pairs.map Prod.snd) ++
    (g.web_verticals_node_pairs.map Prod.fst ++
      g.web_verticals_node_pairs.map Prod.snd)

/-- The node-id sequences of a chord: one list per segment (mapping order),
or the single flat list. -/
def Chord.segLists : Chord → List (List ℤ)
  | .flatIds ids => [ids]
  | .segmented segs => segs.map Prod.snd

/-- The node-id pairs of every generated member: consecutive pairs of each
chord segment, plus the web diagonal and web vertical pairs. -/
def memberPairs (g : TrussGeom α) : List (ℤ × ℤ) :=
  ((g.top_chord_node_ids.segLists ++ g.bottom_chord_node_ids.segLists).map
    consecPairs).flatten ++ g.web_node_pairs ++ g.web_verticals_node_pairs

/-- No referenced node index is out of range (violation category 1). -/
def IdxOK (g : TrussGeom α) : Prop :=
  ∀ i ∈ refIds g, 0 ≤ i ∧ i ≤ (g.nodes.length : ℤ) - 1

/-- No two nodes coincide within the 1e-6 tolerance on both axes
(violation category 2). -/
def NoDupNodes (g : TrussGeom α) : Prop :=
  g.nodes.Pairwise (fun p q => ¬ nearB p q)

/-- No generated member connects two nodes whose Euclidean distance is
below the tolerance (violation category 3). -/
def NoZeroLen (g : TrussGeom α) : Prop :=
  ∀ pr ∈ memberPairs g,
    ¬ ((nodeAt g pr.2).1 - (nodeAt g pr.1).1) ^ 2 +
        ((nodeAt g pr.2).2 - (nodeAt g pr.1).2) ^ 2 < tol * tol

instance (g : TrussGeom α) : Decidable (IdxOK g) := by
  unfold IdxOK; infer_instance

instance (g : TrussGeom α) : Decidable (NoDupNodes g) := by
  unfold NoDupNodes; infer_instance

instance (g : TrussGeom α) : Decidable (NoZeroLen g) := by
  unfold NoZeroLen; infer_instance

end GeometryModel

section PySlice

variable {β : Type}

/-- Python index normalization: a negative index counts from the end. -/
def pyNorm (len : ℕ) (i : ℤ) : ℤ :=
  if i < 0 then i + len else i

/-- Python slice l[start:stop] with step 1 (stop of none means to the end);
out-of-range bounds clamp as in CPython. -/
def pySlice (l : List β) (start : ℤ) (stop : Option ℤ) : List β :=
  let s := (pyNorm l.length start).toNat
  match stop with
  | none => l.drop s
  | some e => (l.take (pyNorm l.length e).toNat).drop s

/-- Python slice l[start:stop:-1] with step -1 (start of none means from
the last element): the elements at indices stop+1 .. start, reversed.
Models CPython for the argument regimes used by the flat-truss
connectivity code (normalized stop at least -1). -/
def pySliceRev (l : List β) (start : Option ℤ) (stop : ℤ) : List β :=
  let s : ℤ :=
    match start with
    | none => (l.length : ℤ) - 1
    | some a => pyNorm l.length a
  let e : ℤ := pyNorm l.length stop
  if s < 0 then []
  else ((l.take (s.toNat + 1)).drop (e + 1).toNat).reverse

end PySlice

section FlatTrussDefs

variable {α : Type} [LinearOrderedField α] [FloorRing α]

/-- End panel configuration of a flat truss. -/
inductive EndType where
  | flat
  | triangle_down
  | triangle_up
deriving DecidableEq

/-- The values FlatTruss.__init__ computes before delegating to
Truss.__init__. -/
structure FlatInit (α : Type) where
  n_units : ℤ
  end_width : α
deriving DecidableEq

/-- FlatTruss.__init__ up to the super().__init__ call: validates
unit_width and min_end_fraction, computes the pre-floor unit count,
floors it, applies the even-units symmetry adjustment, rejects fewer
than 2 units, and derives the end-panel width. -/
def flatTrussInit (width unit_width min_end_fraction : α)
    (enforce_even_units : Bool) : Except String (FlatInit α) :=
  if unit_width ≤ 0 then .error "unit_width must be positive"
  else if ¬ (0 < min_end_fraction ∧ min_end_fraction ≤ 1) then
    .error "min_end_fraction must be in (0, 1]"
  else
    let n_units_float := (width - unit_width * 2 * min_end_fraction) / unit_width
    if n_units_float < 1 then
      .error "Width is too small for unit_width and min_end_fraction"
    else
      let n0 := ⌊n_units_float⌋
      let n := if enforce_even_units ∧ n0 % 2 ≠ 0 then n0 - 1 else n0
      if n < 2 then .error "Truss must have at least 2 units"
      else .ok ⟨n, (width - n * unit_width) / 2⟩

/-- The geometric attributes available to a flat truss's
define_nodes/define_connectivity. -/
structure FlatState (α : Type) where
  width : α
  height : α
  unit_width : α
  end_type : EndType
  min_end_fraction : α
  enforce_even_units : Bool
  n_units : ℤ
  end_width : α

/-- HoweFlatTruss.define_nodes: optional corner nodes (suppressed by the
matching triangle end types) around a row of n_units+1 evenly spaced
nodes, for the bottom then the top chord. -/
def howeFlatNodes (s : FlatState α) : List (Vec α) :=
  (if s.end_type ≠ .triangle_up then [((0 : α), (0 : α))] else [])
  ++ (List.range (s.n_units.toNat + 1)).map
      (fun i : ℕ => (s.end_width + (i : α) * s.unit_width, (0 : α)))
  ++ (if s.end_type ≠ .triangle_up then [(s.width, (0 : α))] else [])
  ++ (if s.end_type ≠ .triangle_down then [((0 : α), s.height)] else [])
  ++ (List.range (s.n_units.toNat + 1)).map
      (fun i : ℕ => (s.end_width + (i : α) * s.unit_width, s.height))
  ++ (if s.end_type ≠ .triangle_down then [(s.width, s.height)] else [])

/-- PrattFlatTruss.define_nodes is textually identical to
HoweFlatTruss.define_nodes in the source. -/
def prattFlatNodes (s : FlatState α) : List (Vec α) :=
  howeFlatNodes s

/-- The chord/web connectivity lists of a flat truss. -/
structure FlatConn where
  bottom : List ℤ
  top : List ℤ
  webs : List (ℤ × ℤ)
  verticals : List (ℤ × ℤ)

/-- HoweFlatTruss.define_connectivity: chords as index ranges, web
diagonals from zipped half-chord slices (with reversed special-case end
diagonals for triangle_up), web verticals from zipped chord slices. -/
def howeFlatConnectivity (s : FlatState α) : FlatConn :=
  let n_bottom : ℕ := s.n_units.toNat + 1 +
    (if s.end_type ≠ .triangle_up then 2 else 0)
  let n_top : ℕ := s.n_units.toNat + 1 +
    (if s.end_type ≠ .triangle_down then 2 else 0)
  let bottom : List ℤ := (List.range n_bottom).map (fun i : ℕ => (i : ℤ))
  let top : List ℤ := (List.range n_top).map (fun i : ℕ => ((n_bottom : ℤ) + (i : ℤ)))
  let specials : List (ℤ × ℤ) :=
    if s.end_type = .triangle_up then
      [((0 : ℤ), (n_bottom : ℤ)),
       ((n_bottom : ℤ) - 1, (n_bottom : ℤ) + (n_top : ℤ) - 1)]
    else []
  let start_bot : ℤ := 0
  let end_bot : Option ℤ := none
  let start_top : ℤ :=
    if s.end_type = .triangle_up then 2
    else if s.end_type = .flat then 1 else 0
  let end_top : Option ℤ :=
    if s.end_type = .triangle_up then some (-3)
    else if s.end_type = .flat then some (-2) else none
  let mid_bot : ℕ := bottom.length / 2
  let mid_top : ℕ := top.length / 2
  let webs := specials
    ++ (pySlice bottom start_bot (some ((mid_bot : ℤ) + 1))).zip
        (pySlice top start_top (some ((mid_top : ℤ) + 1)))
    ++ (pySliceRev bottom end_bot ((mid_bot : ℤ) - 1)).zip
        (pySliceRev top end_top ((mid_top : ℤ) - 1))
  let vstart_bot : ℤ := if s.end_type = .triangle_down then 1 else 0
  let vend_bot : Option ℤ :=
    if s.end_type = .triangle_down then some (-1) else none
  let vstart_top : ℤ := if s.end_type = .triangle_up then 1 else 0
  let vend_top : Option ℤ :=
    if s.end_type = .triangle_up then some (-1) else none
  let verticals := (pySlice bottom vstart_bot vend_bot).zip
    (pySlice top vstart_top vend_top)
  ⟨bottom, top, webs, verticals⟩

/-- PrattFlatTruss.define_connectivity: like Howe but with the reversed
special-case end diagonals on triangle_down and the bottom-side slice
offsets adjusted instead of the top-side ones. -/
def prattFlatConnectivity (s : FlatState α) : FlatConn :=
  let n_bottom : ℕ := s.n_units.toNat + 1 +
    (if s.end_type ≠ .triangle_up then 2 else 0)
  let n_top : ℕ := s.n_units.toNat + 1 +
    (if s.end_type ≠ .triangle_down then 2 else 0)
  let bottom : List ℤ := (List.range n_bottom).map (fun i : ℕ => (i : ℤ))
  let top : List ℤ := (List.range n_top).map (fun i : ℕ => ((n_bottom : ℤ) + (i : ℤ)))
  let specials : List (ℤ × ℤ) :=
    if s.end_type = .triangle_down then
      [((n_bottom : ℤ), (0 : ℤ)),
       ((n_bottom : ℤ) + (n_top : ℤ) - 1, (n_bottom : ℤ) - 1)]
    else []
  let start_bot : ℤ :=
    if s.end_type = .triangle_down then 2
    else if s.end_type = .flat then 1 else 0
  let end_bot : Option ℤ :=
    if s.end_type = .triangle_down then some (-3)
    else if s.end_type = .flat then some (-2) else none
  let start_top : ℤ := 0
  let end_top : Option ℤ := none
  let mid_bot : ℕ := bottom.length / 2
  let mid_top : ℕ := top.length / 2
  let webs := specials
    ++ (pySlice bottom start_bot (some ((mid_bot : ℤ) + 1))).zip
        (pySlice top start_top (some ((mid_top : ℤ) + 1)))
    ++ (pySliceRev bottom end_bot ((mid_bot : ℤ) - 1)).zip
        (pySliceRev top end_top ((mid_top : ℤ) - 1))
  let vstart_bot : ℤ := if s.end_type = .triangle_down then 1 else 0
  let vend_bot : Option ℤ :=
    if s.end_type = .triangle_down then some (-1) else none
  let vstart_top : ℤ := if s.end_type = .triangle_up then 1 else 0
  let vend_top : Option ℤ :=
    if s.end_type = .triangle_up then some (-1) else none
  let verticals := (pySlice bottom vstart_bot vend_bot).zip
    (pySlice top vstart_top vend_top)
  ⟨bottom, top, webs, verticals⟩

/-- WarrenFlatTruss.define_nodes (end_type is triangle_down or
triangle_up only); uses the end_width value computed by
FlatTruss.__init__, since the Warren-specific end_width adjustment in
the source happens only after the nodes have been generated. -/
def warrenFlatNodes (s : FlatState α) : List (Vec α) :=
  (if s.end_type = .triangle_down then [((0 : α), (0 : α))]
   else [(s.end_width - s.unit_width / 2, (0 : α))])
  ++ (List.range (s.n_units.toNat + 1)).map
      (fun i : ℕ => (s.end_width + (i : α) * s.unit_width, (0 : α)))
  ++ (if s.end_type = .triangle_down then [(s.width, (0 : α))]
      else [(s.width - (s.end_width - s.unit_width / 2), (0 : α))])
  ++ (if s.end_type = .triangle_up then [((0 : α), s.height)]
      else [(s.end_width - s.unit_width / 2, s.height)])
  ++ (List.range (s.n_units.toNat + 1)).map
      (fun i : ℕ => (s.end_width + (i : α) * s.unit_width, s.height))
  ++ (if s.end_type = .triangle_up then [(s.width, s.height)]
      else [(s.width - (s.end_width - s.unit_width / 2), s.height)])

/-- WarrenFlatTruss.define_connectivity: chords as index ranges of the
counts computed there, zigzag web diagonals from zipped offset chords,
no web verticals. -/
def warrenFlatConnectivity (s : FlatState α) : FlatConn :=
  let n_bottom : ℕ := s.n_units.toNat +
    (if s.end_type = .triangle_down then 1 else 0)
  let n_top : ℕ := s.n_units.toNat +
    (if s.end_type = .triangle_up then 1 else 0)
  let bottom : List ℤ := (List.range n_bottom).map (fun i : ℕ => (i : ℤ))
  let top : List ℤ := (List.range n_top).map (fun i : ℕ => ((n_bottom : ℤ) + (i : ℤ)))
  let top_start : ℤ := if s.end_type = .triangle_down then 0 else 1
  let bot_start : ℤ := if s.end_type = .triangle_up then 0 else 1
  let webs := bottom.zip (pySlice top top_start none)
    ++ top.zip (pySlice bottom bot_start none)
  ⟨bottom, top, webs, []⟩

end FlatTrussDefs

section RoofTrussDefs

variable {α : Type} [LinearOrderedField α]

/-- RoofTruss.__init__ followed by the Truss.__init__ guards: rejects a
pitch outside the exclusive range (0, 90) degrees and a negative
overhang, then derives height = (width / 2) * tan(pitch).  The
transcendental tan(radians(roof_pitch_deg)) is supplied as the parameter
tanP; the ℝ-level theorems instantiate it with Real.tan. -/
def roofTrussInit (width roof_pitch_deg overhang_length tanP : α) :
    Except String α :=
  if roof_pitch_deg ≤ 0 ∨ 90 ≤ roof_pitch_deg then
    .error "roof_pitch_deg must be between 0 and 90"
  else if overhang_length < 0 then
    .error "overhang_length must be non-negative"
  else
    let height := width / 2 * tanP
    if width ≤ 0 then .error "width must be positive"
    else if height ≤ 0 then .error "height must be positive"
    else .ok height

/-- The geometric attributes available to a roof truss's
define_nodes/define_connectivity; cosP and sinP stand for
np.cos(self.roof_pitch) and np.sin(self.roof_pitch). -/
structure RoofState (α : Type) where
  width : α
  height : α
  overhang_length : α
  cosP : α
  sinP : α

/-- The two overhang nodes every roof topology appends when
overhang_length > 0, offset along the roof slope direction. -/
def overhangNodes (s : RoofState α) : List (Vec α) :=
  if 0 < s.overhang_length then
    [(-(s.overhang_length * s.cosP), -(s.overhang_length * s.sinP)),
     (s.width + s.overhang_length * s.cosP, -(s.overhang_length * s.sinP))]
  else []

/-- The segmented top chord of a roof truss: the left/right slope bases,
with the overhang node indices inserted at the front of the left slope
and appended to the right slope when overhang_length > 0. -/
def roofTopChord (s : RoofState α) (leftBase rightBase : List ℤ)
    (leftOv rightOv : ℤ) : Chord :=
  if 0 < s.overhang_length then
    .segmented [("left", leftOv :: leftBase), ("right", rightBase ++ [rightOv])]
  else
    .segmented [("left", leftBase), ("right", rightBase)]

/-- KingPostRoofTruss define_nodes and define_connectivity. -/
def buildKingPost (width roof_pitch_deg overhang_length tanP cosP sinP : α) :
    Except String (TrussGeom α) := do
  let height ← roofTrussInit width roof_pitch_deg overhang_length tanP
  let s : RoofState α := ⟨width, height, overhang_length, cosP, sinP⟩
  let nodes := [((0 : α), (0 : α)), (s.width / 2, 0), (s.width, 0),
    (s.width / 2, s.height)] ++ overhangNodes s
  pure ⟨nodes, roofTopChord s [0, 3] [3, 2] 4 5, .flatIds [0, 1, 2],
    [], [(1, 3)]⟩

/-- QueenPostRoofTruss define_nodes and define_connectivity. -/
def buildQueenPost (width roof_pitch_deg overhang_length tanP cosP sinP : α) :
    Except String (TrussGeom α) := do
  let height ← roofTrussInit width roof_pitch_deg overhang_length tanP
  let s : RoofState α := ⟨width, height, overhang_length, cosP, sinP⟩
  let nodes := [((0 : α), (0 : α)), (s.width / 2, 0), (s.width, 0),
    (s.width / 4, s.height / 2), (s.width / 2, s.height),
    (3 * s.width / 4, s.height / 2)] ++ overhangNodes s
  pure ⟨nodes, roofTopChord s [0, 3, 4] [4, 5, 2] 6 7, .flatIds [0, 1, 2],
    [(1, 3), (1, 5)], [(1, 4)]⟩

/-- FinkRoofTruss define_nodes and define_connectivity. -/
def buildFink (width roof_pitch_deg overhang_length tanP cosP sinP : α) :
    Except String (TrussGeom α) := do
  let height ← roofTrussInit width roof_pitch_deg overhang_length tanP
  let s : RoofState α := ⟨width, height, overhang_length, cosP, sinP⟩
  let nodes := [((0 : α), (0 : α)), (1 * s.width / 3, 0),
    (2 * s.width / 3, 0), (s.width, 0), (1 * s.width / 4, s.height / 2),
    (s.width / 2, s.height), (3 * s.width / 4, s.height / 2)]
    ++ overhangNodes s
  pure ⟨nodes, roofTopChord s [0, 4, 5] [5, 6, 3] 7 8, .flatIds [0, 1, 2, 3],
    [(1, 4), (1, 5), (2, 5), (2, 6)], []⟩

/-- HoweRoofTruss define_nodes and define_connectivity. -/
def buildHoweRoof (width roof_pitch_deg overhang_length tanP cosP sinP : α) :
    Except String (TrussGeom α) := do
  let height ← roofTrussInit width roof_pitch_deg overhang_length tanP
  let s : RoofState α := ⟨width, height, overhang_length, cosP, sinP⟩
  let nodes := [((0 : α), (0 : α)), (1 * s.width / 4, 0), (s.width / 2, 0),
    (3 * s.width / 4, 0), (s.width, 0), (1 * s.width / 4, s.height / 2),
    (s.width / 2, s.height), (3 * s.width / 4, s.height / 2)]
    ++ overhangNodes s
  pure ⟨nodes, roofTopChord s [0, 5, 6] [6, 7, 4] 8 9,
    .flatIds [0, 1, 2, 3, 4], [(2, 5), (2, 7)], [(1, 5), (2, 6), (3, 7)]⟩

/-- PrattRoofTruss define_nodes and define_connectivity. -/
def buildPrattRoof (width roof_pitch_deg overhang_length tanP cosP sinP : α) :
    Except String (TrussGeom α) := do
  let height ← roofTrussInit width roof_pitch_deg overhang_length tanP
  let s : RoofState α := ⟨width, height, overhang_length, cosP, sinP⟩
  let nodes := [((0 : α), (0 : α)), (1 * s.width / 4, 0), (s.width / 2, 0),
    (3 * s.width / 4, 0), (s.width, 0), (1 * s.width / 4, s.height / 2),
    (s.width / 2, s.height), (3 * s.width / 4, s.height / 2)]
    ++ overhangNodes s
  pure ⟨nodes, roofTopChord s [0, 5, 6] [6, 7, 4] 8 9,
    .flatIds [0, 1, 2, 3, 4], [(1, 6), (3, 6)], [(1, 5), (2, 6), (3, 7)]⟩

/-- FanRoofTruss define_nodes and define_connectivity. -/
def buildFan (width roof_pitch_deg overhang_length tanP cosP sinP : α) :
    Except String (TrussGeom α) := do
  let height ← roofTrussInit width roof_pitch_deg overhang_length tanP
  let s : RoofState α := ⟨width, height, overhang_length, cosP, sinP⟩
  let nodes := [((0 : α), (0 : α)), (1 * s.width / 3, 0),
    (2 * s.width / 3, 0), (s.width, 0), (1 * s.width / 6, s.height / 3),
    (2 * s.width / 6, 2 * s.height / 3), (s.width / 2, s.height),
    (4 * s.width / 6, 2 * s.height / 3), (5 * s.width / 6, s.height / 3)]
    ++ overhangNodes s
  pure ⟨nodes, roofTopChord s [0, 4, 5, 6] [6, 7, 8, 3] 9 10,
    .flatIds [0, 1, 2, 3], [(1, 4), (1, 6), (2, 6), (2, 8)],
    [(1, 5), (2, 7)]⟩

/-- ModifiedQueenPostRoofTruss define_nodes and define_connectivity. -/
def buildModifiedQueenPost
    (width roof_pitch_deg overhang_length tanP cosP sinP : α) :
    Except String (TrussGeom α) := do
  let height ← roofTrussInit width roof_pitch_deg overhang_length tanP
  let s : RoofState α := ⟨width, height, overhang_length, cosP, sinP⟩
  let nodes := [((0 : α), (0 : α)), (1 * s.width / 4, 0), (s.width / 2, 0),
    (3 * s.width / 4, 0), (s.width, 0), (1 * s.width / 6, s.height / 3),
    (2 * s.width / 6, 2 * s.height / 3), (s.width / 2, s.height),
    (4 * s.width / 6, 2 * s.height / 3), (5 * s.width / 6, s.height / 3)]
    ++ overhangNodes s
  pure ⟨nodes, roofTopChord s [0, 5, 6, 7] [7, 8, 9, 4] 10 11,
    .flatIds [0, 1, 2, 3, 4],
    [(1, 5), (1, 6), (2, 6), (2, 8), (3, 8), (3, 9)], [(2, 7)]⟩

/-- DoubleFinkRoofTruss define_nodes and define_connectivity. -/
def buildDoubleFink (width roof_pitch_deg overhang_length tanP cosP sinP : α) :
    Except String (TrussGeom α) := do
  let height ← roofTrussInit width roof_pitch_deg overhang_length tanP
  let s : RoofState α := ⟨width, height, overhang_length, cosP, sinP⟩
  let nodes := [((0 : α), (0 : α)), (1 * s.width / 5, 0),
    (2 * s.width / 5, 0), (3 * s.width / 5, 0), (4 * s.width / 5, 0),
    (s.width, 0), (1 * s.width / 6, s.height / 3),
    (2 * s.width / 6, 2 * s.height / 3), (s.width / 2, s.height),
    (4 * s.width / 6, 2 * s.height / 3), (5 * s.width / 6, s.height / 3)]
    ++ overhangNodes s
  pure ⟨nodes, roofTopChord s [0, 6, 7, 8] [8, 9, 10, 5] 11 12,
    .flatIds [0, 1, 2, 3, 4, 5],
    [(1, 6), (1, 7), (2, 7), (2, 8), (3, 8), (3, 9), (4, 9), (4, 10)], []⟩

/-- DoubleHoweRoofTruss define_nodes and define_connectivity. -/
def buildDoubleHowe (width roof_pitch_deg overhang_length tanP cosP sinP : α) :
    Except String (TrussGeom α) := do
  let height ← roofTrussInit width roof_pitch_deg overhang_length tanP
  let s : RoofState α := ⟨width, height, overhang_length, cosP, sinP⟩
  let nodes := [((0 : α), (0 : α)), (1 * s.width / 6, 0),
    (2 * s.width / 6, 0), (s.width / 2, 0), (4 * s.width / 6, 0),
    (5 * s.width / 6, 0), (s.width, 0), (1 * s.width / 6, s.height / 3),
    (2 * s.width / 6, 2 * s.height / 3), (s.width / 2, s.height),
    (4 * s.width / 6, 2 * s.height / 3), (5 * s.width / 6, s.height / 3)]
    ++ overhangNodes s
  pure ⟨nodes, roofTopChord s [0, 7, 8, 9] [9, 10, 11, 6] 12 13,
    .flatIds [0, 1, 2, 3, 4, 5, 6], [(2, 7), (3, 8), (3, 10), (4, 11)],
    [(1, 7), (2, 8), (3, 9), (4, 10), (5, 11)]⟩

/-- ModifiedFanRoofTruss define_nodes and define_connectivity. -/
def buildModifiedFan
    (width roof_pitch_deg overhang_length tanP cosP sinP : α) :
    Except String (TrussGeom α) := do
  let height ← roofTrussInit width roof_pitch_deg overhang_length tanP
  let s : RoofState α := ⟨width, height, overhang_length, cosP, sinP⟩
  let nodes := [((0 : α), (0 : α)), (1 * s.width / 4, 0), (s.width / 2, 0),
    (3 * s.width / 4, 0), (s.width, 0), (1 * s.width / 8, 1 * s.height / 4),
    (2 * s.width / 8, 2 * s.height / 4), (3 * s.width / 8, 3 * s.height / 4),
    (s.width / 2, s.height), (5 * s.width / 8, 3 * s.height / 4),
    (6 * s.width / 8, 2 * s.height / 4), (7 * s.width / 8, 1 * s.height / 4)]
    ++ overhangNodes s
  pure ⟨nodes, roofTopChord s [0, 5, 6, 7, 8] [8, 9, 10, 11, 4] 12 13,
    .flatIds [0, 1, 2, 3, 4],
    [(1, 5), (1, 7), (2, 7), (2, 9), (3, 9), (3, 11)],
    [(1, 6), (2, 8), (3, 10)]⟩

/-- The attic geometry AtticRoofTruss.__init__ computes and validates
before delegating to RoofTruss.__init__. -/
structure AtticGeom (α : Type) where
  wall_x : α
  wall_y : α
  ceiling_y : α
  ceiling_x : α
  wall_ceiling_intersect : Bool
deriving DecidableEq

/-- AtticRoofTruss.__init__ up to the super().__init__ call: validates
attic_width, computes the wall position and the wall/roof intersection
height, defaults the ceiling height to it, computes where the ceiling
meets the sloped top chord, and rejects (with 1e-6 slack on both the
height and the horizontal comparison) a ceiling below the wall top. -/
def atticInitGeom (tanP width attic_width : α) (attic_height : Option α) :
    Except String (AtticGeom α) :=
  if attic_width ≤ 0 then .error "attic_width must be positive"
  else if width ≤ attic_width then
    .error "attic_width must be less than truss width"
  else
    let wall_x := width / 2 - attic_width / 2
    let wall_y := wall_x * tanP
    let ceiling_y :=
      match attic_height with
      | none => wall_y
      | some ah => ah
    let peak_height := width / 2 * tanP
    let ceiling_x := width / 2 - (peak_height - ceiling_y) / tanP
    if ceiling_y < wall_y - tol ∨ ceiling_x < wall_x - tol then
      .error "Attic height is too low"
    else
      .ok ⟨wall_x, wall_y, ceiling_y, ceiling_x, ceiling_y = wall_y⟩

/-- AtticRoofTruss define_nodes and define_connectivity (the attic
geometry is computed before RoofTruss.__init__ runs, matching the
source's constructor order). -/
def buildAttic (width roof_pitch_deg overhang_length tanP cosP sinP
    attic_width : α) (attic_height : Option α) :
    Except String (TrussGeom α) := do
  let ag ← atticInitGeom tanP width attic_width attic_height
  let height ← roofTrussInit width roof_pitch_deg overhang_length tanP
  let s : RoofState α := ⟨width, height, overhang_length, cosP, sinP⟩
  let bottomNodes : List (Vec α) := [((0 : α), (0 : α)), (ag.wall_x, 0),
    (s.width - ag.wall_x, 0), (s.width, 0)]
  let topNodes : List (Vec α) :=
    [(ag.wall_x / 2, ag.wall_y / 2), (ag.wall_x, ag.wall_y)]
    ++ (if ¬ ag.wall_ceiling_intersect then [(ag.ceiling_x, ag.ceiling_y)]
        else [])
    ++ [(s.width / 2, s.height)]
    ++ (if ¬ ag.wall_ceiling_intersect then
          [(s.width - ag.ceiling_x, ag.ceiling_y)]
        else [])
    ++ [(s.width - ag.wall_x, ag.wall_y), (s.width - ag.wall_x / 2,
          ag.wall_y / 2), (s.width / 2, ag.ceiling_y)]
  let nodes := bottomNodes ++ topNodes ++ overhangNodes s
  if ag.wall_ceiling_intersect then
    pure ⟨nodes,
      (if 0 < s.overhang_length then
        .segmented [("left", [10, 0, 4, 5, 6]), ("right", [6, 7, 8, 3, 11]),
          ("ceiling", [5, 9, 7])]
      else
        .segmented [("left", [0, 4, 5, 6]), ("right", [6, 7, 8, 3]),
          ("ceiling", [5, 9, 7])]),
      .flatIds [0, 1, 2, 3], [(1, 4), (9, 6), (2, 8)], [(1, 5), (2, 7)]⟩
  else
    pure ⟨nodes,
      (if 0 < s.overhang_length then
        .segmented [("left", [12, 0, 4, 5, 6, 7]),
          ("right", [7, 8, 9, 10, 3, 13]), ("ceiling", [6, 11, 8])]
      else
        .segmented [("left", [0, 4, 5, 6, 7]), ("right", [7, 8, 9, 10, 3]),
          ("ceiling", [6, 11, 8])]),
      .flatIds [0, 1, 2, 3], [(1, 4), (11, 7), (2, 10)], [(1, 5), (2, 9)]⟩

end RoofTrussDefs

section FlatBuilders

variable {α : Type} [LinearOrderedField α] [FloorRing α]

/-- HoweFlatTruss construction: FlatTruss.__init__ computations and
guards, then the Truss.__init__ width/height guards, then
define_nodes/define_connectivity. -/
def buildHoweFlat (width height unit_width : α) (end_type : EndType)
    (min_end_fraction : α) (enforce_even_units : Bool) :
    Except String (TrussGeom α) := do
  let fi ← flatTrussInit width unit_width min_end_fraction enforce_even_units
  if width ≤ 0 then .error "width must be positive"
  else if height ≤ 0 then .error "height must be positive"
  else
    let s : FlatState α := ⟨width, height, unit_width, end_type,
      min_end_fraction, enforce_even_units, fi.n_units, fi.end_width⟩
    let c := howeFlatConnectivity s
    pure ⟨howeFlatNodes s, .flatIds c.top, .flatIds c.bottom, c.webs,
      c.verticals⟩

/-- PrattFlatTruss construction. -/
def buildPrattFlat (width height unit_width : α) (end_type : EndType)
    (min_end_fraction : α) (enforce_even_units : Bool) :
    Except String (TrussGeom α) := do
  let fi ← flatTrussInit width unit_width min_end_fraction enforce_even_units
  if width ≤ 0 then .error "width must be positive"
  else if height ≤ 0 then .error "height must be positive"
  else
    let s : FlatState α := ⟨width, height, unit_width, end_type,
      min_end_fraction, enforce_even_units, fi.n_units, fi.end_width⟩
    let c := prattFlatConnectivity s
    pure ⟨prattFlatNodes s, .flatIds c.top, .flatIds c.bottom, c.webs,
      c.verticals⟩

/-- WarrenFlatTruss construction: forwards to FlatTruss.__init__ with the
hardcoded min_end_fraction = 0.5 and enforce_even_units = True (the
post-construction end_width adjustment does not affect the generated
geometry, so the geometry uses the FlatTruss.__init__ end_width). -/
def buildWarrenFlat (width height unit_width : α) (end_type : EndType) :
    Except String (TrussGeom α) := do
  let fi ← flatTrussInit width unit_width (1 / 2) true
  if width ≤ 0 then .error "width must be positive"
  else if height ≤ 0 then .error "height must be positive"
  else
    let s : FlatState α := ⟨width, height, unit_width, end_type,
      1 / 2, true, fi.n_units, fi.end_width⟩
    let c := warrenFlatConnectivity s
    pure ⟨warrenFlatNodes s, .flatIds c.top, .flatIds c.bottom, c.webs,
      c.verticals⟩

end FlatBuilders

section AssemblyDefs

variable {α : Type} [LinearOrderedField α]

/-- Section properties handed to SystemElements.add_element. -/
structure SectionProps (α : Type) where
  EI : α
  EA : α
  g : α
deriving DecidableEq

/-- One element definition pushed into the external structural model:
endpoint node ids, section properties, and the spring specification
(none for a continuous/moment connection, zero rotational springs at
both ends for a pinned member, exactly as add_elements passes
spring = None or spring = dict(1 = 0.0, 2 = 0.0)). -/
structure ElemDef (α : Type) where
  nodeA : ℤ
  nodeB : ℤ
  sec : SectionProps α
  spring : Option (α × α)
deriving DecidableEq

/-- add_segment_elements: walks the node pairs, appending one element per
pair to the system (ids are consecutive; the external model numbers
elements sequentially from 1) and collecting the returned element ids. -/
def addSegmentElements (sys : List (ElemDef α)) (node_pairs : List (ℤ × ℤ))
    (secProps : SectionProps α) (continuous : Bool) :
    List (ElemDef α) × List ℕ :=
  match node_pairs with
  | [] => (sys, [])
  | (i, j) :: rest =>
      let sys' := sys ++ [⟨i, j, secProps,
        if continuous then none else some (0, 0)⟩]
      let (sysOut, ids) := addSegmentElements sys' rest secProps continuous
      (sysOut, (sys'.length) :: ids)

/-- Element-id collections mirroring the
top/bottom_chord_element_ids union type. -/
inductive ElemIds where
  | flatIds (ids : List ℕ)
  | segmented (segs : List (String × List ℕ))
deriving DecidableEq

/-- Chord assembly: one add_segment_elements call per segment over the
consecutive node pairs (zip of the list with its tail), in mapping
order, or a single call for a flat chord. -/
def addChordElements (sys : List (ElemDef α)) (chord : Chord)
    (secProps : SectionProps α) (continuous : Bool) :
    List (ElemDef α) × ElemIds :=
  match chord with
  | .flatIds ids =>
      let (sysOut, elIds) :=
        addSegmentElements sys (consecPairs ids) secProps continuous
      (sysOut, .flatIds elIds)
  | .segmented segs =>
      match segs with
      | [] => (sys, .segmented [])
      | (name, ids) :: rest =>
          let (sys', elIds) :=
            addSegmentElements sys (consecPairs ids) secProps continuous
          let (sysOut, restIds) :=
            addChordElements sys' (.segmented rest) secProps continuous
          match restIds with
          | .segmented restSegs => (sysOut, .segmented ((name, elIds) :: restSegs))
          | .flatIds _ => (sysOut, .segmented [(name, elIds)])

/-- The element-id lists Truss.add_elements populates. -/
structure AssemblyResult (α : Type) where
  system : List (ElemDef α)
  bottom_chord_element_ids : ElemIds
  top_chord_element_ids : ElemIds
  web_element_ids : List ℕ
  web_verticals_element_ids : List ℕ

/-- Truss.add_elements: bottom chord first, then top chord, then web
diagonals (continuous = False) and web verticals (continuous = False),
threading the growing external system through each call. -/
def addElements (g : TrussGeom α) (bottom_chord_section top_chord_section
    web_section web_verticals_section : SectionProps α)
    (bottom_chord_continuous top_chord_continuous : Bool) :
    AssemblyResult α :=
  let (sys1, bottomIds) := addChordElements [] g.bottom_chord_node_ids
    bottom_chord_section bottom_chord_continuous
  let (sys2, topIds) := addChordElements sys1 g.top_chord_node_ids
    top_chord_section top_chord_continuous
  let (sys3, webIds) := addSegmentElements sys2 g.web_node_pairs
    web_section false
  let (sys4, vertIds) := addSegmentElements sys3 g.web_verticals_node_pairs
    web_verticals_section false
  ⟨sys4, bottomIds, topIds, webIds, vertIds⟩

/-- Structured model of the errors get_element_ids_of_chord raises:
a KeyError carrying the missing segment and the available segment
names, or the ValueError for a chord other than top/bottom. -/
inductive ChordLookupErr where
  | keyNotFound (segment : String) (available : List String)
  | badChord
deriving DecidableEq

/-- Truss.get_element_ids_of_chord: for a segmented chord with no segment
given, the concatenation of all segments' element ids in mapping order;
for a named segment, that segment's ids or a KeyError listing the
available names; for a flat chord, its id list. -/
def getElementIdsOfChordIn (ids : ElemIds) (chord_segment : Option String) :
    Except ChordLookupErr (List ℕ) :=
  match ids with
  | .segmented segs =>
      match chord_segment with
      | none => .ok ((segs.map Prod.snd).flatten)
      | some seg =>
          match segs.lookup seg with
          | some found => .ok found
          | none => .error (.keyNotFound seg (segs.map Prod.fst))
  | .flatIds l => .ok l

/-- The chord argument of get_element_ids_of_chord. -/
inductive WhichChord where
  | top
  | bottom
  | other
deriving DecidableEq

/-- Truss.get_element_ids_of_chord dispatching on the chord argument. -/
def getElementIdsOfChord (r : AssemblyResult α) (chord : WhichChord)
    (chord_segment : Option String) : Except ChordLookupErr (List ℕ) :=
  match chord with
  | .top => getElementIdsOfChordIn r.top_chord_element_ids chord_segment
  | .bottom => getElementIdsOfChordIn r.bottom_chord_element_ids chord_segment
  | .other => .error .badChord

end AssemblyDefs

section FactoryDefs

/-- The fourteen concrete topology classes create_truss can return. -/
inductive TrussClass where
  | howeFlat
  | prattFlat
  | warrenFlat
  | kingPost
  | queenPost
  | fink
  | howeRoof
  | prattRoof
  | fan
  | modifiedQueenPost
  | doubleFink
  | doubleHowe
  | modifiedFan
  | attic
deriving DecidableEq

/-- The name normalization in create_truss: lowercase, then hyphens and
spaces replaced by underscores.  A single-character str.replace is a
character-by-character map, and lower() acts character-wise on the ASCII
names involved, so the whole normalization is one map over the
characters. -/
def normalizeTrussType (truss_type : String) : String :=
  ⟨truss_type.data.map (fun c =>
      let lc := c.toLower
      if lc = Char.ofNat 45 ∨ lc = Char.ofNat 32 then Char.ofNat 95 else lc)⟩

/-- The truss_map literal of create_truss, in source order (a Python dict
iterates and looks up insertion-ordered unique keys). -/
def trussMap : List (String × TrussClass) :=
  [("howe", .howeFlat), ("howe_flat", .howeFlat),
   ("pratt", .prattFlat), ("pratt_flat", .prattFlat),
   ("warren", .warrenFlat), ("warren_flat", .warrenFlat),
   ("king_post", .kingPost), ("kingpost", .kingPost),
   ("queen_post", .queenPost), ("queenpost", .queenPost),
   ("fink", .fink),
   ("howe_roof", .howeRoof),
   ("pratt_roof", .prattRoof),
   ("fan", .fan),
   ("modified_queen_post", .modifiedQueenPost),
   ("modified_queenpost", .modifiedQueenPost),
   ("double_fink", .doubleFink), ("doublefink", .doubleFink),
   ("double_howe", .doubleHowe), ("doublehowe", .doubleHowe),
   ("modified_fan", .modifiedFan), ("modifiedfan", .modifiedFan),
   ("attic", .attic), ("attic_roof", .attic)]

/-- Insertion into a string list sorted by the code-point order Python's
sorted uses, which is the lexicographic order on the underlying
character lists (the same order as Lean's String order, stated on .data
so that it evaluates structurally). -/
def insertStr (x : String) : List String → List String
  | [] => [x]
  | y :: ys => if y.data < x.data then y :: insertStr x ys else x :: y :: ys

/-- Insertion sort by code-point order, modelling Python's sorted. -/
def sortStrs : List String → List String
  | [] => []
  | x :: xs => insertStr x (sortStrs xs)

/-- sorted(set(truss_map.keys())): the enumeration embedded in the
unknown-type error message. -/
def availableTrussTypes : List String :=
  sortStrs (trussMap.map Prod.fst).dedup

/-- Structured model of the ValueError create_truss raises for an
unknown type: it carries the requested name and the sorted enumeration
of all known names joined into the message. -/
inductive FactoryErr where
  | unknownType (requested : String) (available : List String)
deriving DecidableEq

/-- create_truss up to the class lookup: normalizes the name and resolves
it in truss_map, or fails carrying sorted(set(keys)). -/
def createTrussClass (truss_type : String) : Except FactoryErr TrussClass :=
  let normalized := normalizeTrussType truss_type
  match trussMap.lookup normalized with
  | some cls => .ok cls
  | none => .error (.unknownType truss_type availableTrussTypes)

end FactoryDefs

section LoadCombinationDefs

variable {M : Type} [Inhabited M]

/-- Modelled from the spec: the external structural model SystemElements
(anastruct.fem.system, not among the sources under src/) is abstracted
as an opaque value type M with value-semantic deep copy (spec §6
requires value semantics of the model's deep-copy operation); setting
the load factor, applying a case's loads and solving are abstracted as
one state transformer on values, and the member-by-member summation of
the combination step as a binary operation.  Object identity is made
explicit through a heap: a list of live model instances addressed by
index, where copy.deepcopy allocates a fresh cell. -/
structure LoadCaseRef where
  name : String
deriving DecidableEq

/-- The per-case loop of LoadCombination.solve: for each (case, factor)
entry of the combination's spec (insertion order), deep-copy the target
system into a fresh heap cell, mutate only that cell by setting the
factor, applying the case and solving, and record the case name with
the address of its solved copy. -/
def lcSolveCases (applyAndSolve : M → LoadCaseRef → ℚ → M)
    (spec : List (LoadCaseRef × ℚ)) (sysAddr : ℕ) (heap : List M) :
    List M × List (String × ℕ) :=
  match spec with
  | [] => (heap, [])
  | (lc, factor) :: rest =>
      let ssAddr := heap.length
      let heap1 := heap ++ [heap.getD sysAddr default]
      let heap2 := heap1.set ssAddr
        (applyAndSolve (heap1.getD ssAddr default) lc factor)
      let (heapOut, results) := lcSolveCases applyAndSolve rest sysAddr heap2
      (heapOut, (lc.name, ssAddr) :: results)

/-- LoadCombination.solve: run every case on its own deep copy, then
deep-copy the original (unloaded) system once more and accumulate the
member-by-member sum of all per-case solved states into that copy,
returned under the literal key "combination". -/
def lcSolve (applyAndSolve : M → LoadCaseRef → ℚ → M) (elemSum : M → M → M)
    (spec : List (LoadCaseRef × ℚ)) (sysAddr : ℕ) (heap : List M) :
    List M × List (String × ℕ) :=
  let (heap1, results) := lcSolveCases applyAndSolve spec sysAddr heap
  let combAddr := heap1.length
  let heap2 := heap1 ++ [heap1.getD sysAddr default]
  let heap3 := heap2.set combAddr
    (results.foldl (fun acc pr => elemSum acc (heap2.getD pr.2 default))
      (heap2.getD combAddr default))
  (heap3, results ++ [("combination", combAddr)])

end LoadCombinationDefs

section TopoDispatch

variable {α : Type} [LinearOrderedField α] [FloorRing α]

/-- A concrete topology together with its constructor arguments (for the
roof family, tanP/cosP/sinP stand for tan/cos/sin of the pitch in
radians). -/
inductive TopoInput (α : Type) where
  | howeFlat (width height unit_width : α) (end_type : EndType)
      (min_end_fraction : α) (enforce_even_units : Bool)
  | prattFlat (width height unit_width : α) (end_type : EndType)
      (min_end_fraction : α) (enforce_even_units : Bool)
  | warrenFlat (width height unit_width : α) (end_type : EndType)
  | kingPost (width roof_pitch_deg overhang_length tanP cosP sinP : α)
  | queenPost (width roof_pitch_deg overhang_length tanP cosP sinP : α)
  | fink (width roof_pitch_deg overhang_length tanP cosP sinP : α)
  | howeRoof (width roof_pitch_deg overhang_length tanP cosP sinP : α)
  | prattRoof (width roof_pitch_deg overhang_length tanP cosP sinP : α)
  | fan (width roof_pitch_deg overhang_length tanP cosP sinP : α)
  | modifiedQueenPost (width roof_pitch_deg overhang_length tanP cosP sinP : α)
  | doubleFink (width roof_pitch_deg overhang_length tanP cosP sinP : α)
  | doubleHowe (width roof_pitch_deg overhang_length tanP cosP sinP : α)
  | modifiedFan (width roof_pitch_deg overhang_length tanP cosP sinP : α)
  | attic (width roof_pitch_deg overhang_length tanP cosP sinP
      attic_width : α) (attic_height : Option α)

/-- Construction of each of the fourteen topologies. -/
def buildTopo : TopoInput α → Except String (TrussGeom α)
  | .howeFlat w h uw et mef eeu => buildHoweFlat w h uw et mef eeu
  | .prattFlat w h uw et mef eeu => buildPrattFlat w h uw et mef eeu
  | .warrenFlat w h uw et => buildWarrenFlat w h uw et
  | .kingPost w d oh t c s => buildKingPost w d oh t c s
  | .queenPost w d oh t c s => buildQueenPost w d oh t c s
  | .fink w d oh t c s => buildFink w d oh t c s
  | .howeRoof w d oh t c s => buildHoweRoof w d oh t c s
  | .prattRoof w d oh t c s => buildPrattRoof w d oh t c s
  | .fan w d oh t c s => buildFan w d oh t c s
  | .modifiedQueenPost w d oh t c s => buildModifiedQueenPost w d oh t c s
  | .doubleFink w d oh t c s => buildDoubleFink w d oh t c s
  | .doubleHowe w d oh t c s => buildDoubleHowe w d oh t c s
  | .modifiedFan w d oh t c s => buildModifiedFan w d oh t c s
  | .attic w d oh t c s aw ah => buildAttic w d oh t c s aw ah

/-- The unit count FlatTruss.__init__ stores (floor of the pre-floor
count, decremented once when the symmetry flag is set and the floor is
odd). -/
def flatUnits (width unit_width min_end_fraction : α)
    (enforce_even_units : Bool) : ℤ :=
  let n0 := ⌊(width - unit_width * 2 * min_end_fraction) / unit_width⌋
  if enforce_even_units ∧ n0 % 2 ≠ 0 then n0 - 1 else n0

/-- The documented valid parameter ranges per topology: positive span,
height and panel width with a panel count that stays at least 2 (flat
family; the spec documents construction failure below that), pitch
strictly inside (0, 90) degrees (with the correspondingly positive
tangent), non-negative overhang, and feasible attic geometry (ceiling at
or above the wall/roof intersection). -/
def ValidInput : TopoInput α → Prop
  | .howeFlat w h uw _ mef eeu =>
      0 < w ∧ 0 < h ∧ 0 < uw ∧ 0 < mef ∧ mef ≤ 1 ∧
        1 ≤ (w - uw * 2 * mef) / uw ∧ 2 ≤ flatUnits w uw mef eeu
  | .prattFlat w h uw _ mef eeu =>
      0 < w ∧ 0 < h ∧ 0 < uw ∧ 0 < mef ∧ mef ≤ 1 ∧
        1 ≤ (w - uw * 2 * mef) / uw ∧ 2 ≤ flatUnits w uw mef eeu
  | .warrenFlat w h uw _ =>
      0 < w ∧ 0 < h ∧ 0 < uw ∧
        1 ≤ (w - uw * 2 * (1 / 2)) / uw ∧ 2 ≤ flatUnits w uw (1 / 2) true
  | .kingPost w d oh t _ _ => 0 < w ∧ 0 < d ∧ d < 90 ∧ 0 ≤ oh ∧ 0 < t
  | .queenPost w d oh t _ _ => 0 < w ∧ 0 < d ∧ d < 90 ∧ 0 ≤ oh ∧ 0 < t
  | .fink w d oh t _ _ => 0 < w ∧ 0 < d ∧ d < 90 ∧ 0 ≤ oh ∧ 0 < t
  | .howeRoof w d oh t _ _ => 0 < w ∧ 0 < d ∧ d < 90 ∧ 0 ≤ oh ∧ 0 < t
  | .prattRoof w d oh t _ _ => 0 < w ∧ 0 < d ∧ d < 90 ∧ 0 ≤ oh ∧ 0 < t
  | .fan w d oh t _ _ => 0 < w ∧ 0 < d ∧ d < 90 ∧ 0 ≤ oh ∧ 0 < t
  | .modifiedQueenPost w d oh t _ _ =>
      0 < w ∧ 0 < d ∧ d < 90 ∧ 0 ≤ oh ∧ 0 < t
  | .doubleFink w d oh t _ _ => 0 < w ∧ 0 < d ∧ d < 90 ∧ 0 ≤ oh ∧ 0 < t
  | .doubleHowe w d oh t _ _ => 0 < w ∧ 0 < d ∧ d < 90 ∧ 0 ≤ oh ∧ 0 < t
  | .modifiedFan w d oh t _ _ => 0 < w ∧ 0 < d ∧ d < 90 ∧ 0 ≤ oh ∧ 0 < t
  | .attic w d oh t _ _ aw ah =>
      0 < w ∧ 0 < d ∧ d < 90 ∧ 0 ≤ oh ∧ 0 < t ∧ 0 < aw ∧ aw < w ∧
        (match ah with
         | none => True
         | some y => (w / 2 - aw / 2) * t ≤ y)

/-- No generated member (chord element, web diagonal or web vertical)
connects a node index to itself. -/
def NoSelfPair (g : TrussGeom α) : Prop :=
  ∀ pr ∈ memberPairs g, pr.1 ≠ pr.2

end TopoDispatch

section ValidateLemmas

variable {α : Type} [LinearOrderedField α]

theorem except_bind_unit_ok {ε γ : Type} (x : Except ε Unit)
    (f : Unit → Except ε γ) (c : γ) :
    (x >>= f) = .ok c ↔ x = .ok () ∧ f () = .ok c := by
  cases x with
  | ok u => cases u; simp [Bind.bind, Except.bind]
  | error e => simp [Bind.bind, Except.bind]

theorem except_bind_unit_error {ε γ : Type} (x : Except ε Unit)
    (f : Unit → Except ε γ) (e : ε) :
    (x >>= f) = .error e ↔ x = .error e ∨ (x = .ok () ∧ f () = .error e) := by
  cases x with
  | ok u => cases u; simp [Bind.bind, Except.bind]
  | error e₀ => simp [Bind.bind, Except.bind]

theorem checkIds_ok_iff (maxId : ℤ) (l : List ℤ) :
    checkIds (α := α) maxId l = .ok () ↔ ∀ i ∈ l, 0 ≤ i ∧ i ≤ maxId := by
  induction l with
  | nil => simp [checkIds]
  | cons x xs ih =>
      by_cases hx : x < 0 ∨ x > maxId
      · simp only [checkIds, if_pos hx]
        constructor
        · intro h; exact absurd h (by simp)
        · intro h
          rcases hx with hx | hx
          · exact absurd (h x (List.mem_cons_self x xs)).1 (not_le.mpr hx)
          · exact absurd (h x (List.mem_cons_self x xs)).2 (not_le.mpr hx)
      · simp only [checkIds, if_neg hx, ih]
        push_neg at hx
        constructor
        · intro h y hy
          rcases List.mem_cons.mp hy with rfl | hy
          · exact hx
          · exact h y hy
        · intro h y hy; exact h y (List.mem_cons_of_mem _ hy)

theorem checkIds_error_shape (maxId : ℤ) (l : List ℤ) (e : VErr α)
    (h : checkIds maxId l = .error e) :
    ∃ i, e = .badIndex i maxId ∧ i ∈ l ∧ (i < 0 ∨ maxId < i) := by
  induction l with
  | nil => simp [checkIds] at h
  | cons x xs ih =>
      by_cases hx : x < 0 ∨ x > maxId
      · simp only [checkIds, if_pos hx] at h
        exact ⟨x, (Except.error.injEq _ _).mp h.symm ▸ rfl,
          List.mem_cons_self x xs, hx⟩
      · simp only [checkIds, if_neg hx] at h
        obtain ⟨i, hi, hmem, hbad⟩ := ih h
        exact ⟨i, hi, List.mem_cons_of_mem _ hmem, hbad⟩

theorem checkChordIds_ok_iff (maxId : ℤ) (c : Chord) :
    checkChordIds (α := α) maxId c = .ok () ↔
      ∀ i ∈ c.allIds, 0 ≤ i ∧ i ≤ maxId := by
  cases c with
  | flatIds ids => simp [checkChordIds, Chord.allIds, checkIds_ok_iff]
  | segmented segs =>
      induction segs with
      | nil => simp [checkChordIds, Chord.allIds]
      | cons seg rest ih =>
          obtain ⟨name, ids⟩ := seg
          simp only [checkChordIds, except_bind_unit_ok, ih,
            checkIds_ok_iff, Chord.allIds, List.map_cons, List.flatten_cons,
            List.mem_append]
          constructor
          · rintro ⟨h1, h2⟩ i hi
            rcases hi with hi | hi
            · exact h1 i hi
            · exact h2 i hi
          · intro h
            exact ⟨fun i hi => h i (Or.inl hi), fun i hi => h i (Or.inr hi)⟩

theorem checkChordIds_error_shape (maxId : ℤ) (c : Chord) (e : VErr α)
    (h : checkChordIds maxId c = .error e) :
    ∃ i, e = .badIndex i maxId := by
  cases c with
  | flatIds ids =>
      simp only [checkChordIds] at h
      obtain ⟨i, hi, _⟩ := checkIds_error_shape maxId ids e h
      exact ⟨i, hi⟩
  | segmented segs =>
      induction segs with
      | nil => simp [checkChordIds] at h
      | cons seg rest ih =>
          obtain ⟨name, ids⟩ := seg
          simp only [checkChordIds, except_bind_unit_error] at h
          rcases h with h | ⟨_, h⟩
          · obtain ⟨i, hi, _⟩ := checkIds_error_shape maxId ids e h
            exact ⟨i, hi⟩
          · exact ih h

theorem checkPairIds_ok_iff (maxId : ℤ) (l : List (ℤ × ℤ)) :
    checkPairIds (α := α) maxId l = .ok () ↔
      ∀ pr ∈ l, (0 ≤ pr.1 ∧ pr.1 ≤ maxId) ∧ (0 ≤ pr.2 ∧ pr.2 ≤ maxId) := by
  induction l with
  | nil => simp [checkPairIds]
  | cons pr rest ih =>
      obtain ⟨a, b⟩ := pr
      by_cases ha : a < 0 ∨ a > maxId
      · simp only [checkPairIds, if_pos ha]
        constructor
        · intro h; exact absurd h (by simp)
        · intro h
          have := (h (a, b) (List.mem_cons_self _ _)).1
          rcases ha with ha | ha
          · exact absurd this.1 (not_le.mpr ha)
          · exact absurd this.2 (not_le.mpr ha)
      · by_cases hb : b < 0 ∨ b > maxId
        · simp only [checkPairIds, if_neg ha, if_pos hb]
          constructor
          · intro h; exact absurd h (by simp)
          · intro h
            have := (h (a, b) (List.mem_cons_self _ _)).2
            rcases hb with hb | hb
            · exact absurd this.1 (not_le.mpr hb)
            · exact absurd this.2 (not_le.mpr hb)
        · simp only [checkPairIds, if_neg ha, if_neg hb, ih]
          push_neg at ha hb
          constructor
          · intro h pr hpr
            rcases List.mem_cons.mp hpr with rfl | hpr
            · exact ⟨ha, hb⟩
            · exact h pr hpr
          · intro h pr hpr; exact h pr (List.mem_cons_of_mem _ hpr)

theorem checkPairIds_error_shape (maxId : ℤ) (l : List (ℤ × ℤ)) (e : VErr α)
    (h : checkPairIds maxId l = .error e) :
    ∃ i, e = .badIndex i maxId := by
  induction l with
  | nil => simp [checkPairIds] at h
  | cons pr rest ih =>
      obtain ⟨a, b⟩ := pr
      by_cases ha : a < 0 ∨ a > maxId
      · simp only [checkPairIds, if_pos ha] at h
        exact ⟨a, ((Except.error.injEq _ _).mp h).symm⟩
      · by_cases hb : b < 0 ∨ b > maxId
        · simp only [checkPairIds, if_neg ha, if_pos hb] at h
          exact ⟨b, ((Except.error.injEq _ _).mp h).symm⟩
        · simp only [checkPairIds, if_neg ha, if_neg hb] at h
          exact ih h

end ValidateLemmas

section ValidateLemmas2

variable {α : Type} [LinearOrderedField α]

theorem dupFrom_ok_iff (i : ℕ) (p : Vec α) (j : ℕ) (l : List (Vec α)) :
    dupFrom i p j l = .ok () ↔ ∀ q ∈ l, nearB p q = false := by
  induction l generalizing j with
  | nil => simp [dupFrom]
  | cons q rest ih =>
      by_cases hq : nearB p q
      · simp only [dupFrom, if_pos hq]
        constructor
        · intro h; exact absurd h (by simp)
        · intro h; exact absurd hq (by simp [h q (List.mem_cons_self _ _)])
      · simp only [dupFrom, if_neg hq, ih]
        constructor
        · intro h r hr
          rcases List.mem_cons.mp hr with rfl | hr
          · exact Bool.not_eq_true _ ▸ (by simpa using hq)
          · exact h r hr
        · intro h r hr; exact h r (List.mem_cons_of_mem _ hr)

theorem dupFrom_error_shape (i : ℕ) (p : Vec α) (j : ℕ) (l : List (Vec α))
    (e : VErr α) (h : dupFrom i p j l = .error e) :
    ∃ k q, e = .dup i (j + k) p ∧ l.get? k = some q ∧ nearB p q = true := by
  induction l generalizing j with
  | nil => simp [dupFrom] at h
  | cons q rest ih =>
      by_cases hq : nearB p q
      · simp only [dupFrom, if_pos hq] at h
        exact ⟨0, q, by simpa using h.symm, rfl, hq⟩
      · simp only [dupFrom, if_neg hq] at h
        obtain ⟨k, r, he, hget, hnear⟩ := ih (j + 1) h
        exact ⟨k + 1, r, by rw [he]; ring_nf, by simpa using hget, hnear⟩

theorem dupScan_ok_iff (i : ℕ) (l : List (Vec α)) :
    dupScan i l = .ok () ↔ l.Pairwise (fun p q => nearB p q = false) := by
  induction l generalizing i with
  | nil => simp [dupScan]
  | cons p rest ih =>
      simp only [dupScan, except_bind_unit_ok, dupFrom_ok_iff, ih,
        List.pairwise_cons]

theorem dupScan_error_shape (i : ℕ) (l : List (Vec α)) (e : VErr α)
    (h : dupScan i l = .error e) :
    ∃ a b p q, e = .dup a b p ∧ a < b ∧ i ≤ a ∧
      l.get? (a - i) = some p ∧ l.get? (b - i) = some q ∧
      nearB p q = true := by
  induction l generalizing i with
  | nil => simp [dupScan] at h
  | cons p rest ih =>
      simp only [dupScan, except_bind_unit_error] at h
      rcases h with h | ⟨_, h⟩
      · obtain ⟨k, q, he, hget, hnear⟩ := dupFrom_error_shape i p (i + 1) rest e h
        refine ⟨i, i + 1 + k, p, q, he, by omega, le_refl i, ?_, ?_, hnear⟩
        · simp
        · have : i + 1 + k - i = k + 1 := by omega
          rw [this]
          simpa using hget
      · obtain ⟨a, b, p', q', he, hab, hia, hgp, hgq, hnear⟩ := ih (i + 1) h
        refine ⟨a, b, p', q', he, hab, by omega, ?_, ?_, hnear⟩
        · have : a - i = (a - (i + 1)) + 1 := by omega
          rw [this]
          simpa using hgp
        · have : b - i = (b - (i + 1)) + 1 := by omega
          rw [this]
          simpa using hgq

theorem checkSeqLengths_ok_iff (g : TrussGeom α) (l : List (ℤ × ℤ)) :
    checkSeqLengths g l = .ok () ↔
      ∀ pr ∈ l, ¬ ((nodeAt g pr.2).1 - (nodeAt g pr.1).1) ^ 2 +
        ((nodeAt g pr.2).2 - (nodeAt g pr.1).2) ^ 2 < tol * tol := by
  induction l with
  | nil => simp [checkSeqLengths]
  | cons pr rest ih =>
      obtain ⟨a, b⟩ := pr
      by_cases hd : ((nodeAt g b).1 - (nodeAt g a).1) ^ 2 +
          ((nodeAt g b).2 - (nodeAt g a).2) ^ 2 < tol * tol
      · simp only [checkSeqLengths, checkElementLength, except_bind_unit_error,
          except_bind_unit_ok, if_pos hd]
        constructor
        · intro h; exact absurd h (by simp)
        · intro h; exact absurd hd (h (a, b) (List.mem_cons_self _ _))
      · simp only [checkSeqLengths, checkElementLength, except_bind_unit_ok,
          if_neg hd, ih]
        constructor
        · intro h pr hpr
          rcases List.mem_cons.mp hpr with rfl | hpr
          · exact hd
          · exact h.2 pr hpr
        · intro h
          exact ⟨trivial, fun pr hpr => h pr (List.mem_cons_of_mem _ hpr)⟩

theorem checkSeqLengths_error_shape (g : TrussGeom α) (l : List (ℤ × ℤ))
    (e : VErr α) (h : checkSeqLengths g l = .error e) :
    ∃ a b, e = .zeroLen a b (nodeAt g a) ∧ (a, b) ∈ l ∧
      ((nodeAt g b).1 - (nodeAt g a).1) ^ 2 +
        ((nodeAt g b).2 - (nodeAt g a).2) ^ 2 < tol * tol := by
  induction l with
  | nil => simp [checkSeqLengths] at h
  | cons pr rest ih =>
      obtain ⟨a, b⟩ := pr
      by_cases hd : ((nodeAt g b).1 - (nodeAt g a).1) ^ 2 +
          ((nodeAt g b).2 - (nodeAt g a).2) ^ 2 < tol * tol
      · simp only [checkSeqLengths, checkElementLength, if_pos hd,
          except_bind_unit_error] at h
        rcases h with h | ⟨h, _⟩
        all_goals {
          exact ⟨a, b, by simpa using h.symm, List.mem_cons_self _ _, hd⟩ }
      · simp only [checkSeqLengths, checkElementLength, if_neg hd,
          except_bind_unit_error] at h
        rcases h with h | ⟨_, h⟩
        · exact absurd h (by simp)
        · obtain ⟨a', b', he, hmem, hlt⟩ := ih h
          exact ⟨a', b', he, List.mem_cons_of_mem _ hmem, hlt⟩

theorem checkChordLengths_ok_iff (g : TrussGeom α) (c : Chord) :
    checkChordLengths g c = .ok () ↔
      ∀ pr ∈ (c.segLists.map consecPairs).flatten,
        ¬ ((nodeAt g pr.2).1 - (nodeAt g pr.1).1) ^ 2 +
          ((nodeAt g pr.2).2 - (nodeAt g pr.1).2) ^ 2 < tol * tol := by
  cases c with
  | flatIds ids =>
      simp [checkChordLengths, Chord.segLists, checkSeqLengths_ok_iff]
  | segmented segs =>
      induction segs with
      | nil => simp [checkChordLengths, Chord.segLists]
      | cons seg rest ih =>
          obtain ⟨name, ids⟩ := seg
          simp only [checkChordLengths, except_bind_unit_ok,
            checkSeqLengths_ok_iff, ih, Chord.segLists, List.map_cons,
            List.map_map, List.flatten_cons, List.mem_append]
          constructor
          · rintro ⟨h1, h2⟩ pr hpr
            rcases hpr with hpr | hpr
            · exact h1 pr hpr
            · exact h2 pr hpr
          · intro h
            exact ⟨fun pr hpr => h pr (Or.inl hpr),
              fun pr hpr => h pr (Or.inr hpr)⟩

theorem checkChordLengths_error_shape (g : TrussGeom α) (c : Chord)
    (e : VErr α) (h : checkChordLengths g c = .error e) :
    ∃ a b, e = .zeroLen a b (nodeAt g a) := by
  cases c with
  | flatIds ids =>
      simp only [checkChordLengths] at h
      obtain ⟨a, b, he, _, _⟩ := checkSeqLengths_error_shape g _ e h
      exact ⟨a, b, he⟩
  | segmented segs =>
      induction segs with
      | nil => simp [checkChordLengths] at h
      | cons seg rest ih =>
          obtain ⟨name, ids⟩ := seg
          simp only [checkChordLengths, except_bind_unit_error] at h
          rcases h with h | ⟨_, h⟩
          · obtain ⟨a, b, he, _, _⟩ := checkSeqLengths_error_shape g _ e h
            exact ⟨a, b, he⟩
          · exact ih h

end ValidateLemmas2

section ValidateMain

variable {α : Type} [LinearOrderedField α]

theorem idxOK_iff (g : TrussGeom α) :
    IdxOK g ↔
      (∀ i ∈ g.top_chord_node_ids.allIds,
        0 ≤ i ∧ i ≤ (g.nodes.length : ℤ) - 1) ∧
      (∀ i ∈ g.bottom_chord_node_ids.allIds,
        0 ≤ i ∧ i ≤ (g.nodes.length : ℤ) - 1) ∧
      (∀ pr ∈ g.web_node_pairs,
        (0 ≤ pr.1 ∧ pr.1 ≤ (g.nodes.length : ℤ) - 1) ∧
        (0 ≤ pr.2 ∧ pr.2 ≤ (g.nodes.length : ℤ) - 1)) ∧
      (∀ pr ∈ g.web_verticals_node_pairs,
        (0 ≤ pr.1 ∧ pr.1 ≤ (g.nodes.length : ℤ) - 1) ∧
        (0 ≤ pr.2 ∧ pr.2 ≤ (g.nodes.length : ℤ) - 1)) := by
  unfold IdxOK refIds
  constructor
  · intro h
    refine ⟨fun i hi => h i ?_, fun i hi => h i ?_,
      fun pr hpr => ⟨h pr.1 ?_, h pr.2 ?_⟩,
      fun pr hpr => ⟨h pr.1 ?_, h pr.2 ?_⟩⟩
    · simp only [List.mem_append]
      exact Or.inl (Or.inl (Or.inl hi))
    · simp only [List.mem_append]
      exact Or.inl (Or.inl (Or.inr hi))
    · simp only [List.mem_append]
      exact Or.inl (Or.inr (Or.inl (List.mem_map_of_mem Prod.fst hpr)))
    · simp only [List.mem_append]
      exact Or.inl (Or.inr (Or.inr (List.mem_map_of_mem Prod.snd hpr)))
    · simp only [List.mem_append]
      exact Or.inr (Or.inl (List.mem_map_of_mem Prod.fst hpr))
    · simp only [List.mem_append]
      exact Or.inr (Or.inr (List.mem_map_of_mem Prod.snd hpr))
  · rintro ⟨hT, hB, hW, hV⟩ i hi
    simp only [List.mem_append] at hi
    rcases hi with ((hi | hi) | (hi | hi)) | (hi | hi)
    · exact hT i hi
    · exact hB i hi
    · obtain ⟨pr, hpr, rfl⟩ := List.mem_map.mp hi
      exact (hW pr hpr).1
    · obtain ⟨pr, hpr, rfl⟩ := List.mem_map.mp hi
      exact (hW pr hpr).2
    · obtain ⟨pr, hpr, rfl⟩ := List.mem_map.mp hi
      exact (hV pr hpr).1
    · obtain ⟨pr, hpr, rfl⟩ := List.mem_map.mp hi
      exact (hV pr hpr).2

theorem noZeroLen_iff (g : TrussGeom α) :
    NoZeroLen g ↔
      (∀ pr ∈ (g.top_chord_node_ids.segLists.map consecPairs).flatten,
        ¬ ((nodeAt g pr.2).1 - (nodeAt g pr.1).1) ^ 2 +
          ((nodeAt g pr.2).2 - (nodeAt g pr.1).2) ^ 2 < tol * tol) ∧
      (∀ pr ∈ (g.bottom_chord_node_ids.segLists.map consecPairs).flatten,
        ¬ ((nodeAt g pr.2).1 - (nodeAt g pr.1).1) ^ 2 +
          ((nodeAt g pr.2).2 - (nodeAt g pr.1).2) ^ 2 < tol * tol) ∧
      (∀ pr ∈ g.web_node_pairs,
        ¬ ((nodeAt g pr.2).1 - (nodeAt g pr.1).1) ^ 2 +
          ((nodeAt g pr.2).2 - (nodeAt g pr.1).2) ^ 2 < tol * tol) ∧
      (∀ pr ∈ g.web_verticals_node_pairs,
        ¬ ((nodeAt g pr.2).1 - (nodeAt g pr.1).1) ^ 2 +
          ((nodeAt g pr.2).2 - (nodeAt g pr.1).2) ^ 2 < tol * tol) := by
  unfold NoZeroLen memberPairs
  simp only [List.map_append, List.flatten_append, List.forall_mem_append]
  tauto

theorem noDupNodes_iff (g : TrussGeom α) :
    NoDupNodes g ↔ g.nodes.Pairwise (fun p q => nearB p q = false) := by
  unfold NoDupNodes
  constructor
  · intro h
    exact h.imp (fun hpq => by simpa using hpq)
  · intro h
    exact h.imp (fun hpq => by simp [hpq])

theorem validate_ok_iff (g : TrussGeom α) :
    validate g = .ok true ↔ IdxOK g ∧ NoDupNodes g ∧ NoZeroLen g := by
  unfold validate
  simp only [except_bind_unit_ok, checkChordIds_ok_iff, checkPairIds_ok_iff,
    dupScan_ok_iff, checkChordLengths_ok_iff, checkSeqLengths_ok_iff,
    idxOK_iff, noZeroLen_iff, noDupNodes_iff]
  have hpure : (pure true : Except (VErr α) Bool) = .ok true := rfl
  rw [hpure]
  tauto

theorem validate_error_index (g : TrussGeom α) (h : ¬ IdxOK g) :
    ∃ e, validate g = .error e ∧ e.cat = .index := by
  rw [idxOK_iff] at h
  cases h1 : checkChordIds (α := α) ((g.nodes.length : ℤ) - 1)
      g.top_chord_node_ids with
  | error e =>
      refine ⟨e, ?_, ?_⟩
      · simp [validate, h1, Bind.bind, Except.bind]
      · obtain ⟨i, hi⟩ := checkChordIds_error_shape _ _ e h1
        simp [hi, VErr.cat]
  | ok u =>
      cases u
      cases h2 : checkChordIds (α := α) ((g.nodes.length : ℤ) - 1)
          g.bottom_chord_node_ids with
      | error e =>
          refine ⟨e, ?_, ?_⟩
          · simp [validate, h1, h2, Bind.bind, Except.bind]
          · obtain ⟨i, hi⟩ := checkChordIds_error_shape _ _ e h2
            simp [hi, VErr.cat]
      | ok u =>
          cases u
          cases h3 : checkPairIds (α := α) ((g.nodes.length : ℤ) - 1)
              g.web_node_pairs with
          | error e =>
              refine ⟨e, ?_, ?_⟩
              · simp [validate, h1, h2, h3, Bind.bind, Except.bind]
              · obtain ⟨i, hi⟩ := checkPairIds_error_shape _ _ e h3
                simp [hi, VErr.cat]
          | ok u =>
              cases u
              cases h4 : checkPairIds (α := α) ((g.nodes.length : ℤ) - 1)
                  g.web_verticals_node_pairs with
              | error e =>
                  refine ⟨e, ?_, ?_⟩
                  · simp [validate, h1, h2, h3, h4, Bind.bind, Except.bind]
                  · obtain ⟨i, hi⟩ := checkPairIds_error_shape _ _ e h4
                    simp [hi, VErr.cat]
              | ok u =>
                  cases u
                  exact absurd ⟨(checkChordIds_ok_iff _ _).mp h1,
                    (checkChordIds_ok_iff _ _).mp h2,
                    (checkPairIds_ok_iff _ _).mp h3,
                    (checkPairIds_ok_iff _ _).mp h4⟩ h

theorem idxOK_checks_ok (g : TrussGeom α) (h : IdxOK g) :
    checkChordIds (α := α) ((g.nodes.length : ℤ) - 1)
        g.top_chord_node_ids = .ok () ∧
    checkChordIds (α := α) ((g.nodes.length : ℤ) - 1)
        g.bottom_chord_node_ids = .ok () ∧
    checkPairIds (α := α) ((g.nodes.length : ℤ) - 1)
        g.web_node_pairs = .ok () ∧
    checkPairIds (α := α) ((g.nodes.length : ℤ) - 1)
        g.web_verticals_node_pairs = .ok () := by
  rw [idxOK_iff] at h
  exact ⟨(checkChordIds_ok_iff _ _).mpr h.1,
    (checkChordIds_ok_iff _ _).mpr h.2.1,
    (checkPairIds_ok_iff _ _).mpr h.2.2.1,
    (checkPairIds_ok_iff _ _).mpr h.2.2.2⟩

theorem validate_error_dup (g : TrussGeom α) (h1 : IdxOK g)
    (h2 : ¬ NoDupNodes g) :
    ∃ i j p q, validate g = .error (.dup i j p) ∧ i < j ∧
      g.nodes.get? i = some p ∧ g.nodes.get? j = some q ∧
      nearB p q = true := by
  obtain ⟨c1, c2, c3, c4⟩ := idxOK_checks_ok g h1
  cases hd : dupScan 0 g.nodes with
  | ok u =>
      cases u
      exact absurd ((noDupNodes_iff g).mpr ((dupScan_ok_iff _ _).mp hd)) h2
  | error e =>
      obtain ⟨a, b, p, q, he, hab, _, hgp, hgq, hnear⟩ :=
        dupScan_error_shape 0 g.nodes e hd
      simp only [Nat.sub_zero] at hgp hgq
      refine ⟨a, b, p, q, ?_, hab, hgp, hgq, hnear⟩
      rw [← he]
      simp [validate, c1, c2, c3, c4, hd, Bind.bind, Except.bind]

theorem validate_error_zero (g : TrussGeom α) (h1 : IdxOK g)
    (h2 : NoDupNodes g) (h3 : ¬ NoZeroLen g) :
    ∃ e, validate g = .error e ∧ e.cat = .zeroLength := by
  obtain ⟨c1, c2, c3, c4⟩ := idxOK_checks_ok g h1
  have hd : dupScan 0 g.nodes = (.ok () : Except (VErr α) Unit) :=
    (dupScan_ok_iff _ _).mpr ((noDupNodes_iff g).mp h2)
  rw [noZeroLen_iff] at h3
  cases l1 : checkChordLengths g g.top_chord_node_ids with
  | error e =>
      refine ⟨e, ?_, ?_⟩
      · simp [validate, c1, c2, c3, c4, hd, l1, Bind.bind, Except.bind]
      · obtain ⟨a, b, he⟩ := checkChordLengths_error_shape g _ e l1
        simp [he, VErr.cat]
  | ok u =>
      cases u
      cases l2 : checkChordLengths g g.bottom_chord_node_ids with
      | error e =>
          refine ⟨e, ?_, ?_⟩
          · simp [validate, c1, c2, c3, c4, hd, l1, l2, Bind.bind, Except.bind]
          · obtain ⟨a, b, he⟩ := checkChordLengths_error_shape g _ e l2
            simp [he, VErr.cat]
      | ok u =>
          cases u
          cases l3 : checkSeqLengths g g.web_node_pairs with
          | error e =>
              refine ⟨e, ?_, ?_⟩
              · simp [validate, c1, c2, c3, c4, hd, l1, l2, l3,
                  Bind.bind, Except.bind]
              · obtain ⟨a, b, he, _, _⟩ := checkSeqLengths_error_shape g _ e l3
                simp [he, VErr.cat]
          | ok u =>
              cases u
              cases l4 : checkSeqLengths g g.web_verticals_node_pairs with
              | error e =>
                  refine ⟨e, ?_, ?_⟩
                  · simp [validate, c1, c2, c3, c4, hd, l1, l2, l3, l4,
                      Bind.bind, Except.bind]
                  · obtain ⟨a, b, he, _, _⟩ :=
                      checkSeqLengths_error_shape g _ e l4
                    simp [he, VErr.cat]
              | ok u =>
                  cases u
                  exact absurd ⟨(checkChordLengths_ok_iff _ _).mp l1,
                    (checkChordLengths_ok_iff _ _).mp l2,
                    (checkSeqLengths_ok_iff _ _).mp l3,
                    (checkSeqLengths_ok_iff _ _).mp l4⟩ h3

end ValidateMain

section SeparationLemmas

variable {α : Type} [LinearOrderedField α]

theorem tol_pos : (0 : α) < tol := by
  unfold tol
  norm_num

theorem nearB_symm (p q : Vec α) : nearB p q = nearB q p := by
  unfold nearB
  rw [abs_sub_comm p.1 q.1, abs_sub_comm p.2 q.2]

theorem mem_segLists_mem_allIds (c : Chord) (l : List ℤ) (i : ℤ)
    (hl : l ∈ c.segLists) (hi : i ∈ l) : i ∈ c.allIds := by
  cases c with
  | flatIds ids =>
      simp only [Chord.segLists, List.mem_singleton] at hl
      subst hl
      exact hi
  | segmented segs =>
      simp only [Chord.segLists] at hl
      simp only [Chord.allIds, List.mem_flatten]
      exact ⟨l, hl, hi⟩

theorem consecPairs_mem (l : List ℤ) (pr : ℤ × ℤ) (h : pr ∈ consecPairs l) :
    pr.1 ∈ l ∧ pr.2 ∈ l := by
  obtain ⟨a, b⟩ := pr
  have := List.of_mem_zip h
  exact ⟨this.1, (List.tail_sublist l).mem this.2⟩

theorem memberPairs_mem_refIds (g : TrussGeom α) (pr : ℤ × ℤ)
    (h : pr ∈ memberPairs g) : pr.1 ∈ refIds g ∧ pr.2 ∈ refIds g := by
  unfold memberPairs at h
  simp only [List.mem_append] at h
  have intoRef : ∀ i : ℤ,
      (i ∈ g.top_chord_node_ids.allIds ∨ i ∈ g.bottom_chord_node_ids.allIds ∨
       i ∈ g.web_node_pairs.map Prod.fst ∨ i ∈ g.web_node_pairs.map Prod.snd ∨
       i ∈ g.web_verticals_node_pairs.map Prod.fst ∨
       i ∈ g.web_verticals_node_pairs.map Prod.snd) → i ∈ refIds g := by
    intro i hi
    unfold refIds
    simp only [List.mem_append]
    tauto
  rcases h with (h | h) | h
  · obtain ⟨l', hl', hpr⟩ := List.mem_flatten.mp h
    obtain ⟨l, hl, rfl⟩ := List.mem_map.mp hl'
    obtain ⟨h1, h2⟩ := consecPairs_mem l pr hpr
    simp only [List.mem_append] at hl
    rcases hl with hl | hl
    · exact ⟨intoRef _ (Or.inl (mem_segLists_mem_allIds _ l _ hl h1)),
        intoRef _ (Or.inl (mem_segLists_mem_allIds _ l _ hl h2))⟩
    · exact ⟨intoRef _ (Or.inr (Or.inl (mem_segLists_mem_allIds _ l _ hl h1))),
        intoRef _ (Or.inr (Or.inl (mem_segLists_mem_allIds _ l _ hl h2)))⟩
  · exact ⟨intoRef _ (Or.inr (Or.inr (Or.inl
        (List.mem_map_of_mem Prod.fst h)))),
      intoRef _ (Or.inr (Or.inr (Or.inr (Or.inl
        (List.mem_map_of_mem Prod.snd h)))))⟩
  · exact ⟨intoRef _ (Or.inr (Or.inr (Or.inr (Or.inr (Or.inl
        (List.mem_map_of_mem Prod.fst h)))))),
      intoRef _ (Or.inr (Or.inr (Or.inr (Or.inr (Or.inr
        (List.mem_map_of_mem Prod.snd h))))))⟩

theorem sq_sum_large_of_not_near (p q : Vec α) (h : nearB p q = false) :
    ¬ (q.1 - p.1) ^ 2 + (q.2 - p.2) ^ 2 < tol * tol := by
  intro hcon
  have hnot : ¬ (|p.1 - q.1| < tol ∧ |p.2 - q.2| < tol) := by
    intro hc
    simp [nearB, hc.1, hc.2] at h
  push_neg at hnot
  have habs1 : |p.1 - q.1| = |q.1 - p.1| := abs_sub_comm _ _
  have habs2 : |p.2 - q.2| = |q.2 - p.2| := abs_sub_comm _ _
  by_cases hx : tol ≤ |p.1 - q.1|
  · rw [habs1] at hx
    nlinarith [sq_nonneg (q.2 - p.2), sq_abs (q.1 - p.1),
      abs_nonneg (q.1 - p.1), tol_pos (α := α)]
  · have hy := hnot (not_le.mp hx)
    rw [habs2] at hy
    nlinarith [sq_nonneg (q.1 - p.1), sq_abs (q.2 - p.2),
      abs_nonneg (q.2 - p.2), tol_pos (α := α)]

theorem noZeroLen_of_sep (g : TrussGeom α) (h1 : IdxOK g) (h2 : NoSelfPair g)
    (h3 : NoDupNodes g) : NoZeroLen g := by
  intro pr hpr
  obtain ⟨hm1, hm2⟩ := memberPairs_mem_refIds g pr hpr
  obtain ⟨ha0, ha1⟩ := h1 _ hm1
  obtain ⟨hb0, hb1⟩ := h1 _ hm2
  have hne := h2 pr hpr
  have hlen : 1 ≤ g.nodes.length := by omega
  have hi : pr.1.toNat < g.nodes.length := by omega
  have hj : pr.2.toNat < g.nodes.length := by omega
  have hij : pr.1.toNat ≠ pr.2.toNat := by omega
  have hpa : nodeAt g pr.1 = g.nodes[pr.1.toNat] := by
    unfold nodeAt
    exact List.getD_eq_getElem _ _ hi
  have hpb : nodeAt g pr.2 = g.nodes[pr.2.toNat] := by
    unfold nodeAt
    exact List.getD_eq_getElem _ _ hj
  have hpw := (noDupNodes_iff g).mp h3
  rw [List.pairwise_iff_getElem] at hpw
  rcases Nat.lt_or_ge pr.1.toNat pr.2.toNat with hlt | hge
  · have := hpw _ _ hi hj hlt
    rw [hpa, hpb]
    exact sq_sum_large_of_not_near _ _ this
  · have hlt : pr.2.toNat < pr.1.toNat := by omega
    have := hpw _ _ hj hi hlt
    rw [nearB_symm] at this
    rw [hpa, hpb]
    exact sq_sum_large_of_not_near _ _ this

theorem validate_ok_of_sep (g : TrussGeom α) (h1 : IdxOK g)
    (h2 : NoSelfPair g) (h3 : NoDupNodes g) : validate g = .ok true :=
  (validate_ok_iff g).mpr ⟨h1, h3, noZeroLen_of_sep g h1 h2 h3⟩

end SeparationLemmas

section FlatInitLemmas

variable {α : Type} [LinearOrderedField α] [FloorRing α]

theorem flatTrussInit_ok (width unit_width min_end_fraction : α) (eeu : Bool)
    (huw : 0 < unit_width) (hm0 : 0 < min_end_fraction)
    (hm1 : min_end_fraction ≤ 1)
    (hf : 1 ≤ (width - unit_width * 2 * min_end_fraction) / unit_width)
    (hn : 2 ≤ flatUnits width unit_width min_end_fraction eeu) :
    flatTrussInit width unit_width min_end_fraction eeu =
      .ok ⟨flatUnits width unit_width min_end_fraction eeu,
        (width - flatUnits width unit_width min_end_fraction eeu * unit_width)
          / 2⟩ := by
  unfold flatTrussInit flatUnits
  rw [if_neg (not_le.mpr huw), if_neg (by push_neg; exact ⟨hm0, hm1⟩),
    if_neg (not_lt.mpr hf)]
  unfold flatUnits at hn
  rw [if_neg (not_lt.mpr hn)]

end FlatInitLemmas


/-- C2: Truss.validate returns True exactly when no violation exists
(no out-of-range reference, no duplicate nodes within tolerance 1e-6
on both axes, no member of Euclidean length below 1e-6), and otherwise
raises a ValueError for the first violation in the fixed category order:
first any out-of-range node index, then any coincident node pair (the
error naming both node indices and the shared position), then any
zero-length member — the zero-length category being checked
independently, i.e. firing whenever the duplicate-node check passes. -/
theorem truss_validate_first_violation (g : TrussGeom ℚ) :
    (validate g = .ok true ↔ IdxOK g ∧ NoDupNodes g ∧ NoZeroLen g) ∧
    (¬ IdxOK g → ∃ e, validate g = .error e ∧ e.cat = .index) ∧
    (IdxOK g → ¬ NoDupNodes g →
      ∃ i j p q, validate g = .error (.dup i j p) ∧ i < j ∧
        g.nodes.get? i = some p ∧ g.nodes.get? j = some q ∧
        nearB p q = true) ∧
    (IdxOK g → NoDupNodes g → ¬ NoZeroLen g →
      ∃ e, validate g = .error e ∧ e.cat = .zeroLength) :=
  ⟨validate_ok_iff g, validate_error_index g, validate_error_dup g,
    validate_error_zero g⟩

/-- Witness for C2 at a concrete two-node geometry with coincident
nodes: validate reports the duplicate pair. -/
theorem truss_validate_first_violation_witness :
    IdxOK (α := ℚ) ⟨[(0, 0), (0, 0)], .flatIds [0, 1], .flatIds [0], [], []⟩ ∧
    ¬ NoDupNodes (α := ℚ)
      ⟨[(0, 0), (0, 0)], .flatIds [0, 1], .flatIds [0], [], []⟩ ∧
    ∃ i j p q, validate (α := ℚ)
        ⟨[(0, 0), (0, 0)], .flatIds [0, 1], .flatIds [0], [], []⟩ =
          .error (.dup i j p) ∧ i < j ∧
        ([((0 : ℚ), (0 : ℚ)), (0, 0)]).get? i = some p ∧
        ([((0 : ℚ), (0 : ℚ)), (0, 0)]).get? j = some q ∧
        nearB p q = true := by
  have hnear : nearB ((0 : ℚ), (0 : ℚ)) ((0 : ℚ), (0 : ℚ)) = true := by
    simp [nearB, tol]
  have hidx : IdxOK (α := ℚ)
      ⟨[(0, 0), (0, 0)], .flatIds [0, 1], .flatIds [0], [], []⟩ := by
    unfold IdxOK refIds Chord.allIds
    intro i hi
    simp at hi
    rcases hi with rfl | rfl | rfl <;> simp
  have hdup : ¬ NoDupNodes (α := ℚ)
      ⟨[(0, 0), (0, 0)], .flatIds [0, 1], .flatIds [0], [], []⟩ := by
    intro h
    unfold NoDupNodes at h
    rw [List.pairwise_cons] at h
    exact absurd hnear (by simpa using h.1 (0, 0) (List.mem_singleton.mpr rfl))
  exact ⟨hidx, hdup,
    (truss_validate_first_violation _).2.2.1 hidx hdup⟩


/-- C10: for every Vertex v and right-hand operand w, the reflected
subtraction w - v dispatched through Vertex.__rsub__ evaluates to v - w
(it delegates to __sub__ without swapping), hence it is not the
mathematical w - v in general (explicit disagreement at v = (0,0),
w = scalar 1), while reflected addition and multiplication agree with
their mathematical forms. -/
theorem vertex_rsub_is_unswapped_sub :
    (∀ (v : Vec ℚ) (w : Operand ℚ), vRsub v w = vSub v w) ∧
    (∀ (v : Vec ℚ) (w : Operand ℚ), vRadd v w = mathReflAdd v w) ∧
    (∀ (v : Vec ℚ) (w : Operand ℚ), vRmul v w = mathReflMul v w) ∧
    vRsub ((0 : ℚ), (0 : ℚ)) (Operand.scalar 1) ≠
      mathReflSub ((0 : ℚ), (0 : ℚ)) (Operand.scalar 1) := by
  refine ⟨fun v w => rfl, fun v w => ?_, fun v w => ?_, by
    simp [vRsub, vSub, mathReflSub, Operand.coords, Prod.ext_iff]
    norm_num⟩
  · cases w <;> simp [vRadd, vAdd, mathReflAdd, Operand.coords, add_comm]
  · cases w <;> simp [vRmul, vMul, mathReflMul, Operand.coords, mul_comm]

/-- C1: for every flat truss with positive panel width and an end
fraction in (0, 1], the stored panel count equals
floor((width - 2 * min_end_fraction * unit_width) / unit_width),
decremented by one when enforce_even_units is set and that floor is odd
(the value of flatUnits); construction raises an error when the
pre-floor unit count is below 1, raises an error when the count after
the symmetry adjustment is below 2, and otherwise succeeds with that
count and the derived end width.  The witness instantiates
width = 20, unit_width = 2, defaults: n_units = 8. -/
theorem flat_truss_unit_count (width unit_width min_end_fraction : ℚ)
    (eeu : Bool) (huw : 0 < unit_width) (hm0 : 0 < min_end_fraction)
    (hm1 : min_end_fraction ≤ 1) :
    (flatUnits width unit_width min_end_fraction eeu =
      if eeu ∧ ⌊(width - unit_width * 2 * min_end_fraction) / unit_width⌋ % 2 ≠ 0
      then ⌊(width - unit_width * 2 * min_end_fraction) / unit_width⌋ - 1
      else ⌊(width - unit_width * 2 * min_end_fraction) / unit_width⌋) ∧
    ((width - unit_width * 2 * min_end_fraction) / unit_width < 1 →
      flatTrussInit width unit_width min_end_fraction eeu =
        .error "Width is too small for unit_width and min_end_fraction") ∧
    (1 ≤ (width - unit_width * 2 * min_end_fraction) / unit_width →
      flatUnits width unit_width min_end_fraction eeu < 2 →
      flatTrussInit width unit_width min_end_fraction eeu =
        .error "Truss must have at least 2 units") ∧
    (1 ≤ (width - unit_width * 2 * min_end_fraction) / unit_width →
      2 ≤ flatUnits width unit_width min_end_fraction eeu →
      flatTrussInit width unit_width min_end_fraction eeu =
        .ok ⟨flatUnits width unit_width min_end_fraction eeu,
          (width - flatUnits width unit_width min_end_fraction eeu * unit_width)
            / 2⟩) := by
  refine ⟨rfl, ?_, ?_, ?_⟩
  · intro hf
    unfold flatTrussInit
    rw [if_neg (not_le.mpr huw), if_neg (by push_neg; exact ⟨hm0, hm1⟩),
      if_pos hf]
  · intro hf hn
    unfold flatTrussInit
    rw [if_neg (not_le.mpr huw), if_neg (by push_neg; exact ⟨hm0, hm1⟩),
      if_neg (not_lt.mpr hf)]
    unfold flatUnits at hn
    rw [if_pos hn]
  · intro hf hn
    exact flatTrussInit_ok width unit_width min_end_fraction eeu huw hm0 hm1
      hf hn

/-- Witness for C1 at the claim concrete instance: width 20, panel
width 2, default end fraction 1/2 and symmetry flag: the floor is 9
(odd), decremented to n_units = 8, and construction succeeds. -/
theorem flat_truss_unit_count_witness :
    flatUnits (20 : ℚ) 2 (1 / 2) true = 8 ∧
    flatTrussInit (20 : ℚ) 2 (1 / 2) true = .ok ⟨8, 2⟩ := by
  have h9 : ⌊((20 : ℚ) - 2 * 2 * (1 / 2)) / 2⌋ = 9 := by norm_num
  have h8 : flatUnits (20 : ℚ) 2 (1 / 2) true = 8 := by
    unfold flatUnits
    rw [h9]
    norm_num
  have hok := (flat_truss_unit_count (20 : ℚ) 2 (1 / 2) true (by norm_num)
    (by norm_num) (by norm_num)).2.2.2 (by norm_num) (by rw [h8]; norm_num)
  rw [h8] at hok
  refine ⟨h8, ?_⟩
  rw [hok]
  norm_num


section TopologyLemmas

variable {α : Type} [LinearOrderedField α]

theorem mem_rangeCast (n : ℕ) (i : ℤ) :
    i ∈ (List.range n).map (fun k : ℕ => (k : ℤ)) ↔ 0 ≤ i ∧ i < n := by
  simp only [List.mem_map, List.mem_range]
  constructor
  · rintro ⟨k, hk, rfl⟩
    omega
  · rintro ⟨h0, hn⟩
    exact ⟨i.toNat, by omega, by omega⟩

theorem mem_rangeShift (m n : ℕ) (i : ℤ) :
    i ∈ (List.range n).map (fun k : ℕ => ((m : ℤ) + (k : ℤ))) ↔
      (m : ℤ) ≤ i ∧ i < (m : ℤ) + n := by
  simp only [List.mem_map, List.mem_range]
  constructor
  · rintro ⟨k, hk, rfl⟩
    omega
  · rintro ⟨h0, hn⟩
    exact ⟨(i - m).toNat, by omega, by omega⟩

theorem pairwise_lt_rangeCast (n : ℕ) :
    ((List.range n).map (fun k : ℕ => (k : ℤ))).Pairwise (· < ·) :=
  (List.pairwise_lt_range n).map _ (fun _ _ h => by exact_mod_cast h)

theorem pairwise_lt_rangeShift (m n : ℕ) :
    ((List.range n).map (fun k : ℕ => ((m : ℤ) + (k : ℤ)))).Pairwise (· < ·) :=
  (List.pairwise_lt_range n).map _ (fun _ _ h => by omega)

theorem pySlice_subset {β : Type} (l : List β) (a : ℤ) (b : Option ℤ) :
    pySlice l a b ⊆ l := by
  unfold pySlice
  cases b with
  | none => exact fun x hx => (List.drop_subset _ _) hx
  | some e =>
      exact fun x hx =>
        (List.take_subset _ _) ((List.drop_subset _ _) hx)

theorem pySliceRev_subset {β : Type} (l : List β) (a : Option ℤ) (b : ℤ) :
    pySliceRev l a b ⊆ l := by
  unfold pySliceRev
  by_cases hs : (match a with
    | none => (l.length : ℤ) - 1
    | some a => pyNorm l.length a) < 0
  · rw [if_pos hs]
    exact List.nil_subset l
  · rw [if_neg hs]
    intro x hx
    rw [List.mem_reverse] at hx
    exact (List.take_subset _ _) ((List.drop_subset _ _) hx)

theorem mem_zip_of_subsets {l1 l2 s1 s2 : List ℤ} (h1 : s1 ⊆ l1)
    (h2 : s2 ⊆ l2) (pr : ℤ × ℤ) (hpr : pr ∈ s1.zip s2) :
    pr.1 ∈ l1 ∧ pr.2 ∈ l2 := by
  obtain ⟨a, b⟩ := pr
  have := List.of_mem_zip hpr
  exact ⟨h1 this.1, h2 this.2⟩

theorem consecPairs_rel {R : ℤ → ℤ → Prop} (l : List ℤ) (h : l.Pairwise R)
    (pr : ℤ × ℤ) (hpr : pr ∈ consecPairs l) : R pr.1 pr.2 := by
  induction l with
  | nil => simp [consecPairs] at hpr
  | cons x xs ih =>
      cases xs with
      | nil => simp [consecPairs] at hpr
      | cons y ys =>
          rw [List.pairwise_cons] at h
          have hcp : consecPairs (x :: y :: ys) =
              (x, y) :: consecPairs (y :: ys) := rfl
          rw [hcp, List.mem_cons] at hpr
          rcases hpr with rfl | hpr
          · exact h.1 y (List.mem_cons_self _ _)
          · exact ih h.2 hpr

theorem pair_facts_bt {nb nt : ℕ} {N : ℤ} (hN : (nb : ℤ) + (nt : ℤ) ≤ N)
    (pr : ℤ × ℤ) (h1 : pr.1 ∈ (List.range nb).map (fun k : ℕ => (k : ℤ)))
    (h2 : pr.2 ∈ (List.range nt).map (fun k : ℕ => ((nb : ℤ) + (k : ℤ)))) :
    (0 ≤ pr.1 ∧ pr.1 < N) ∧ (0 ≤ pr.2 ∧ pr.2 < N) ∧ pr.1 ≠ pr.2 := by
  rw [mem_rangeCast] at h1
  rw [mem_rangeShift] at h2
  omega

theorem pair_facts_tb {nb nt : ℕ} {N : ℤ} (hN : (nb : ℤ) + (nt : ℤ) ≤ N)
    (pr : ℤ × ℤ) (h1 : pr.1 ∈ (List.range nt).map (fun k : ℕ => ((nb : ℤ) + (k : ℤ))))
    (h2 : pr.2 ∈ (List.range nb).map (fun k : ℕ => (k : ℤ))) :
    (0 ≤ pr.1 ∧ pr.1 < N) ∧ (0 ≤ pr.2 ∧ pr.2 < N) ∧ pr.1 ≠ pr.2 := by
  rw [mem_rangeShift] at h1
  rw [mem_rangeCast] at h2
  omega

theorem flat_geom_props (g : TrussGeom α) (nb nt : ℕ)
    (hlen : nb + nt ≤ g.nodes.length)
    (htop : g.top_chord_node_ids =
      .flatIds ((List.range nt).map (fun k : ℕ => ((nb : ℤ) + (k : ℤ)))))
    (hbot : g.bottom_chord_node_ids =
      .flatIds ((List.range nb).map (fun k : ℕ => (k : ℤ))))
    (hwebs : ∀ pr ∈ g.web_node_pairs,
      (0 ≤ pr.1 ∧ pr.1 < (g.nodes.length : ℤ)) ∧
      (0 ≤ pr.2 ∧ pr.2 < (g.nodes.length : ℤ)) ∧ pr.1 ≠ pr.2)
    (hverts : ∀ pr ∈ g.web_verticals_node_pairs,
      (0 ≤ pr.1 ∧ pr.1 < (g.nodes.length : ℤ)) ∧
      (0 ≤ pr.2 ∧ pr.2 < (g.nodes.length : ℤ)) ∧ pr.1 ≠ pr.2) :
    IdxOK g ∧ NoSelfPair g := by
  constructor
  · rw [idxOK_iff]
    refine ⟨?_, ?_, fun pr hpr => ?_, fun pr hpr => ?_⟩
    · intro i hi
      rw [htop] at hi
      simp only [Chord.allIds] at hi
      rw [mem_rangeShift] at hi
      omega
    · intro i hi
      rw [hbot] at hi
      simp only [Chord.allIds] at hi
      rw [mem_rangeCast] at hi
      omega
    · have := hwebs pr hpr
      omega
    · have := hverts pr hpr
      omega
  · intro pr hpr
    unfold memberPairs at hpr
    simp only [List.mem_append] at hpr
    rcases hpr with (hpr | hpr) | hpr
    · obtain ⟨pl, hpl, hmem⟩ := List.mem_flatten.mp hpr
      obtain ⟨l, hl, rfl⟩ := List.mem_map.mp hpl
      simp only [List.mem_append, htop, hbot, Chord.segLists,
        List.mem_singleton] at hl
      rcases hl with rfl | rfl
      · exact ne_of_lt (consecPairs_rel _ (pairwise_lt_rangeShift nb nt) pr hmem)
      · exact ne_of_lt (consecPairs_rel _ (pairwise_lt_rangeCast nb) pr hmem)
    · exact (hwebs pr hpr).2.2
    · exact (hverts pr hpr).2.2

end TopologyLemmas


section FlatTopologyProps

variable {α : Type} [LinearOrderedField α] [FloorRing α]

theorem howeFlatNodes_length (s : FlatState α) :
    (howeFlatNodes s).length =
      (s.n_units.toNat + 1 + (if s.end_type ≠ .triangle_up then 2 else 0)) +
      (s.n_units.toNat + 1 + (if s.end_type ≠ .triangle_down then 2 else 0)) := by
  unfold howeFlatNodes
  cases h : s.end_type <;> simp [h] <;> omega

theorem buildHoweFlat_ok (w h uw : α) (et : EndType) (mef : α) (eeu : Bool)
    (hw : 0 < w) (hh : 0 < h) (huw : 0 < uw) (hm0 : 0 < mef) (hm1 : mef ≤ 1)
    (hf : 1 ≤ (w - uw * 2 * mef) / uw) (hn : 2 ≤ flatUnits w uw mef eeu) :
    buildHoweFlat w h uw et mef eeu =
      .ok ⟨howeFlatNodes ⟨w, h, uw, et, mef, eeu, flatUnits w uw mef eeu,
            (w - flatUnits w uw mef eeu * uw) / 2⟩,
          .flatIds (howeFlatConnectivity ⟨w, h, uw, et, mef, eeu,
            flatUnits w uw mef eeu,
            (w - flatUnits w uw mef eeu * uw) / 2⟩).top,
          .flatIds (howeFlatConnectivity ⟨w, h, uw, et, mef, eeu,
            flatUnits w uw mef eeu,
            (w - flatUnits w uw mef eeu * uw) / 2⟩).bottom,
          (howeFlatConnectivity ⟨w, h, uw, et, mef, eeu,
            flatUnits w uw mef eeu,
            (w - flatUnits w uw mef eeu * uw) / 2⟩).webs,
          (howeFlatConnectivity ⟨w, h, uw, et, mef, eeu,
            flatUnits w uw mef eeu,
            (w - flatUnits w uw mef eeu * uw) / 2⟩).verticals⟩ := by
  unfold buildHoweFlat
  rw [flatTrussInit_ok w uw mef eeu huw hm0 hm1 hf hn]
  simp [Bind.bind, Except.bind, pure, Except.pure, if_neg (not_le.mpr hw),
    if_neg (not_le.mpr hh)]

theorem howeFlatConnectivity_webs_mem (s : FlatState α) (nb nt : ℕ)
    (hnb : nb = s.n_units.toNat + 1 +
      (if s.end_type ≠ .triangle_up then 2 else 0))
    (hnt : nt = s.n_units.toNat + 1 +
      (if s.end_type ≠ .triangle_down then 2 else 0))
    (hn2 : 2 ≤ s.n_units.toNat) (pr : ℤ × ℤ)
    (hpr : pr ∈ (howeFlatConnectivity s).webs) :
    (0 ≤ pr.1 ∧ pr.1 < ((nb + nt : ℕ) : ℤ)) ∧
    (0 ≤ pr.2 ∧ pr.2 < ((nb + nt : ℕ) : ℤ)) ∧ pr.1 ≠ pr.2 := by
  unfold howeFlatConnectivity at hpr
  rw [← hnb, ← hnt] at hpr
  simp only [List.mem_append] at hpr
  rcases hpr with (hs | hz) | hz
  · by_cases het : s.end_type = EndType.triangle_up
    · rw [if_pos het] at hs
      have hnb' : nb = s.n_units.toNat + 1 := by
        rw [hnb, if_neg (by simp [het])]
      have hnt' : nt = s.n_units.toNat + 3 := by
        rw [hnt, if_pos (by simp [het])]
      simp only [List.mem_cons, List.not_mem_nil, or_false] at hs
      rcases hs with rfl | rfl <;> refine ⟨by omega, by omega, by omega⟩
    · rw [if_neg het] at hs
      simp at hs
  · exact pair_facts_bt (by omega) pr
      ((mem_zip_of_subsets (pySlice_subset _ _ _) (pySlice_subset _ _ _)
        pr hz).1)
      ((mem_zip_of_subsets (pySlice_subset _ _ _) (pySlice_subset _ _ _)
        pr hz).2)
  · exact pair_facts_bt (by omega) pr
      ((mem_zip_of_subsets (pySliceRev_subset _ _ _) (pySliceRev_subset _ _ _)
        pr hz).1)
      ((mem_zip_of_subsets (pySliceRev_subset _ _ _) (pySliceRev_subset _ _ _)
        pr hz).2)

theorem howeFlatConnectivity_verts_mem (s : FlatState α) (nb nt : ℕ)
    (hnb : nb = s.n_units.toNat + 1 +
      (if s.end_type ≠ .triangle_up then 2 else 0))
    (hnt : nt = s.n_units.toNat + 1 +
      (if s.end_type ≠ .triangle_down then 2 else 0))
    (pr : ℤ × ℤ) (hpr : pr ∈ (howeFlatConnectivity s).verticals) :
    (0 ≤ pr.1 ∧ pr.1 < ((nb + nt : ℕ) : ℤ)) ∧
    (0 ≤ pr.2 ∧ pr.2 < ((nb + nt : ℕ) : ℤ)) ∧ pr.1 ≠ pr.2 := by
  unfold howeFlatConnectivity at hpr
  rw [← hnb, ← hnt] at hpr
  exact pair_facts_bt (by omega) pr
    ((mem_zip_of_subsets (pySlice_subset _ _ _) (pySlice_subset _ _ _)
      pr hpr).1)
    ((mem_zip_of_subsets (pySlice_subset _ _ _) (pySlice_subset _ _ _)
      pr hpr).2)

theorem howeFlat_props (w h uw : α) (et : EndType) (mef : α) (eeu : Bool)
    (hw : 0 < w) (hh : 0 < h) (huw : 0 < uw) (hm0 : 0 < mef) (hm1 : mef ≤ 1)
    (hf : 1 ≤ (w - uw * 2 * mef) / uw) (hn : 2 ≤ flatUnits w uw mef eeu) :
    ∃ g, buildHoweFlat w h uw et mef eeu = .ok g ∧ IdxOK g ∧ NoSelfPair g := by
  refine ⟨_, buildHoweFlat_ok w h uw et mef eeu hw hh huw hm0 hm1 hf hn, ?_⟩
  have hn2 : 2 ≤ (flatUnits w uw mef eeu).toNat := by omega
  apply flat_geom_props _
    ((flatUnits w uw mef eeu).toNat + 1 + (if et ≠ .triangle_up then 2 else 0))
    ((flatUnits w uw mef eeu).toNat + 1 +
      (if et ≠ .triangle_down then 2 else 0))
  · rw [howeFlatNodes_length]
  · rfl
  · rfl
  · intro pr hpr
    have := howeFlatConnectivity_webs_mem
      ⟨w, h, uw, et, mef, eeu, flatUnits w uw mef eeu,
        (w - flatUnits w uw mef eeu * uw) / 2⟩ _ _ rfl rfl hn2 pr hpr
    rw [howeFlatNodes_length]
    exact this
  · intro pr hpr
    have := howeFlatConnectivity_verts_mem
      ⟨w, h, uw, et, mef, eeu, flatUnits w uw mef eeu,
        (w - flatUnits w uw mef eeu * uw) / 2⟩ _ _ rfl rfl pr hpr
    rw [howeFlatNodes_length]
    exact this

theorem prattFlatNodes_length (s : FlatState α) :
    (prattFlatNodes s).length =
      (s.n_units.toNat + 1 + (if s.end_type ≠ .triangle_up then 2 else 0)) +
      (s.n_units.toNat + 1 + (if s.end_type ≠ .triangle_down then 2 else 0)) := by
  unfold prattFlatNodes
  exact howeFlatNodes_length s

theorem buildPrattFlat_ok (w h uw : α) (et : EndType) (mef : α) (eeu : Bool)
    (hw : 0 < w) (hh : 0 < h) (huw : 0 < uw) (hm0 : 0 < mef) (hm1 : mef ≤ 1)
    (hf : 1 ≤ (w - uw * 2 * mef) / uw) (hn : 2 ≤ flatUnits w uw mef eeu) :
    buildPrattFlat w h uw et mef eeu =
      .ok ⟨prattFlatNodes ⟨w, h, uw, et, mef, eeu, flatUnits w uw mef eeu,
            (w - flatUnits w uw mef eeu * uw) / 2⟩,
          .flatIds (prattFlatConnectivity ⟨w, h, uw, et, mef, eeu,
            flatUnits w uw mef eeu,
            (w - flatUnits w uw mef eeu * uw) / 2⟩).top,
          .flatIds (prattFlatConnectivity ⟨w, h, uw, et, mef, eeu,
            flatUnits w uw mef eeu,
            (w - flatUnits w uw mef eeu * uw) / 2⟩).bottom,
          (prattFlatConnectivity ⟨w, h, uw, et, mef, eeu,
            flatUnits w uw mef eeu,
            (w - flatUnits w uw mef eeu * uw) / 2⟩).webs,
          (prattFlatConnectivity ⟨w, h, uw, et, mef, eeu,
            flatUnits w uw mef eeu,
            (w - flatUnits w uw mef eeu * uw) / 2⟩).verticals⟩ := by
  unfold buildPrattFlat
  rw [flatTrussInit_ok w uw mef eeu huw hm0 hm1 hf hn]
  simp [Bind.bind, Except.bind, pure, Except.pure, if_neg (not_le.mpr hw),
    if_neg (not_le.mpr hh)]

theorem prattFlatConnectivity_webs_mem (s : FlatState α) (nb nt : ℕ)
    (hnb : nb = s.n_units.toNat + 1 +
      (if s.end_type ≠ .triangle_up then 2 else 0))
    (hnt : nt = s.n_units.toNat + 1 +
      (if s.end_type ≠ .triangle_down then 2 else 0))
    (hn2 : 2 ≤ s.n_units.toNat) (pr : ℤ × ℤ)
    (hpr : pr ∈ (prattFlatConnectivity s).webs) :
    (0 ≤ pr.1 ∧ pr.1 < ((nb + nt : ℕ) : ℤ)) ∧
    (0 ≤ pr.2 ∧ pr.2 < ((nb + nt : ℕ) : ℤ)) ∧ pr.1 ≠ pr.2 := by
  unfold prattFlatConnectivity at hpr
  rw [← hnb, ← hnt] at hpr
  simp only [List.mem_append] at hpr
  rcases hpr with (hs | hz) | hz
  · by_cases het : s.end_type = EndType.triangle_down
    · rw [if_pos het] at hs
      have hnb' : nb = s.n_units.toNat + 3 := by
        rw [hnb, if_pos (by simp [het])]
      have hnt' : nt = s.n_units.toNat + 1 := by
        rw [hnt, if_neg (by simp [het])]
      simp only [List.mem_cons, List.not_mem_nil, or_false] at hs
      rcases hs with rfl | rfl <;> refine ⟨by omega, by omega, by omega⟩
    · rw [if_neg het] at hs
      simp at hs
  · exact pair_facts_bt (by omega) pr
      ((mem_zip_of_subsets (pySlice_subset _ _ _) (pySlice_subset _ _ _)
        pr hz).1)
      ((mem_zip_of_subsets (pySlice_subset _ _ _) (pySlice_subset _ _ _)
        pr hz).2)
  · exact pair_facts_bt (by omega) pr
      ((mem_zip_of_subsets (pySliceRev_subset _ _ _) (pySliceRev_subset _ _ _)
        pr hz).1)
      ((mem_zip_of_subsets (pySliceRev_subset _ _ _) (pySliceRev_subset _ _ _)
        pr hz).2)

theorem prattFlatConnectivity_verts_mem (s : FlatState α) (nb nt : ℕ)
    (hnb : nb = s.n_units.toNat + 1 +
      (if s.end_type ≠ .triangle_up then 2 else 0))
    (hnt : nt = s.n_units.toNat + 1 +
      (if s.end_type ≠ .triangle_down then 2 else 0))
    (pr : ℤ × ℤ) (hpr : pr ∈ (prattFlatConnectivity s).verticals) :
    (0 ≤ pr.1 ∧ pr.1 < ((nb + nt : ℕ) : ℤ)) ∧
    (0 ≤ pr.2 ∧ pr.2 < ((nb + nt : ℕ) : ℤ)) ∧ pr.1 ≠ pr.2 := by
  unfold prattFlatConnectivity at hpr
  rw [← hnb, ← hnt] at hpr
  exact pair_facts_bt (by omega) pr
    ((mem_zip_of_subsets (pySlice_subset _ _ _) (pySlice_subset _ _ _)
      pr hpr).1)
    ((mem_zip_of_subsets (pySlice_subset _ _ _) (pySlice_subset _ _ _)
      pr hpr).2)

theorem prattFlat_props (w h uw : α) (et : EndType) (mef : α) (eeu : Bool)
    (hw : 0 < w) (hh : 0 < h) (huw : 0 < uw) (hm0 : 0 < mef) (hm1 : mef ≤ 1)
    (hf : 1 ≤ (w - uw * 2 * mef) / uw) (hn : 2 ≤ flatUnits w uw mef eeu) :
    ∃ g, buildPrattFlat w h uw et mef eeu = .ok g ∧ IdxOK g ∧ NoSelfPair g := by
  refine ⟨_, buildPrattFlat_ok w h uw et mef eeu hw hh huw hm0 hm1 hf hn, ?_⟩
  have hn2 : 2 ≤ (flatUnits w uw mef eeu).toNat := by omega
  apply flat_geom_props _
    ((flatUnits w uw mef eeu).toNat + 1 + (if et ≠ .triangle_up then 2 else 0))
    ((flatUnits w uw mef eeu).toNat + 1 +
      (if et ≠ .triangle_down then 2 else 0))
  · rw [prattFlatNodes_length]
  · rfl
  · rfl
  · intro pr hpr
    have := prattFlatConnectivity_webs_mem
      ⟨w, h, uw, et, mef, eeu, flatUnits w uw mef eeu,
        (w - flatUnits w uw mef eeu * uw) / 2⟩ _ _ rfl rfl hn2 pr hpr
    rw [prattFlatNodes_length]
    exact this
  · intro pr hpr
    have := prattFlatConnectivity_verts_mem
      ⟨w, h, uw, et, mef, eeu, flatUnits w uw mef eeu,
        (w - flatUnits w uw mef eeu * uw) / 2⟩ _ _ rfl rfl pr hpr
    rw [prattFlatNodes_length]
    exact this

theorem warrenFlatNodes_length (s : FlatState α) :
    (warrenFlatNodes s).length = 2 * (s.n_units.toNat + 1) + 4 := by
  unfold warrenFlatNodes
  cases h : s.end_type <;> simp [h] <;> omega

theorem buildWarrenFlat_ok (w h uw : α) (et : EndType)
    (hw : 0 < w) (hh : 0 < h) (huw : 0 < uw)
    (hf : 1 ≤ (w - uw * 2 * (1 / 2)) / uw)
    (hn : 2 ≤ flatUnits w uw (1 / 2) true) :
    buildWarrenFlat w h uw et =
      .ok ⟨warrenFlatNodes ⟨w, h, uw, et, 1 / 2, true,
            flatUnits w uw (1 / 2) true,
            (w - flatUnits w uw (1 / 2) true * uw) / 2⟩,
          .flatIds (warrenFlatConnectivity ⟨w, h, uw, et, 1 / 2, true,
            flatUnits w uw (1 / 2) true,
            (w - flatUnits w uw (1 / 2) true * uw) / 2⟩).top,
          .flatIds (warrenFlatConnectivity ⟨w, h, uw, et, 1 / 2, true,
            flatUnits w uw (1 / 2) true,
            (w - flatUnits w uw (1 / 2) true * uw) / 2⟩).bottom,
          (warrenFlatConnectivity ⟨w, h, uw, et, 1 / 2, true,
            flatUnits w uw (1 / 2) true,
            (w - flatUnits w uw (1 / 2) true * uw) / 2⟩).webs,
          (warrenFlatConnectivity ⟨w, h, uw, et, 1 / 2, true,
            flatUnits w uw (1 / 2) true,
            (w - flatUnits w uw (1 / 2) true * uw) / 2⟩).verticals⟩ := by
  unfold buildWarrenFlat
  rw [flatTrussInit_ok w uw (1 / 2) true huw (by norm_num) (by norm_num) hf hn]
  simp [Bind.bind, Except.bind, pure, Except.pure, if_neg (not_le.mpr hw),
    if_neg (not_le.mpr hh)]

theorem warrenFlat_props (w h uw : α) (et : EndType)
    (hw : 0 < w) (hh : 0 < h) (huw : 0 < uw)
    (hf : 1 ≤ (w - uw * 2 * (1 / 2)) / uw)
    (hn : 2 ≤ flatUnits w uw (1 / 2) true) :
    ∃ g, buildWarrenFlat w h uw et = .ok g ∧ IdxOK g ∧ NoSelfPair g := by
  refine ⟨_, buildWarrenFlat_ok w h uw et hw hh huw hf hn, ?_⟩
  have hn2 : 2 ≤ (flatUnits w uw (1 / 2) true).toNat := by omega
  apply flat_geom_props _
    ((flatUnits w uw (1 / 2) true).toNat +
      (if et = .triangle_down then 1 else 0))
    ((flatUnits w uw (1 / 2) true).toNat +
      (if et = .triangle_up then 1 else 0))
  · rw [warrenFlatNodes_length]
    rcases et <;> simp <;> omega
  · rfl
  · rfl
  · intro pr hpr
    rw [warrenFlatNodes_length]
    unfold warrenFlatConnectivity at hpr
    dsimp only at hpr ⊢
    have hite1 : (if et = EndType.triangle_down then 1 else 0) ≤ 1 := by
      rcases et <;> simp
    have hite2 : (if et = EndType.triangle_up then 1 else 0) ≤ 1 := by
      rcases et <;> simp
    simp only [List.mem_append] at hpr
    rcases hpr with hz | hz
    · have hm := mem_zip_of_subsets (List.Subset.refl _) (pySlice_subset _ _ _) pr hz
      have := pair_facts_bt (le_refl _) pr hm.1 hm.2
      constructor
      · omega
      constructor
      · omega
      · exact this.2.2
    · have hm := mem_zip_of_subsets (List.Subset.refl _) (pySlice_subset _ _ _) pr hz
      have := pair_facts_tb (le_refl _) pr hm.1 hm.2
      constructor
      · omega
      constructor
      · omega
      · exact this.2.2
  · intro pr hpr
    unfold warrenFlatConnectivity at hpr
    simp at hpr

end FlatTopologyProps


section RoofTopologyProps

variable {α : Type} [LinearOrderedField α]

theorem roofTrussInit_ok (w d oh t : α) (hw : 0 < w) (hd0 : 0 < d)
    (hd90 : d < 90) (hoh : 0 ≤ oh) (ht : 0 < t) :
    roofTrussInit w d oh t = .ok (w / 2 * t) := by
  unfold roofTrussInit
  rw [if_neg (by push_neg; exact ⟨hd0, hd90⟩), if_neg (not_lt.mpr hoh),
    if_neg (not_le.mpr hw), if_neg (not_le.mpr (by positivity))]

theorem idxOK_intro (g : TrussGeom α) (ids : List ℤ) (n : ℕ)
    (hids : refIds g = ids) (hn : g.nodes.length = n)
    (h : ∀ i ∈ ids, 0 ≤ i ∧ i ≤ (n : ℤ) - 1) : IdxOK g := by
  intro i hi
  rw [hn]
  exact h i (hids ▸ hi)

theorem noSelfPair_intro (g : TrussGeom α) (prs : List (ℤ × ℤ))
    (hprs : memberPairs g = prs) (h : ∀ pr ∈ prs, pr.1 ≠ pr.2) :
    NoSelfPair g :=
  fun pr hpr => h pr (hprs ▸ hpr)

theorem kingPost_props (w d oh t c sn : α) (hw : 0 < w) (hd0 : 0 < d)
    (hd90 : d < 90) (hoh : 0 ≤ oh) (ht : 0 < t) :
    ∃ g, buildKingPost w d oh t c sn = .ok g ∧ IdxOK g ∧ NoSelfPair g := by
  unfold buildKingPost
  rw [roofTrussInit_ok w d oh t hw hd0 hd90 hoh ht]
  simp only [Bind.bind, Except.bind, pure, Except.pure]
  refine ⟨_, rfl, ?_, ?_⟩ <;> rcases eq_or_lt_of_le hoh with h0 | hp
  · exact idxOK_intro _ [0, 3, 3, 2, 0, 1, 2, 1, 3] 4
      (by simp only [refIds, Chord.allIds, roofTopChord, overhangNodes,
        if_neg (not_lt.mpr h0.ge)]; rfl)
      (by simp only [overhangNodes, if_neg (not_lt.mpr h0.ge)]; rfl)
      (by decide)
  · exact idxOK_intro _ [4, 0, 3, 3, 2, 5, 0, 1, 2, 1, 3] 6
      (by simp only [refIds, Chord.allIds, roofTopChord, overhangNodes,
        if_pos hp]; rfl)
      (by simp only [overhangNodes, if_pos hp]; rfl)
      (by decide)
  · exact noSelfPair_intro _ [((0 : ℤ), (3 : ℤ)), ((3 : ℤ), (2 : ℤ)), ((0 : ℤ), (1 : ℤ)), ((1 : ℤ), (2 : ℤ)), ((1 : ℤ), (3 : ℤ))]
      (by simp only [memberPairs, Chord.segLists, consecPairs, roofTopChord,
        overhangNodes, if_neg (not_lt.mpr h0.ge)]; rfl)
      (by decide)
  · exact noSelfPair_intro _ [((4 : ℤ), (0 : ℤ)), ((0 : ℤ), (3 : ℤ)), ((3 : ℤ), (2 : ℤ)), ((2 : ℤ), (5 : ℤ)), ((0 : ℤ), (1 : ℤ)), ((1 : ℤ), (2 : ℤ)), ((1 : ℤ), (3 : ℤ))]
      (by simp only [memberPairs, Chord.segLists, consecPairs, roofTopChord,
        overhangNodes, if_pos hp]; rfl)
      (by decide)

theorem queenPost_props (w d oh t c sn : α) (hw : 0 < w) (hd0 : 0 < d)
    (hd90 : d < 90) (hoh : 0 ≤ oh) (ht : 0 < t) :
    ∃ g, buildQueenPost w d oh t c sn = .ok g ∧ IdxOK g ∧ NoSelfPair g := by
  unfold buildQueenPost
  rw [roofTrussInit_ok w d oh t hw hd0 hd90 hoh ht]
  simp only [Bind.bind, Except.bind, pure, Except.pure]
  refine ⟨_, rfl, ?_, ?_⟩ <;> rcases eq_or_lt_of_le hoh with h0 | hp
  · exact idxOK_intro _ [0, 3, 4, 4, 5, 2, 0, 1, 2, 1, 1, 3, 5, 1, 4] 6
      (by simp only [refIds, Chord.allIds, roofTopChord, overhangNodes,
        if_neg (not_lt.mpr h0.ge)]; rfl)
      (by simp only [overhangNodes, if_neg (not_lt.mpr h0.ge)]; rfl)
      (by decide)
  · exact idxOK_intro _ [6, 0, 3, 4, 4, 5, 2, 7, 0, 1, 2, 1, 1, 3, 5, 1, 4] 8
      (by simp only [refIds, Chord.allIds, roofTopChord, overhangNodes,
        if_pos hp]; rfl)
      (by simp only [overhangNodes, if_pos hp]; rfl)
      (by decide)
  · exact noSelfPair_intro _ [((0 : ℤ), (3 : ℤ)), ((3 : ℤ), (4 : ℤ)), ((4 : ℤ), (5 : ℤ)), ((5 : ℤ), (2 : ℤ)), ((0 : ℤ), (1 : ℤ)), ((1 : ℤ), (2 : ℤ)), ((1 : ℤ), (3 : ℤ)), ((1 : ℤ), (5 : ℤ)), ((1 : ℤ), (4 : ℤ))]
      (by simp only [memberPairs, Chord.segLists, consecPairs, roofTopChord,
        overhangNodes, if_neg (not_lt.mpr h0.ge)]; rfl)
      (by decide)
  · exact noSelfPair_intro _ [((6 : ℤ), (0 : ℤ)), ((0 : ℤ), (3 : ℤ)), ((3 : ℤ), (4 : ℤ)), ((4 : ℤ), (5 : ℤ)), ((5 : ℤ), (2 : ℤ)), ((2 : ℤ), (7 : ℤ)), ((0 : ℤ), (1 : ℤ)), ((1 : ℤ), (2 : ℤ)), ((1 : ℤ), (3 : ℤ)), ((1 : ℤ), (5 : ℤ)), ((1 : ℤ), (4 : ℤ))]
      (by simp only [memberPairs, Chord.segLists, consecPairs, roofTopChord,
        overhangNodes, if_pos hp]; rfl)
      (by decide)

theorem fink_props (w d oh t c sn : α) (hw : 0 < w) (hd0 : 0 < d)
    (hd90 : d < 90) (hoh : 0 ≤ oh) (ht : 0 < t) :
    ∃ g, buildFink w d oh t c sn = .ok g ∧ IdxOK g ∧ NoSelfPair g := by
  unfold buildFink
  rw [roofTrussInit_ok w d oh t hw hd0 hd90 hoh ht]
  simp only [Bind.bind, Except.bind, pure, Except.pure]
  refine ⟨_, rfl, ?_, ?_⟩ <;> rcases eq_or_lt_of_le hoh with h0 | hp
  · exact idxOK_intro _ [0, 4, 5, 5, 6, 3, 0, 1, 2, 3, 1, 1, 2, 2, 4, 5, 5, 6] 7
      (by simp only [refIds, Chord.allIds, roofTopChord, overhangNodes,
        if_neg (not_lt.mpr h0.ge)]; rfl)
      (by simp only [overhangNodes, if_neg (not_lt.mpr h0.ge)]; rfl)
      (by decide)
  · exact idxOK_intro _ [7, 0, 4, 5, 5, 6, 3, 8, 0, 1, 2, 3, 1, 1, 2, 2, 4, 5, 5, 6] 9
      (by simp only [refIds, Chord.allIds, roofTopChord, overhangNodes,
        if_pos hp]; rfl)
      (by simp only [overhangNodes, if_pos hp]; rfl)
      (by decide)
  · exact noSelfPair_intro _ [((0 : ℤ), (4 : ℤ)), ((4 : ℤ), (5 : ℤ)), ((5 : ℤ), (6 : ℤ)), ((6 : ℤ), (3 : ℤ)), ((0 : ℤ), (1 : ℤ)), ((1 : ℤ), (2 : ℤ)), ((2 : ℤ), (3 : ℤ)), ((1 : ℤ), (4 : ℤ)), ((1 : ℤ), (5 : ℤ)), ((2 : ℤ), (5 : ℤ)), ((2 : ℤ), (6 : ℤ))]
      (by simp only [memberPairs, Chord.segLists, consecPairs, roofTopChord,
        overhangNodes, if_neg (not_lt.mpr h0.ge)]; rfl)
      (by decide)
  · exact noSelfPair_intro _ [((7 : ℤ), (0 : ℤ)), ((0 : ℤ), (4 : ℤ)), ((4 : ℤ), (5 : ℤ)), ((5 : ℤ), (6 : ℤ)), ((6 : ℤ), (3 : ℤ)), ((3 : ℤ), (8 : ℤ)), ((0 : ℤ), (1 : ℤ)), ((1 : ℤ), (2 : ℤ)), ((2 : ℤ), (3 : ℤ)), ((1 : ℤ), (4 : ℤ)), ((1 : ℤ), (5 : ℤ)), ((2 : ℤ), (5 : ℤ)), ((2 : ℤ), (6 : ℤ))]
      (by simp only [memberPairs, Chord.segLists, consecPairs, roofTopChord,
        overhangNodes, if_pos hp]; rfl)
      (by decide)

theorem howeRoof_props (w d oh t c sn : α) (hw : 0 < w) (hd0 : 0 < d)
    (hd90 : d < 90) (hoh : 0 ≤ oh) (ht : 0 < t) :
    ∃ g, buildHoweRoof w d oh t c sn = .ok g ∧ IdxOK g ∧ NoSelfPair g := by
  unfold buildHoweRoof
  rw [roofTrussInit_ok w d oh t hw hd0 hd90 hoh ht]
  simp only [Bind.bind, Except.bind, pure, Except.pure]
  refine ⟨_, rfl, ?_, ?_⟩ <;> rcases eq_or_lt_of_le hoh with h0 | hp
  · exact idxOK_intro _ [0, 5, 6, 6, 7, 4, 0, 1, 2, 3, 4, 2, 2, 5, 7, 1, 2, 3, 5, 6, 7] 8
      (by simp only [refIds, Chord.allIds, roofTopChord, overhangNodes,
        if_neg (not_lt.mpr h0.ge)]; rfl)
      (by simp only [overhangNodes, if_neg (not_lt.mpr h0.ge)]; rfl)
      (by decide)
  · exact idxOK_intro _ [8, 0, 5, 6, 6, 7, 4, 9, 0, 1, 2, 3, 4, 2, 2, 5, 7, 1, 2, 3, 5, 6, 7] 10
      (by simp only [refIds, Chord.allIds, roofTopChord, overhangNodes,
        if_pos hp]; rfl)
      (by simp only [overhangNodes, if_pos hp]; rfl)
      (by decide)
  · exact noSelfPair_intro _ [((0 : ℤ), (5 : ℤ)), ((5 : ℤ), (6 : ℤ)), ((6 : ℤ), (7 : ℤ)), ((7 : ℤ), (4 : ℤ)), ((0 : ℤ), (1 : ℤ)), ((1 : ℤ), (2 : ℤ)), ((2 : ℤ), (3 : ℤ)), ((3 : ℤ), (4 : ℤ)), ((2 : ℤ), (5 : ℤ)), ((2 : ℤ), (7 : ℤ)), ((1 : ℤ), (5 : ℤ)), ((2 : ℤ), (6 : ℤ)), ((3 : ℤ), (7 : ℤ))]
      (by simp only [memberPairs, Chord.segLists, consecPairs, roofTopChord,
        overhangNodes, if_neg (not_lt.mpr h0.ge)]; rfl)
      (by decide)
  · exact noSelfPair_intro _ [((8 : ℤ), (0 : ℤ)), ((0 : ℤ), (5 : ℤ)), ((5 : ℤ), (6 : ℤ)), ((6 : ℤ), (7 : ℤ)), ((7 : ℤ), (4 : ℤ)), ((4 : ℤ), (9 : ℤ)), ((0 : ℤ), (1 : ℤ)), ((1 : ℤ), (2 : ℤ)), ((2 : ℤ), (3 : ℤ)), ((3 : ℤ), (4 : ℤ)), ((2 : ℤ), (5 : ℤ)), ((2 : ℤ), (7 : ℤ)), ((1 : ℤ), (5 : ℤ)), ((2 : ℤ), (6 : ℤ)), ((3 : ℤ), (7 : ℤ))]
      (by simp only [memberPairs, Chord.segLists, consecPairs, roofTopChord,
        overhangNodes, if_pos hp]; rfl)
      (by decide)

theorem prattRoof_props (w d oh t c sn : α) (hw : 0 < w) (hd0 : 0 < d)
    (hd90 : d < 90) (hoh : 0 ≤ oh) (ht : 0 < t) :
    ∃ g, buildPrattRoof w d oh t c sn = .ok g ∧ IdxOK g ∧ NoSelfPair g := by
  unfold buildPrattRoof
  rw [roofTrussInit_ok w d oh t hw hd0 hd90 hoh ht]
  simp only [Bind.bind, Except.bind, pure, Except.pure]
  refine ⟨_, rfl, ?_, ?_⟩ <;> rcases eq_or_lt_of_le hoh with h0 | hp
  · exact idxOK_intro _ [0, 5, 6, 6, 7, 4, 0, 1, 2, 3, 4, 1, 3, 6, 6, 1, 2, 3, 5, 6, 7] 8
      (by simp only [refIds, Chord.allIds, roofTopChord, overhangNodes,
        if_neg (not_lt.mpr h0.ge)]; rfl)
      (by simp only [overhangNodes, if_neg (not_lt.mpr h0.ge)]; rfl)
      (by decide)
  · exact idxOK_intro _ [8, 0, 5, 6, 6, 7, 4, 9, 0, 1, 2, 3, 4, 1, 3, 6, 6, 1, 2, 3, 5, 6, 7] 10
      (by simp only [refIds, Chord.allIds, roofTopChord, overhangNodes,
        if_pos hp]; rfl)
      (by simp only [overhangNodes, if_pos hp]; rfl)
      (by decide)
  · exact noSelfPair_intro _ [((0 : ℤ), (5 : ℤ)), ((5 : ℤ), (6 : ℤ)), ((6 : ℤ), (7 : ℤ)), ((7 : ℤ), (4 : ℤ)), ((0 : ℤ), (1 : ℤ)), ((1 : ℤ), (2 : ℤ)), ((2 : ℤ), (3 : ℤ)), ((3 : ℤ), (4 : ℤ)), ((1 : ℤ), (6 : ℤ)), ((3 : ℤ), (6 : ℤ)), ((1 : ℤ), (5 : ℤ)), ((2 : ℤ), (6 : ℤ)), ((3 : ℤ), (7 : ℤ))]
      (by simp only [memberPairs, Chord.segLists, consecPairs, roofTopChord,
        overhangNodes, if_neg (not_lt.mpr h0.ge)]; rfl)
      (by decide)
  · exact noSelfPair_intro _ [((8 : ℤ), (0 : ℤ)), ((0 : ℤ), (5 : ℤ)), ((5 : ℤ), (6 : ℤ)), ((6 : ℤ), (7 : ℤ)), ((7 : ℤ), (4 : ℤ)), ((4 : ℤ), (9 : ℤ)), ((0 : ℤ), (1 : ℤ)), ((1 : ℤ), (2 : ℤ)), ((2 : ℤ), (3 : ℤ)), ((3 : ℤ), (4 : ℤ)), ((1 : ℤ), (6 : ℤ)), ((3 : ℤ), (6 : ℤ)), ((1 : ℤ), (5 : ℤ)), ((2 : ℤ), (6 : ℤ)), ((3 : ℤ), (7 : ℤ))]
      (by simp only [memberPairs, Chord.segLists, consecPairs, roofTopChord,
        overhangNodes, if_pos hp]; rfl)
      (by decide)

theorem fan_props (w d oh t c sn : α) (hw : 0 < w) (hd0 : 0 < d)
    (hd90 : d < 90) (hoh : 0 ≤ oh) (ht : 0 < t) :
    ∃ g, buildFan w d oh t c sn = .ok g ∧ IdxOK g ∧ NoSelfPair g := by
  unfold buildFan
  rw [roofTrussInit_ok w d oh t hw hd0 hd90 hoh ht]
  simp only [Bind.bind, Except.bind, pure, Except.pure]
  refine ⟨_, rfl, ?_, ?_⟩ <;> rcases eq_or_lt_of_le hoh with h0 | hp
  · exact idxOK_intro _ [0, 4, 5, 6, 6, 7, 8, 3, 0, 1, 2, 3, 1, 1, 2, 2, 4, 6, 6, 8, 1, 2, 5, 7] 9
      (by simp only [refIds, Chord.allIds, roofTopChord, overhangNodes,
        if_neg (not_lt.mpr h0.ge)]; rfl)
      (by simp only [overhangNodes, if_neg (not_lt.mpr h0.ge)]; rfl)
      (by decide)
  · exact idxOK_intro _ [9, 0, 4, 5, 6, 6, 7, 8, 3, 10, 0, 1, 2, 3, 1, 1, 2, 2, 4, 6, 6, 8, 1, 2, 5, 7] 11
      (by simp only [refIds, Chord.allIds, roofTopChord, overhangNodes,
        if_pos hp]; rfl)
      (by simp only [overhangNodes, if_pos hp]; rfl)
      (by decide)
  · exact noSelfPair_intro _ [((0 : ℤ), (4 : ℤ)), ((4 : ℤ), (5 : ℤ)), ((5 : ℤ), (6 : ℤ)), ((6 : ℤ), (7 : ℤ)), ((7 : ℤ), (8 : ℤ)), ((8 : ℤ), (3 : ℤ)), ((0 : ℤ), (1 : ℤ)), ((1 : ℤ), (2 : ℤ)), ((2 : ℤ), (3 : ℤ)), ((1 : ℤ), (4 : ℤ)), ((1 : ℤ), (6 : ℤ)), ((2 : ℤ), (6 : ℤ)), ((2 : ℤ), (8 : ℤ)), ((1 : ℤ), (5 : ℤ)), ((2 : ℤ), (7 : ℤ))]
      (by simp only [memberPairs, Chord.segLists, consecPairs, roofTopChord,
        overhangNodes, if_neg (not_lt.mpr h0.ge)]; rfl)
      (by decide)
  · exact noSelfPair_intro _ [((9 : ℤ), (0 : ℤ)), ((0 : ℤ), (4 : ℤ)), ((4 : ℤ), (5 : ℤ)), ((5 : ℤ), (6 : ℤ)), ((6 : ℤ), (7 : ℤ)), ((7 : ℤ), (8 : ℤ)), ((8 : ℤ), (3 : ℤ)), ((3 : ℤ), (10 : ℤ)), ((0 : ℤ), (1 : ℤ)), ((1 : ℤ), (2 : ℤ)), ((2 : ℤ), (3 : ℤ)), ((1 : ℤ), (4 : ℤ)), ((1 : ℤ), (6 : ℤ)), ((2 : ℤ), (6 : ℤ)), ((2 : ℤ), (8 : ℤ)), ((1 : ℤ), (5 : ℤ)), ((2 : ℤ), (7 : ℤ))]
      (by simp only [memberPairs, Chord.segLists, consecPairs, roofTopChord,
        overhangNodes, if_pos hp]; rfl)
      (by decide)

theorem modifiedQueenPost_props (w d oh t c sn : α) (hw : 0 < w) (hd0 : 0 < d)
    (hd90 : d < 90) (hoh : 0 ≤ oh) (ht : 0 < t) :
    ∃ g, buildModifiedQueenPost w d oh t c sn = .ok g ∧ IdxOK g ∧ NoSelfPair g := by
  unfold buildModifiedQueenPost
  rw [roofTrussInit_ok w d oh t hw hd0 hd90 hoh ht]
  simp only [Bind.bind, Except.bind, pure, Except.pure]
  refine ⟨_, rfl, ?_, ?_⟩ <;> rcases eq_or_lt_of_le hoh with h0 | hp
  · exact idxOK_intro _ [0, 5, 6, 7, 7, 8, 9, 4, 0, 1, 2, 3, 4, 1, 1, 2, 2, 3, 3, 5, 6, 6, 8, 8, 9, 2, 7] 10
      (by simp only [refIds, Chord.allIds, roofTopChord, overhangNodes,
        if_neg (not_lt.mpr h0.ge)]; rfl)
      (by simp only [overhangNodes, if_neg (not_lt.mpr h0.ge)]; rfl)
      (by decide)
  · exact idxOK_intro _ [10, 0, 5, 6, 7, 7, 8, 9, 4, 11, 0, 1, 2, 3, 4, 1, 1, 2, 2, 3, 3, 5, 6, 6, 8, 8, 9, 2, 7] 12
      (by simp only [refIds, Chord.allIds, roofTopChord, overhangNodes,
        if_pos hp]; rfl)
      (by simp only [overhangNodes, if_pos hp]; rfl)
      (by decide)
  · exact noSelfPair_intro _ [((0 : ℤ), (5 : ℤ)), ((5 : ℤ), (6 : ℤ)), ((6 : ℤ), (7 : ℤ)), ((7 : ℤ), (8 : ℤ)), ((8 : ℤ), (9 : ℤ)), ((9 : ℤ), (4 : ℤ)), ((0 : ℤ), (1 : ℤ)), ((1 : ℤ), (2 : ℤ)), ((2 : ℤ), (3 : ℤ)), ((3 : ℤ), (4 : ℤ)), ((1 : ℤ), (5 : ℤ)), ((1 : ℤ), (6 : ℤ)), ((2 : ℤ), (6 : ℤ)), ((2 : ℤ), (8 : ℤ)), ((3 : ℤ), (8 : ℤ)), ((3 : ℤ), (9 : ℤ)), ((2 : ℤ), (7 : ℤ))]
      (by simp only [memberPairs, Chord.segLists, consecPairs, roofTopChord,
        overhangNodes, if_neg (not_lt.mpr h0.ge)]; rfl)
      (by decide)
  · exact noSelfPair_intro _ [((10 : ℤ), (0 : ℤ)), ((0 : ℤ), (5 : ℤ)), ((5 : ℤ), (6 : ℤ)), ((6 : ℤ), (7 : ℤ)), ((7 : ℤ), (8 : ℤ)), ((8 : ℤ), (9 : ℤ)), ((9 : ℤ), (4 : ℤ)), ((4 : ℤ), (11 : ℤ)), ((0 : ℤ), (1 : ℤ)), ((1 : ℤ), (2 : ℤ)), ((2 : ℤ), (3 : ℤ)), ((3 : ℤ), (4 : ℤ)), ((1 : ℤ), (5 : ℤ)), ((1 : ℤ), (6 : ℤ)), ((2 : ℤ), (6 : ℤ)), ((2 : ℤ), (8 : ℤ)), ((3 : ℤ), (8 : ℤ)), ((3 : ℤ), (9 : ℤ)), ((2 : ℤ), (7 : ℤ))]
      (by simp only [memberPairs, Chord.segLists, consecPairs, roofTopChord,
        overhangNodes, if_pos hp]; rfl)
      (by decide)

theorem doubleFink_props (w d oh t c sn : α) (hw : 0 < w) (hd0 : 0 < d)
    (hd90 : d < 90) (hoh : 0 ≤ oh) (ht : 0 < t) :
    ∃ g, buildDoubleFink w d oh t c sn = .ok g ∧ IdxOK g ∧ NoSelfPair g := by
  unfold buildDoubleFink
  rw [roofTrussInit_ok w d oh t hw hd0 hd90 hoh ht]
  simp only [Bind.bind, Except.bind, pure, Except.pure]
  refine ⟨_, rfl, ?_, ?_⟩ <;> rcases eq_or_lt_of_le hoh with h0 | hp
  · exact idxOK_intro _ [0, 6, 7, 8, 8, 9, 10, 5, 0, 1, 2, 3, 4, 5, 1, 1, 2, 2, 3, 3, 4, 4, 6, 7, 7, 8, 8, 9, 9, 10] 11
      (by simp only [refIds, Chord.allIds, roofTopChord, overhangNodes,
        if_neg (not_lt.mpr h0.ge)]; rfl)
      (by simp only [overhangNodes, if_neg (not_lt.mpr h0.ge)]; rfl)
      (by decide)
  · exact idxOK_intro _ [11, 0, 6, 7, 8, 8, 9, 10, 5, 12, 0, 1, 2, 3, 4, 5, 1, 1, 2, 2, 3, 3, 4, 4, 6, 7, 7, 8, 8, 9, 9, 10] 13
      (by simp only [refIds, Chord.allIds, roofTopChord, overhangNodes,
        if_pos hp]; rfl)
      (by simp only [overhangNodes, if_pos hp]; rfl)
      (by decide)
  · exact noSelfPair_intro _ [((0 : ℤ), (6 : ℤ)), ((6 : ℤ), (7 : ℤ)), ((7 : ℤ), (8 : ℤ)), ((8 : ℤ), (9 : ℤ)), ((9 : ℤ), (10 : ℤ)), ((10 : ℤ), (5 : ℤ)), ((0 : ℤ), (1 : ℤ)), ((1 : ℤ), (2 : ℤ)), ((2 : ℤ), (3 : ℤ)), ((3 : ℤ), (4 : ℤ)), ((4 : ℤ), (5 : ℤ)), ((1 : ℤ), (6 : ℤ)), ((1 : ℤ), (7 : ℤ)), ((2 : ℤ), (7 : ℤ)), ((2 : ℤ), (8 : ℤ)), ((3 : ℤ), (8 : ℤ)), ((3 : ℤ), (9 : ℤ)), ((4 : ℤ), (9 : ℤ)), ((4 : ℤ), (10 : ℤ))]
      (by simp only [memberPairs, Chord.segLists, consecPairs, roofTopChord,
        overhangNodes, if_neg (not_lt.mpr h0.ge)]; rfl)
      (by decide)
  · exact noSelfPair_intro _ [((11 : ℤ), (0 : ℤ)), ((0 : ℤ), (6 : ℤ)), ((6 : ℤ), (7 : ℤ)), ((7 : ℤ), (8 : ℤ)), ((8 : ℤ), (9 : ℤ)), ((9 : ℤ), (10 : ℤ)), ((10 : ℤ), (5 : ℤ)), ((5 : ℤ), (12 : ℤ)), ((0 : ℤ), (1 : ℤ)), ((1 : ℤ), (2 : ℤ)), ((2 : ℤ), (3 : ℤ)), ((3 : ℤ), (4 : ℤ)), ((4 : ℤ), (5 : ℤ)), ((1 : ℤ), (6 : ℤ)), ((1 : ℤ), (7 : ℤ)), ((2 : ℤ), (7 : ℤ)), ((2 : ℤ), (8 : ℤ)), ((3 : ℤ), (8 : ℤ)), ((3 : ℤ), (9 : ℤ)), ((4 : ℤ), (9 : ℤ)), ((4 : ℤ), (10 : ℤ))]
      (by simp only [memberPairs, Chord.segLists, consecPairs, roofTopChord,
        overhangNodes, if_pos hp]; rfl)
      (by decide)

theorem doubleHowe_props (w d oh t c sn : α) (hw : 0 < w) (hd0 : 0 < d)
    (hd90 : d < 90) (hoh : 0 ≤ oh) (ht : 0 < t) :
    ∃ g, buildDoubleHowe w d oh t c sn = .ok g ∧ IdxOK g ∧ NoSelfPair g := by
  unfold buildDoubleHowe
  rw [roofTrussInit_ok w d oh t hw hd0 hd90 hoh ht]
  simp only [Bind.bind, Except.bind, pure, Except.pure]
  refine ⟨_, rfl, ?_, ?_⟩ <;> rcases eq_or_lt_of_le hoh with h0 | hp
  · exact idxOK_intro _ [0, 7, 8, 9, 9, 10, 11, 6, 0, 1, 2, 3, 4, 5, 6, 2, 3, 3, 4, 7, 8, 10, 11, 1, 2, 3, 4, 5, 7, 8, 9, 10, 11] 12
      (by simp only [refIds, Chord.allIds, roofTopChord, overhangNodes,
        if_neg (not_lt.mpr h0.ge)]; rfl)
      (by simp only [overhangNodes, if_neg (not_lt.mpr h0.ge)]; rfl)
      (by decide)
  · exact idxOK_intro _ [12, 0, 7, 8, 9, 9, 10, 11, 6, 13, 0, 1, 2, 3, 4, 5, 6, 2, 3, 3, 4, 7, 8, 10, 11, 1, 2, 3, 4, 5, 7, 8, 9, 10, 11] 14
      (by simp only [refIds, Chord.allIds, roofTopChord, overhangNodes,
        if_pos hp]; rfl)
      (by simp only [overhangNodes, if_pos hp]; rfl)
      (by decide)
  · exact noSelfPair_intro _ [((0 : ℤ), (7 : ℤ)), ((7 : ℤ), (8 : ℤ)), ((8 : ℤ), (9 : ℤ)), ((9 : ℤ), (10 : ℤ)), ((10 : ℤ), (11 : ℤ)), ((11 : ℤ), (6 : ℤ)), ((0 : ℤ), (1 : ℤ)), ((1 : ℤ), (2 : ℤ)), ((2 : ℤ), (3 : ℤ)), ((3 : ℤ), (4 : ℤ)), ((4 : ℤ), (5 : ℤ)), ((5 : ℤ), (6 : ℤ)), ((2 : ℤ), (7 : ℤ)), ((3 : ℤ), (8 : ℤ)), ((3 : ℤ), (10 : ℤ)), ((4 : ℤ), (11 : ℤ)), ((1 : ℤ), (7 : ℤ)), ((2 : ℤ), (8 : ℤ)), ((3 : ℤ), (9 : ℤ)), ((4 : ℤ), (10 : ℤ)), ((5 : ℤ), (11 : ℤ))]
      (by simp only [memberPairs, Chord.segLists, consecPairs, roofTopChord,
        overhangNodes, if_neg (not_lt.mpr h0.ge)]; rfl)
      (by decide)
  · exact noSelfPair_intro _ [((12 : ℤ), (0 : ℤ)), ((0 : ℤ), (7 : ℤ)), ((7 : ℤ), (8 : ℤ)), ((8 : ℤ), (9 : ℤ)), ((9 : ℤ), (10 : ℤ)), ((10 : ℤ), (11 : ℤ)), ((11 : ℤ), (6 : ℤ)), ((6 : ℤ), (13 : ℤ)), ((0 : ℤ), (1 : ℤ)), ((1 : ℤ), (2 : ℤ)), ((2 : ℤ), (3 : ℤ)), ((3 : ℤ), (4 : ℤ)), ((4 : ℤ), (5 : ℤ)), ((5 : ℤ), (6 : ℤ)), ((2 : ℤ), (7 : ℤ)), ((3 : ℤ), (8 : ℤ)), ((3 : ℤ), (10 : ℤ)), ((4 : ℤ), (11 : ℤ)), ((1 : ℤ), (7 : ℤ)), ((2 : ℤ), (8 : ℤ)), ((3 : ℤ), (9 : ℤ)), ((4 : ℤ), (10 : ℤ)), ((5 : ℤ), (11 : ℤ))]
      (by simp only [memberPairs, Chord.segLists, consecPairs, roofTopChord,
        overhangNodes, if_pos hp]; rfl)
      (by decide)

theorem modifiedFan_props (w d oh t c sn : α) (hw : 0 < w) (hd0 : 0 < d)
    (hd90 : d < 90) (hoh : 0 ≤ oh) (ht : 0 < t) :
    ∃ g, buildModifiedFan w d oh t c sn = .ok g ∧ IdxOK g ∧ NoSelfPair g := by
  unfold buildModifiedFan
  rw [roofTrussInit_ok w d oh t hw hd0 hd90 hoh ht]
  simp only [Bind.bind, Except.bind, pure, Except.pure]
  refine ⟨_, rfl, ?_, ?_⟩ <;> rcases eq_or_lt_of_le hoh with h0 | hp
  · exact idxOK_intro _ [0, 5, 6, 7, 8, 8, 9, 10, 11, 4, 0, 1, 2, 3, 4, 1, 1, 2, 2, 3, 3, 5, 7, 7, 9, 9, 11, 1, 2, 3, 6, 8, 10] 12
      (by simp only [refIds, Chord.allIds, roofTopChord, overhangNodes,
        if_neg (not_lt.mpr h0.ge)]; rfl)
      (by simp only [overhangNodes, if_neg (not_lt.mpr h0.ge)]; rfl)
      (by decide)
  · exact idxOK_intro _ [12, 0, 5, 6, 7, 8, 8, 9, 10, 11, 4, 13, 0, 1, 2, 3, 4, 1, 1, 2, 2, 3, 3, 5, 7, 7, 9, 9, 11, 1, 2, 3, 6, 8, 10] 14
      (by simp only [refIds, Chord.allIds, roofTopChord, overhangNodes,
        if_pos hp]; rfl)
      (by simp only [overhangNodes, if_pos hp]; rfl)
      (by decide)
  · exact noSelfPair_intro _ [((0 : ℤ), (5 : ℤ)), ((5 : ℤ), (6 : ℤ)), ((6 : ℤ), (7 : ℤ)), ((7 : ℤ), (8 : ℤ)), ((8 : ℤ), (9 : ℤ)), ((9 : ℤ), (10 : ℤ)), ((10 : ℤ), (11 : ℤ)), ((11 : ℤ), (4 : ℤ)), ((0 : ℤ), (1 : ℤ)), ((1 : ℤ), (2 : ℤ)), ((2 : ℤ), (3 : ℤ)), ((3 : ℤ), (4 : ℤ)), ((1 : ℤ), (5 : ℤ)), ((1 : ℤ), (7 : ℤ)), ((2 : ℤ), (7 : ℤ)), ((2 : ℤ), (9 : ℤ)), ((3 : ℤ), (9 : ℤ)), ((3 : ℤ), (11 : ℤ)), ((1 : ℤ), (6 : ℤ)), ((2 : ℤ), (8 : ℤ)), ((3 : ℤ), (10 : ℤ))]
      (by simp only [memberPairs, Chord.segLists, consecPairs, roofTopChord,
        overhangNodes, if_neg (not_lt.mpr h0.ge)]; rfl)
      (by decide)
  · exact noSelfPair_intro _ [((12 : ℤ), (0 : ℤ)), ((0 : ℤ), (5 : ℤ)), ((5 : ℤ), (6 : ℤ)), ((6 : ℤ), (7 : ℤ)), ((7 : ℤ), (8 : ℤ)), ((8 : ℤ), (9 : ℤ)), ((9 : ℤ), (10 : ℤ)), ((10 : ℤ), (11 : ℤ)), ((11 : ℤ), (4 : ℤ)), ((4 : ℤ), (13 : ℤ)), ((0 : ℤ), (1 : ℤ)), ((1 : ℤ), (2 : ℤ)), ((2 : ℤ), (3 : ℤ)), ((3 : ℤ), (4 : ℤ)), ((1 : ℤ), (5 : ℤ)), ((1 : ℤ), (7 : ℤ)), ((2 : ℤ), (7 : ℤ)), ((2 : ℤ), (9 : ℤ)), ((3 : ℤ), (9 : ℤ)), ((3 : ℤ), (11 : ℤ)), ((1 : ℤ), (6 : ℤ)), ((2 : ℤ), (8 : ℤ)), ((3 : ℤ), (10 : ℤ))]
      (by simp only [memberPairs, Chord.segLists, consecPairs, roofTopChord,
        overhangNodes, if_pos hp]; rfl)
      (by decide)

end RoofTopologyProps




section AtticProps

variable {α : Type} [LinearOrderedField α]

theorem atticInitGeom_ok (t w aw : α) (ah : Option α) (ht : 0 < t)
    (haw : 0 < aw) (hawlt : aw < w)
    (hfeas : match ah with
      | none => True
      | some y => (w / 2 - aw / 2) * t ≤ y) :
    atticInitGeom t w aw ah =
      .ok ⟨w / 2 - aw / 2, (w / 2 - aw / 2) * t,
        (match ah with
          | none => (w / 2 - aw / 2) * t
          | some y => y),
        w / 2 - (w / 2 * t -
          (match ah with
            | none => (w / 2 - aw / 2) * t
            | some y => y)) / t,
        decide ((match ah with
          | none => (w / 2 - aw / 2) * t
          | some y => y) = (w / 2 - aw / 2) * t)⟩ := by
  have htol : (0 : α) < tol := tol_pos
  cases ah with
  | none =>
      have hguard : ¬ ((w / 2 - aw / 2) * t < (w / 2 - aw / 2) * t - tol ∨
          w / 2 - (w / 2 * t - (w / 2 - aw / 2) * t) / t <
            w / 2 - aw / 2 - tol) := by
      
        push_neg
        refine ⟨by linarith, ?_⟩
        have h1 : (w / 2 * t - (w / 2 - aw / 2) * t) / t ≤ aw / 2 := by
          rw [div_le_iff ht]
          nlinarith
        linarith
      unfold atticInitGeom
      rw [if_neg (not_le.mpr haw), if_neg (not_le.mpr hawlt)]
      simp only [if_neg hguard]
  | some y =>
      simp only at hfeas
      have hguard : ¬ (y < (w / 2 - aw / 2) * t - tol ∨
          w / 2 - (w / 2 * t - y) / t < w / 2 - aw / 2 - tol) := by
        push_neg
        refine ⟨by linarith, ?_⟩
        have h1 : (w / 2 * t - y) / t ≤ aw / 2 := by
          rw [div_le_iff ht]
          nlinarith
        linarith
      unfold atticInitGeom
      rw [if_neg (not_le.mpr haw), if_neg (not_le.mpr hawlt)]
      simp only [if_neg hguard]

theorem attic_props (w d oh t c sn aw : α) (ah : Option α)
    (hw : 0 < w) (hd0 : 0 < d) (hd90 : d < 90) (hoh : 0 ≤ oh) (ht : 0 < t)
    (haw : 0 < aw) (hawlt : aw < w)
    (hfeas : match ah with
      | none => True
      | some y => (w / 2 - aw / 2) * t ≤ y) :
    ∃ g, buildAttic w d oh t c sn aw ah = .ok g ∧ IdxOK g ∧ NoSelfPair g := by
  unfold buildAttic
  rw [atticInitGeom_ok t w aw ah ht haw hawlt hfeas,
    roofTrussInit_ok w d oh t hw hd0 hd90 hoh ht]
  simp only [Bind.bind, Except.bind, pure, Except.pure]
  cases ah with
  | none =>
      have hflag : decide ((w / 2 - aw / 2) * t = (w / 2 - aw / 2) * t) =
          true := decide_eq_true rfl
      rw [if_pos (by simp)]
      refine ⟨_, rfl, ?_, ?_⟩ <;> rcases eq_or_lt_of_le hoh with h0 | hp
      · exact idxOK_intro _ [0, 4, 5, 6, 6, 7, 8, 3, 5, 9, 7, 0, 1, 2, 3, 1, 9, 2, 4, 6, 8, 1, 2, 5, 7] 10
          (by simp only [refIds, Chord.allIds, overhangNodes,
            if_neg (not_lt.mpr h0.ge)]; rfl)
          (by simp only [overhangNodes, if_neg (not_lt.mpr h0.ge), hflag]; rfl)
          (by decide)
      · exact idxOK_intro _ [10, 0, 4, 5, 6, 6, 7, 8, 3, 11, 5, 9, 7, 0, 1, 2, 3, 1, 9, 2, 4, 6, 8, 1, 2, 5, 7] 12
          (by simp only [refIds, Chord.allIds, overhangNodes, if_pos hp]; rfl)
          (by simp only [overhangNodes, if_pos hp, hflag]; rfl)
          (by decide)
      · exact noSelfPair_intro _ [((0 : ℤ), (4 : ℤ)), ((4 : ℤ), (5 : ℤ)), ((5 : ℤ), (6 : ℤ)), ((6 : ℤ), (7 : ℤ)), ((7 : ℤ), (8 : ℤ)), ((8 : ℤ), (3 : ℤ)), ((5 : ℤ), (9 : ℤ)), ((9 : ℤ), (7 : ℤ)), ((0 : ℤ), (1 : ℤ)), ((1 : ℤ), (2 : ℤ)), ((2 : ℤ), (3 : ℤ)), ((1 : ℤ), (4 : ℤ)), ((9 : ℤ), (6 : ℤ)), ((2 : ℤ), (8 : ℤ)), ((1 : ℤ), (5 : ℤ)), ((2 : ℤ), (7 : ℤ))]
          (by simp only [memberPairs, Chord.segLists, consecPairs,
            overhangNodes, if_neg (not_lt.mpr h0.ge)]; rfl)
          (by decide)
      · exact noSelfPair_intro _ [((10 : ℤ), (0 : ℤ)), ((0 : ℤ), (4 : ℤ)), ((4 : ℤ), (5 : ℤ)), ((5 : ℤ), (6 : ℤ)), ((6 : ℤ), (7 : ℤ)), ((7 : ℤ), (8 : ℤ)), ((8 : ℤ), (3 : ℤ)), ((3 : ℤ), (11 : ℤ)), ((5 : ℤ), (9 : ℤ)), ((9 : ℤ), (7 : ℤ)), ((0 : ℤ), (1 : ℤ)), ((1 : ℤ), (2 : ℤ)), ((2 : ℤ), (3 : ℤ)), ((1 : ℤ), (4 : ℤ)), ((9 : ℤ), (6 : ℤ)), ((2 : ℤ), (8 : ℤ)), ((1 : ℤ), (5 : ℤ)), ((2 : ℤ), (7 : ℤ))]
          (by simp only [memberPairs, Chord.segLists, consecPairs,
            overhangNodes, if_pos hp]; rfl)
          (by decide)
  | some y =>
      by_cases hy : y = (w / 2 - aw / 2) * t
      · have hflag : decide (y = (w / 2 - aw / 2) * t) = true :=
          decide_eq_true hy
        rw [if_pos (by simp [hy])]
        refine ⟨_, rfl, ?_, ?_⟩ <;> rcases eq_or_lt_of_le hoh with h0 | hp
        · exact idxOK_intro _ [0, 4, 5, 6, 6, 7, 8, 3, 5, 9, 7, 0, 1, 2, 3, 1, 9, 2, 4, 6, 8, 1, 2, 5, 7] 10
            (by simp only [refIds, Chord.allIds, overhangNodes,
              if_neg (not_lt.mpr h0.ge)]; rfl)
            (by simp only [overhangNodes, if_neg (not_lt.mpr h0.ge), hflag]; rfl)
            (by decide)
        · exact idxOK_intro _ [10, 0, 4, 5, 6, 6, 7, 8, 3, 11, 5, 9, 7, 0, 1, 2, 3, 1, 9, 2, 4, 6, 8, 1, 2, 5, 7] 12
            (by simp only [refIds, Chord.allIds, overhangNodes, if_pos hp]; rfl)
            (by simp only [overhangNodes, if_pos hp, hflag]; rfl)
            (by decide)
        · exact noSelfPair_intro _ [((0 : ℤ), (4 : ℤ)), ((4 : ℤ), (5 : ℤ)), ((5 : ℤ), (6 : ℤ)), ((6 : ℤ), (7 : ℤ)), ((7 : ℤ), (8 : ℤ)), ((8 : ℤ), (3 : ℤ)), ((5 : ℤ), (9 : ℤ)), ((9 : ℤ), (7 : ℤ)), ((0 : ℤ), (1 : ℤ)), ((1 : ℤ), (2 : ℤ)), ((2 : ℤ), (3 : ℤ)), ((1 : ℤ), (4 : ℤ)), ((9 : ℤ), (6 : ℤ)), ((2 : ℤ), (8 : ℤ)), ((1 : ℤ), (5 : ℤ)), ((2 : ℤ), (7 : ℤ))]
            (by simp only [memberPairs, Chord.segLists, consecPairs,
              overhangNodes, if_neg (not_lt.mpr h0.ge)]; rfl)
            (by decide)
        · exact noSelfPair_intro _ [((10 : ℤ), (0 : ℤ)), ((0 : ℤ), (4 : ℤ)), ((4 : ℤ), (5 : ℤ)), ((5 : ℤ), (6 : ℤ)), ((6 : ℤ), (7 : ℤ)), ((7 : ℤ), (8 : ℤ)), ((8 : ℤ), (3 : ℤ)), ((3 : ℤ), (11 : ℤ)), ((5 : ℤ), (9 : ℤ)), ((9 : ℤ), (7 : ℤ)), ((0 : ℤ), (1 : ℤ)), ((1 : ℤ), (2 : ℤ)), ((2 : ℤ), (3 : ℤ)), ((1 : ℤ), (4 : ℤ)), ((9 : ℤ), (6 : ℤ)), ((2 : ℤ), (8 : ℤ)), ((1 : ℤ), (5 : ℤ)), ((2 : ℤ), (7 : ℤ))]
            (by simp only [memberPairs, Chord.segLists, consecPairs,
              overhangNodes, if_pos hp]; rfl)
            (by decide)
      · have hflag : decide (y = (w / 2 - aw / 2) * t) = false :=
          decide_eq_false hy
        rw [if_neg (by simp [hy])]
        refine ⟨_, rfl, ?_, ?_⟩ <;> rcases eq_or_lt_of_le hoh with h0 | hp
        · exact idxOK_intro _ [0, 4, 5, 6, 7, 7, 8, 9, 10, 3, 6, 11, 8, 0, 1, 2, 3, 1, 11, 2, 4, 7, 10, 1, 2, 5, 9] 12
            (by simp only [refIds, Chord.allIds, overhangNodes,
              if_neg (not_lt.mpr h0.ge)]; rfl)
            (by simp only [overhangNodes, if_neg (not_lt.mpr h0.ge), hflag]; rfl)
            (by decide)
        · exact idxOK_intro _ [12, 0, 4, 5, 6, 7, 7, 8, 9, 10, 3, 13, 6, 11, 8, 0, 1, 2, 3, 1, 11, 2, 4, 7, 10, 1, 2, 5, 9] 14
            (by simp only [refIds, Chord.allIds, overhangNodes, if_pos hp]; rfl)
            (by simp only [overhangNodes, if_pos hp, hflag]; rfl)
            (by decide)
        · exact noSelfPair_intro _ [((0 : ℤ), (4 : ℤ)), ((4 : ℤ), (5 : ℤ)), ((5 : ℤ), (6 : ℤ)), ((6 : ℤ), (7 : ℤ)), ((7 : ℤ), (8 : ℤ)), ((8 : ℤ), (9 : ℤ)), ((9 : ℤ), (10 : ℤ)), ((10 : ℤ), (3 : ℤ)), ((6 : ℤ), (11 : ℤ)), ((11 : ℤ), (8 : ℤ)), ((0 : ℤ), (1 : ℤ)), ((1 : ℤ), (2 : ℤ)), ((2 : ℤ), (3 : ℤ)), ((1 : ℤ), (4 : ℤ)), ((11 : ℤ), (7 : ℤ)), ((2 : ℤ), (10 : ℤ)), ((1 : ℤ), (5 : ℤ)), ((2 : ℤ), (9 : ℤ))]
            (by simp only [memberPairs, Chord.segLists, consecPairs,
              overhangNodes, if_neg (not_lt.mpr h0.ge)]; rfl)
            (by decide)
        · exact noSelfPair_intro _ [((12 : ℤ), (0 : ℤ)), ((0 : ℤ), (4 : ℤ)), ((4 : ℤ), (5 : ℤ)), ((5 : ℤ), (6 : ℤ)), ((6 : ℤ), (7 : ℤ)), ((7 : ℤ), (8 : ℤ)), ((8 : ℤ), (9 : ℤ)), ((9 : ℤ), (10 : ℤ)), ((10 : ℤ), (3 : ℤ)), ((3 : ℤ), (13 : ℤ)), ((6 : ℤ), (11 : ℤ)), ((11 : ℤ), (8 : ℤ)), ((0 : ℤ), (1 : ℤ)), ((1 : ℤ), (2 : ℤ)), ((2 : ℤ), (3 : ℤ)), ((1 : ℤ), (4 : ℤ)), ((11 : ℤ), (7 : ℤ)), ((2 : ℤ), (10 : ℤ)), ((1 : ℤ), (5 : ℤ)), ((2 : ℤ), (9 : ℤ))]
            (by simp only [memberPairs, Chord.segLists, consecPairs,
              overhangNodes, if_pos hp]; rfl)
            (by decide)

end AtticProps


/-- C3 (amended): for each of the fourteen topologies and every parameter
assignment within the documented valid ranges (positive span, height and
panel width with a resulting panel count of at least 2 for the flat
family, pitch strictly between 0 and 90 degrees, non-negative overhang,
feasible attic geometry), construction succeeds, every node index
referenced by the connectivity is in range and no member connects a node
to itself; consequently validate() returns True whenever no two
generated nodes coincide within the 1e-6 tolerance.  The original
unconditional claim is false: for degenerate in-range parameters the
generated nodes can coincide within the tolerance and validate() then
raises (see the counterexample). -/
theorem topologies_validate (tp : TopoInput ℚ) (hv : ValidInput tp) :
    ∃ g, buildTopo tp = .ok g ∧ IdxOK g ∧ NoSelfPair g ∧
      (NoDupNodes g → validate g = .ok true) := by
  cases tp with
  | howeFlat w h uw et mef eeu =>
      obtain ⟨hw, hh, huw, hm0, hm1, hf, hn⟩ := hv
      obtain ⟨g, hb, hi, hs⟩ :=
        howeFlat_props w h uw et mef eeu hw hh huw hm0 hm1 hf hn
      exact ⟨g, hb, hi, hs, fun hnd => validate_ok_of_sep g hi hs hnd⟩
  | prattFlat w h uw et mef eeu =>
      obtain ⟨hw, hh, huw, hm0, hm1, hf, hn⟩ := hv
      obtain ⟨g, hb, hi, hs⟩ :=
        prattFlat_props w h uw et mef eeu hw hh huw hm0 hm1 hf hn
      exact ⟨g, hb, hi, hs, fun hnd => validate_ok_of_sep g hi hs hnd⟩
  | warrenFlat w h uw et =>
      obtain ⟨hw, hh, huw, hf, hn⟩ := hv
      obtain ⟨g, hb, hi, hs⟩ := warrenFlat_props w h uw et hw hh huw hf hn
      exact ⟨g, hb, hi, hs, fun hnd => validate_ok_of_sep g hi hs hnd⟩
  | kingPost w d oh t c sn =>
      obtain ⟨hw, hd0, hd90, hoh, ht⟩ := hv
      obtain ⟨g, hb, hi, hs⟩ := kingPost_props w d oh t c sn hw hd0 hd90 hoh ht
      exact ⟨g, hb, hi, hs, fun hnd => validate_ok_of_sep g hi hs hnd⟩
  | queenPost w d oh t c sn =>
      obtain ⟨hw, hd0, hd90, hoh, ht⟩ := hv
      obtain ⟨g, hb, hi, hs⟩ := queenPost_props w d oh t c sn hw hd0 hd90 hoh ht
      exact ⟨g, hb, hi, hs, fun hnd => validate_ok_of_sep g hi hs hnd⟩
  | fink w d oh t c sn =>
      obtain ⟨hw, hd0, hd90, hoh, ht⟩ := hv
      obtain ⟨g, hb, hi, hs⟩ := fink_props w d oh t c sn hw hd0 hd90 hoh ht
      exact ⟨g, hb, hi, hs, fun hnd => validate_ok_of_sep g hi hs hnd⟩
  | howeRoof w d oh t c sn =>
      obtain ⟨hw, hd0, hd90, hoh, ht⟩ := hv
      obtain ⟨g, hb, hi, hs⟩ := howeRoof_props w d oh t c sn hw hd0 hd90 hoh ht
      exact ⟨g, hb, hi, hs, fun hnd => validate_ok_of_sep g hi hs hnd⟩
  | prattRoof w d oh t c sn =>
      obtain ⟨hw, hd0, hd90, hoh, ht⟩ := hv
      obtain ⟨g, hb, hi, hs⟩ := prattRoof_props w d oh t c sn hw hd0 hd90 hoh ht
      exact ⟨g, hb, hi, hs, fun hnd => validate_ok_of_sep g hi hs hnd⟩
  | fan w d oh t c sn =>
      obtain ⟨hw, hd0, hd90, hoh, ht⟩ := hv
      obtain ⟨g, hb, hi, hs⟩ := fan_props w d oh t c sn hw hd0 hd90 hoh ht
      exact ⟨g, hb, hi, hs, fun hnd => validate_ok_of_sep g hi hs hnd⟩
  | modifiedQueenPost w d oh t c sn =>
      obtain ⟨hw, hd0, hd90, hoh, ht⟩ := hv
      obtain ⟨g, hb, hi, hs⟩ := modifiedQueenPost_props w d oh t c sn hw hd0 hd90 hoh ht
      exact ⟨g, hb, hi, hs, fun hnd => validate_ok_of_sep g hi hs hnd⟩
  | doubleFink w d oh t c sn =>
      obtain ⟨hw, hd0, hd90, hoh, ht⟩ := hv
      obtain ⟨g, hb, hi, hs⟩ := doubleFink_props w d oh t c sn hw hd0 hd90 hoh ht
      exact ⟨g, hb, hi, hs, fun hnd => validate_ok_of_sep g hi hs hnd⟩
  | doubleHowe w d oh t c sn =>
      obtain ⟨hw, hd0, hd90, hoh, ht⟩ := hv
      obtain ⟨g, hb, hi, hs⟩ := doubleHowe_props w d oh t c sn hw hd0 hd90 hoh ht
      exact ⟨g, hb, hi, hs, fun hnd => validate_ok_of_sep g hi hs hnd⟩
  | modifiedFan w d oh t c sn =>
      obtain ⟨hw, hd0, hd90, hoh, ht⟩ := hv
      obtain ⟨g, hb, hi, hs⟩ := modifiedFan_props w d oh t c sn hw hd0 hd90 hoh ht
      exact ⟨g, hb, hi, hs, fun hnd => validate_ok_of_sep g hi hs hnd⟩
  | attic w d oh t c sn aw ah =>
      obtain ⟨hw, hd0, hd90, hoh, ht, haw, hawlt, hfeas⟩ := hv
      obtain ⟨g, hb, hi, hs⟩ :=
        attic_props w d oh t c sn aw ah hw hd0 hd90 hoh ht haw hawlt hfeas
      exact ⟨g, hb, hi, hs, fun hnd => validate_ok_of_sep g hi hs hnd⟩

/-- Witness for C3 at the King Post topology with span 10, pitch 30
degrees (tan, cos, sin stood in by in-range rationals) and no
overhang. -/
theorem topologies_validate_witness :
    ValidInput (TopoInput.kingPost (10 : ℚ) 30 0 (4 / 7) (6 / 7) (1 / 2)) ∧
    ∃ g, buildTopo
        (TopoInput.kingPost (10 : ℚ) 30 0 (4 / 7) (6 / 7) (1 / 2)) =
          .ok g ∧ IdxOK g ∧ NoSelfPair g ∧
      (NoDupNodes g → validate g = .ok true) := by
  have hv : ValidInput
      (TopoInput.kingPost (10 : ℚ) 30 0 (4 / 7) (6 / 7) (1 / 2)) := by
    unfold ValidInput
    norm_num
  exact ⟨hv, topologies_validate _ hv⟩

/-- C3 counterexample: the King Post truss with span 2, a pitch of
arctan(1e-7) degrees (inside the documented (0, 90) range, hence
tan = 1e-7) and no overhang constructs successfully, but its center
bottom node and its peak node are 1e-7 apart, so validate() raises the
duplicate-node error instead of returning True. -/
theorem topologies_validate_cex :
    ValidInput (TopoInput.kingPost (2 : ℚ) 30 0 (1 / 10000000) (1 / 2)
      (1 / 2)) ∧
    (buildTopo (TopoInput.kingPost (2 : ℚ) 30 0 (1 / 10000000) (1 / 2)
      (1 / 2))).map (fun g => validate g = .ok true) = .ok False := by
  have hv : ValidInput
      (TopoInput.kingPost (2 : ℚ) 30 0 (1 / 10000000) (1 / 2) (1 / 2)) := by
    unfold ValidInput
    norm_num
  have hb : buildTopo
      (TopoInput.kingPost (2 : ℚ) 30 0 (1 / 10000000) (1 / 2) (1 / 2)) =
      .ok ⟨[((0 : ℚ), (0 : ℚ)), (2 / 2, 0), (2, 0),
          (2 / 2, 2 / 2 * (1 / 10000000))],
        .segmented [("left", [0, 3]), ("right", [3, 2])],
        .flatIds [0, 1, 2], [], [(1, 3)]⟩ := by
    show buildKingPost (2 : ℚ) 30 0 (1 / 10000000) (1 / 2) (1 / 2) = _
    unfold buildKingPost
    rw [roofTrussInit_ok 2 30 0 (1 / 10000000) (by norm_num) (by norm_num)
      (by norm_num) (by norm_num) (by norm_num)]
    simp only [Bind.bind, Except.bind, pure, Except.pure, overhangNodes,
      roofTopChord, if_neg (lt_irrefl (0 : ℚ)), List.append_nil]
  rw [hb]
  refine ⟨hv, ?_⟩
  simp only [Except.map]
  congr 1
  rw [eq_iff_iff, iff_false]
  intro hok
  have hnd := ((validate_ok_iff _).mp hok).2.1
  unfold NoDupNodes at hnd
  rw [List.pairwise_iff_getElem] at hnd
  have := hnd 1 3 (by norm_num) (by norm_num) (by norm_num)
  simp only [List.getElem_cons_succ, List.getElem_cons_zero] at this
  apply this
  simp only [nearB, decide_eq_true_eq, tol]
  norm_num
  rw [abs_of_nonneg (by norm_num : (0 : ℚ) ≤ 1 / 10000000)]
  norm_num


/-- C4 (amended): for an attic truss with feasible width parameters and
positive pitch tangent t, constructing with ceiling height attic_height
= y raises the geometry error during construction if and only if y is
below the wall/roof intersection height wall_x * t by more than the
comparison slack (the raw 1e-6 tolerance for the height comparison, or
the pitch-scaled 1e-6 * t for the horizontal ceiling comparison);
constructing with y at or above the intersection height succeeds, and
the resulting geometry passes validate() whenever no two generated nodes
coincide within the validation tolerance.  The original claim (an error
for every y strictly below the intersection) is false: a y within the
tolerance band below the intersection constructs successfully (see the
counterexample). -/
theorem attic_ceiling_height_guard (w d oh t c sn aw y : ℚ)
    (hw : 0 < w) (hd0 : 0 < d) (hd90 : d < 90) (hoh : 0 ≤ oh) (ht : 0 < t)
    (haw : 0 < aw) (hawlt : aw < w) :
    ((y < (w / 2 - aw / 2) * t - tol ∨ y < (w / 2 - aw / 2) * t - tol * t) →
      atticInitGeom t w aw (some y) = .error "Attic height is too low") ∧
    (¬ (y < (w / 2 - aw / 2) * t - tol ∨
        y < (w / 2 - aw / 2) * t - tol * t) →
      (atticInitGeom t w aw (some y)).isOk = true) ∧
    ((w / 2 - aw / 2) * t ≤ y →
      ∃ g, buildAttic w d oh t c sn aw (some y) = .ok g ∧
        (NoDupNodes g → validate g = .ok true)) := by
  have hsecond : (w / 2 - (w / 2 * t - y) / t < w / 2 - aw / 2 - tol) ↔
      y < (w / 2 - aw / 2) * t - tol * t := by
    constructor
    · intro h
      have h2 : aw / 2 + tol < (w / 2 * t - y) / t := by linarith
      rw [lt_div_iff ht] at h2
      nlinarith
    · intro h
      have h2 : (aw / 2 + tol) * t < w / 2 * t - y := by nlinarith
      rw [← lt_div_iff ht] at h2
      linarith
  refine ⟨?_, ?_, ?_⟩
  · intro hd
    unfold atticInitGeom
    rw [if_neg (not_le.mpr haw), if_neg (not_le.mpr hawlt),
      if_pos (Or.imp (fun h => h) hsecond.mpr hd)]
  · intro hd
    unfold atticInitGeom
    rw [if_neg (not_le.mpr haw), if_neg (not_le.mpr hawlt),
      if_neg (fun h => hd (Or.imp (fun h => h) hsecond.mp h))]
    rfl
  · intro hfe
    obtain ⟨g, hb, hi, hs⟩ := attic_props w d oh t c sn aw (some y)
      hw hd0 hd90 hoh ht haw hawlt hfe
    exact ⟨g, hb, fun hnd => validate_ok_of_sep g hi hs hnd⟩

/-- Witness for C4 (amended) at width 10, pitch 45 degrees represented
by tangent 1, attic width 5 (intersection height 5/2) and ceiling
height 3: at or above the intersection, so construction succeeds. -/
theorem attic_ceiling_height_guard_witness :
    ((10 : ℚ) / 2 - 5 / 2) * 1 ≤ 3 ∧
    (∃ g, buildAttic (10 : ℚ) 45 0 1 (1 / 2) (1 / 2) 5 (some 3) = .ok g ∧
      (NoDupNodes g → validate g = .ok true)) := by
  have h := (attic_ceiling_height_guard 10 45 0 1 (1 / 2) (1 / 2) 5 3
    (by norm_num) (by norm_num) (by norm_num) (by norm_num) (by norm_num)
    (by norm_num) (by norm_num)).2.2
  exact ⟨by norm_num, h (by norm_num)⟩

/-- C4 counterexample: an attic truss of span 10, pitch 45 degrees,
attic width 5 has wall/roof intersection height 2.5; a ceiling height
strictly below it by 1e-7 (within the 1e-6 comparison slack) does NOT
raise the claimed construction error: construction succeeds. -/
theorem attic_below_intersection_cex :
    ((5 : ℝ) / 2 - 1 / 10000000) <
      ((10 : ℝ) / 2 - 5 / 2) * Real.tan (45 * Real.pi / 180) ∧
    (buildAttic (10 : ℝ) 45 0 (Real.tan (45 * Real.pi / 180)) (1 / 2)
      (1 / 2) 5 (some (5 / 2 - 1 / 10000000))).isOk = true := by
  have h45 : (45 : ℝ) * Real.pi / 180 = Real.pi / 4 := by ring
  have htan : Real.tan (45 * Real.pi / 180) = 1 := by
    rw [h45, Real.tan_pi_div_four]
  refine ⟨by rw [htan]; norm_num, ?_⟩
  rw [htan]
  unfold buildAttic
  have hai : atticInitGeom (1 : ℝ) 10 5 (some (5 / 2 - 1 / 10000000)) =
      .ok ⟨10 / 2 - 5 / 2, (10 / 2 - 5 / 2) * 1, 5 / 2 - 1 / 10000000,
        10 / 2 - (10 / 2 * 1 - (5 / 2 - 1 / 10000000)) / 1,
        decide ((5 / 2 - 1 / 10000000 : ℝ) = (10 / 2 - 5 / 2) * 1)⟩ := by
    unfold atticInitGeom
    rw [if_neg (by norm_num), if_neg (by norm_num), if_neg (by
      rw [tol]
      push_neg
      constructor <;> norm_num)]
  rw [hai, roofTrussInit_ok 10 45 0 1 (by norm_num) (by norm_num)
    (by norm_num) (by norm_num) (by norm_num)]
  simp only [Bind.bind, Except.bind, pure, Except.pure]
  rw [if_neg (by simp only [decide_eq_true_eq]; norm_num)]
  rfl


/-- C5: over the reals, roof-truss construction with positive span,
pitch strictly inside (0, 90) degrees and non-negative overhang
succeeds, deriving height = (width / 2) * tan(radians(pitch)) exactly;
a pitch outside (0, 90) raises the pitch range error (for any tangent
value, since the guard precedes the computation), and a negative
overhang raises the overhang error. -/
theorem roof_height_derivation (w deg oh : ℝ) (hw : 0 < w) :
    (0 < deg → deg < 90 → 0 ≤ oh →
      roofTrussInit w deg oh (Real.tan (deg * Real.pi / 180)) =
        .ok (w / 2 * Real.tan (deg * Real.pi / 180))) ∧
    (∀ tv : ℝ, deg ≤ 0 ∨ 90 ≤ deg →
      roofTrussInit w deg oh tv =
        .error "roof_pitch_deg must be between 0 and 90") ∧
    (∀ tv : ℝ, 0 < deg → deg < 90 → oh < 0 →
      roofTrussInit w deg oh tv =
        .error "overhang_length must be non-negative") := by
  refine ⟨?_, ?_, ?_⟩
  · intro h0 h90 hoh
    have htanpos : 0 < Real.tan (deg * Real.pi / 180) := by
      apply Real.tan_pos_of_pos_of_lt_pi_div_two
      · have := Real.pi_pos
        positivity
      · nlinarith [Real.pi_pos, mul_pos (sub_pos.mpr h90) Real.pi_pos]
    exact roofTrussInit_ok w deg oh _ hw h0 h90 hoh htanpos
  · intro tv hd
    unfold roofTrussInit
    rw [if_pos hd]
  · intro tv h0 h90 hoh
    unfold roofTrussInit
    rw [if_neg (by push_neg; exact ⟨h0, h90⟩), if_pos hoh]

/-- Witness for C5 at span 10, pitch 45 degrees, no overhang. -/
theorem roof_height_derivation_witness :
    roofTrussInit (10 : ℝ) 45 0 (Real.tan (45 * Real.pi / 180)) =
      .ok (10 / 2 * Real.tan (45 * Real.pi / 180)) :=
  (roof_height_derivation 10 45 0 (by norm_num)).1 (by norm_num)
    (by norm_num) (by norm_num)


section AssemblyLemmas

variable {α : Type} [LinearOrderedField α]

theorem addSegmentElements_system (sys : List (ElemDef α))
    (pairs : List (ℤ × ℤ)) (secProps : SectionProps α) (cont : Bool) :
    (addSegmentElements sys pairs secProps cont).1 =
      sys ++ pairs.map (fun pr => ⟨pr.1, pr.2, secProps,
        if cont then none else some (0, 0)⟩) := by
  induction pairs generalizing sys with
  | nil => simp [addSegmentElements]
  | cons pr rest ih =>
      obtain ⟨i, j⟩ := pr
      simp only [addSegmentElements, ih, List.map_cons]
      rw [List.append_assoc]
      rfl

theorem addChordElements_system (sys : List (ElemDef α)) (chord : Chord)
    (secProps : SectionProps α) (cont : Bool) :
    (addChordElements sys chord secProps cont).1 =
      sys ++ (chord.segLists.map (fun l => (consecPairs l).map
        (fun pr => (⟨pr.1, pr.2, secProps,
          if cont then none else some (0, 0)⟩ : ElemDef α)))).flatten := by
  cases chord with
  | flatIds ids =>
      simp [addChordElements, Chord.segLists, addSegmentElements_system]
  | segmented segs =>
      induction segs generalizing sys with
      | nil => simp [addChordElements, Chord.segLists]
      | cons seg rest ih =>
          obtain ⟨name, ids⟩ := seg
          simp only [addChordElements, addSegmentElements_system]
          have hrec := ih (sys ++ (consecPairs ids).map
            (fun pr => (⟨pr.1, pr.2, secProps,
              if cont then none else some (0, 0)⟩ : ElemDef α)))
          rcases hr : addChordElements (α := α)
              (sys ++ (consecPairs ids).map (fun pr => ⟨pr.1, pr.2, secProps,
                if cont then none else some (0, 0)⟩))
              (.segmented rest) secProps cont with ⟨sysOut, restIds⟩
          rw [hr] at hrec
          rw [hr]
          cases restIds with
          | segmented restSegs =>
              simp only [Chord.segLists, List.map_cons, List.flatten_cons]
              rw [← List.append_assoc]
              exact hrec
          | flatIds l =>
              simp only [Chord.segLists, List.map_cons, List.flatten_cons]
              rw [← List.append_assoc]
              exact hrec

theorem consecPairs_length (l : List ℤ) :
    (consecPairs l).length = l.length - 1 := by
  cases l with
  | nil => simp [consecPairs]
  | cons x xs => simp [consecPairs, List.length_zip]

end AssemblyLemmas

/-- C6: assembly creates, for every truss state, the elements in the
order bottom chord, top chord, web diagonals, web verticals; each chord
segment of n node indices contributes exactly its n-1 consecutive pairs
as members whose spring specification follows the chord's continuity
flag (no springs when continuous, zero springs at both ends when not),
while every web diagonal and every web vertical member is created with
zero springs at both ends (pinned) regardless of either continuity
flag. -/
theorem assembly_members (g : TrussGeom ℚ)
    (bsec tsec wsec vsec : SectionProps ℚ) (bcont tcont : Bool) :
    ((addElements g bsec tsec wsec vsec bcont tcont).system =
      ((g.bottom_chord_node_ids.segLists.map (fun l => (consecPairs l).map
        (fun pr => (⟨pr.1, pr.2, bsec,
          if bcont then none else some (0, 0)⟩ : ElemDef ℚ)))).flatten)
      ++ ((g.top_chord_node_ids.segLists.map (fun l => (consecPairs l).map
        (fun pr => (⟨pr.1, pr.2, tsec,
          if tcont then none else some (0, 0)⟩ : ElemDef ℚ)))).flatten)
      ++ g.web_node_pairs.map
          (fun pr => (⟨pr.1, pr.2, wsec, some (0, 0)⟩ : ElemDef ℚ))
      ++ g.web_verticals_node_pairs.map
          (fun pr => (⟨pr.1, pr.2, vsec, some (0, 0)⟩ : ElemDef ℚ))) ∧
    (∀ l : List ℤ, (consecPairs l).length = l.length - 1) := by
  constructor
  · unfold addElements
    rcases h1 : addChordElements (α := ℚ) [] g.bottom_chord_node_ids bsec
        bcont with ⟨sys1, bottomIds⟩
    rcases h2 : addChordElements (α := ℚ) sys1 g.top_chord_node_ids tsec
        tcont with ⟨sys2, topIds⟩
    have e1 := addChordElements_system (α := ℚ) [] g.bottom_chord_node_ids
      bsec bcont
    have e2 := addChordElements_system (α := ℚ) sys1 g.top_chord_node_ids
      tsec tcont
    have e3 := addSegmentElements_system (α := ℚ) sys2 g.web_node_pairs
      wsec false
    rw [h1] at e1
    rw [h2] at e2
    simp only [h1, h2]
    rcases h3 : addSegmentElements (α := ℚ) sys2 g.web_node_pairs wsec
        false with ⟨sys3, webIds⟩
    rw [h3] at e3
    have e4 := addSegmentElements_system (α := ℚ) sys3
      g.web_verticals_node_pairs vsec false
    rcases h4 : addSegmentElements (α := ℚ) sys3
        g.web_verticals_node_pairs vsec false with ⟨sys4, vertIds⟩
    rw [h4] at e4
    simp only [h3, h4]
    simp only at e1 e2 e3 e4
    rw [e4, e3, e2, e1]
    simp [List.append_assoc]
  · exact consecPairs_length


/-- Membership is invariant under sorted insertion. -/
theorem insertStr_mem (x y : String) (l : List String) :
    x ∈ insertStr y l ↔ x = y ∨ x ∈ l := by
  induction l with
  | nil => simp [insertStr]
  | cons z zs ih =>
      by_cases h : z.data < y.data
      · simp [insertStr, h, ih]
        tauto
      · simp [insertStr, h]

/-- Membership is invariant under the modelled sorted(). -/
theorem sortStrs_mem (x : String) (l : List String) :
    x ∈ sortStrs l ↔ x ∈ l := by
  induction l with
  | nil => simp [sortStrs]
  | cons z zs ih => simp [sortStrs, insertStr_mem, ih]

set_option maxHeartbeats 1000000 in
/-- C7: create_truss resolves names case-insensitively with hyphens and
spaces normalized to underscores: two names with the same normal form
resolve to the same constructor, and in particular "king_post",
"king-post" and "kingpost" (in any letter case) all yield the King Post
class; every name whose normal form is not a key of truss_map raises an
error carrying the requested name together with the deduplicated key
set sorted in code-point order, which is exactly the set of truss_map
keys. -/
theorem factory_name_resolution :
    (createTrussClass "king_post" = .ok .kingPost ∧
     createTrussClass "king-post" = .ok .kingPost ∧
     createTrussClass "kingpost" = .ok .kingPost ∧
     createTrussClass "King-Post" = .ok .kingPost ∧
     createTrussClass "KING POST" = .ok .kingPost) ∧
    (∀ s t : String, ∀ c : TrussClass,
      normalizeTrussType s = normalizeTrussType t →
      createTrussClass s = .ok c → createTrussClass t = .ok c) ∧
    (∀ s : String, (trussMap.lookup (normalizeTrussType s)).isNone →
      createTrussClass s = .error (.unknownType s availableTrussTypes)) ∧
    availableTrussTypes =
      ["attic", "attic_roof", "double_fink", "double_howe", "doublefink",
       "doublehowe", "fan", "fink", "howe", "howe_flat", "howe_roof",
       "king_post", "kingpost", "modified_fan", "modified_queen_post",
       "modified_queenpost", "modifiedfan", "pratt", "pratt_flat",
       "pratt_roof", "queen_post", "queenpost", "warren", "warren_flat"] ∧
    List.Sorted (fun a b : String => a.data < b.data) availableTrussTypes ∧
    (∀ s : String, s ∈ availableTrussTypes ↔ s ∈ trussMap.map Prod.fst) := by
  refine ⟨⟨rfl, rfl, rfl, rfl, rfl⟩, ?_, ?_, by decide, by decide, ?_⟩
  · intro s t c hnorm hs
    simp only [createTrussClass] at hs ⊢
    rw [← hnorm]
    rcases hl : trussMap.lookup (normalizeTrussType s) with _ | cls
    · rw [hl] at hs
      exact absurd hs (by simp)
    · rw [hl] at hs
      simpa using hs
  · intro s hnone
    simp only [createTrussClass]
    rcases hl : trussMap.lookup (normalizeTrussType s) with _ | cls
    · rfl
    · rw [hl] at hnone
      simp at hnone
  · intro s
    have hA : availableTrussTypes = sortStrs (trussMap.map Prod.fst).dedup := rfl
    rw [hA, sortStrs_mem, List.mem_dedup]

/-- C7 witness. -/
theorem factory_name_resolution_witness :
    createTrussClass "King Post" = .ok .kingPost ∧
    createTrussClass "nonsense" =
      .error (.unknownType "nonsense" availableTrussTypes) ∧
    ("attic" ∈ availableTrussTypes ↔ "attic" ∈ trussMap.map Prod.fst) := by
  have h := factory_name_resolution
  refine ⟨?_, ?_, ?_⟩
  · exact h.2.1 "king_post" "King Post" .kingPost (by decide) h.1.1
  · exact h.2.2.1 "nonsense" (by decide)
  · exact h.2.2.2.2.2 "attic"


/-- C8: for either real chord (top or bottom), get_element_ids_of_chord
reads that chord and only that chord: when the chord is segmented and no
segment name is given it returns the concatenation of all segments in
mapping iteration order; when a requested segment name is absent it
raises a key error carrying the name and the list of available segment
names; when the chord is a flat id list it returns that list. -/
theorem chord_element_ids_lookup (r : AssemblyResult ℚ) (ch : WhichChord)
    (hch : ch ≠ WhichChord.other) :
    ∃ ids : ElemIds,
      (ch = WhichChord.top → ids = r.top_chord_element_ids) ∧
      (ch = WhichChord.bottom → ids = r.bottom_chord_element_ids) ∧
      (∀ cs, getElementIdsOfChord r ch cs = getElementIdsOfChordIn ids cs) ∧
      (∀ segs, ids = ElemIds.segmented segs →
        getElementIdsOfChord r ch none = .ok ((segs.map Prod.snd).flatten) ∧
        (∀ seg, segs.lookup seg = none →
          getElementIdsOfChord r ch (some seg) =
            .error (.keyNotFound seg (segs.map Prod.fst)))) ∧
      (∀ l, ids = ElemIds.flatIds l →
        ∀ cs, getElementIdsOfChord r ch cs = .ok l) := by
  have core : ∀ ids : ElemIds,
      (∀ segs, ids = ElemIds.segmented segs →
        getElementIdsOfChordIn ids none = .ok ((segs.map Prod.snd).flatten) ∧
        (∀ seg, segs.lookup seg = none →
          getElementIdsOfChordIn ids (some seg) =
            .error (.keyNotFound seg (segs.map Prod.fst)))) ∧
      (∀ l, ids = ElemIds.flatIds l →
        ∀ cs, getElementIdsOfChordIn ids cs = .ok l) := by
    intro ids
    constructor
    · intro segs hseg
      subst hseg
      refine ⟨rfl, ?_⟩
      intro seg hnone
      simp only [getElementIdsOfChordIn, hnone]
    · intro l hflat cs
      subst hflat
      rfl
  cases ch with
  | other => exact absurd rfl hch
  | top =>
      refine ⟨r.top_chord_element_ids, fun _ => rfl, by simp, fun cs => rfl,
        fun segs hseg => (core r.top_chord_element_ids).1 segs hseg,
        fun l hflat cs => (core r.top_chord_element_ids).2 l hflat cs⟩
  | bottom =>
      refine ⟨r.bottom_chord_element_ids, by simp, fun _ => rfl, fun cs => rfl,
        fun segs hseg => (core r.bottom_chord_element_ids).1 segs hseg,
        fun l hflat cs => (core r.bottom_chord_element_ids).2 l hflat cs⟩

/-- C8 witness. -/
theorem chord_element_ids_lookup_witness :
    WhichChord.top ≠ WhichChord.other ∧
    ∃ ids : ElemIds,
      (WhichChord.top = WhichChord.top →
        ids = (AssemblyResult.mk ([] : List (ElemDef ℚ))
          (ElemIds.flatIds [9])
          (ElemIds.segmented [("left", [1, 2]), ("right", [3])])
          [] []).top_chord_element_ids) ∧
      (WhichChord.top = WhichChord.bottom →
        ids = (AssemblyResult.mk ([] : List (ElemDef ℚ))
          (ElemIds.flatIds [9])
          (ElemIds.segmented [("left", [1, 2]), ("right", [3])])
          [] []).bottom_chord_element_ids) ∧
      (∀ cs, getElementIdsOfChord (AssemblyResult.mk ([] : List (ElemDef ℚ))
          (ElemIds.flatIds [9])
          (ElemIds.segmented [("left", [1, 2]), ("right", [3])])
          [] []) WhichChord.top cs = getElementIdsOfChordIn ids cs) ∧
      (∀ segs, ids = ElemIds.segmented segs →
        getElementIdsOfChord (AssemblyResult.mk ([] : List (ElemDef ℚ))
          (ElemIds.flatIds [9])
          (ElemIds.segmented [("left", [1, 2]), ("right", [3])])
          [] []) WhichChord.top none = .ok ((segs.map Prod.snd).flatten) ∧
        (∀ seg, segs.lookup seg = none →
          getElementIdsOfChord (AssemblyResult.mk ([] : List (ElemDef ℚ))
            (ElemIds.flatIds [9])
            (ElemIds.segmented [("left", [1, 2]), ("right", [3])])
            [] []) WhichChord.top (some seg) =
              .error (.keyNotFound seg (segs.map Prod.fst)))) ∧
      (∀ l, ids = ElemIds.flatIds l →
        ∀ cs, getElementIdsOfChord (AssemblyResult.mk ([] : List (ElemDef ℚ))
          (ElemIds.flatIds [9])
          (ElemIds.segmented [("left", [1, 2]), ("right", [3])])
          [] []) WhichChord.top cs = .ok l) :=
  ⟨by decide,
   chord_element_ids_lookup
     (AssemblyResult.mk ([] : List (ElemDef ℚ))
       (ElemIds.flatIds [9])
       (ElemIds.segmented [("left", [1, 2]), ("right", [3])])
       [] [])
     WhichChord.top (by decide)⟩


section LoadCombinationLemmas

variable {M : Type} [Inhabited M]

/-- The per-case loop allocates one fresh cell per spec entry, never
writes below the initial heap length, and records the case names in
spec order against consecutive fresh addresses. -/
theorem lcSolveCases_spec (f : M → LoadCaseRef → ℚ → M)
    (spec : List (LoadCaseRef × ℚ)) (sysAddr : ℕ) (heap : List M) :
    (lcSolveCases f spec sysAddr heap).1.length =
      heap.length + spec.length ∧
    (∀ a, a < heap.length →
      (lcSolveCases f spec sysAddr heap).1[a]? = heap[a]?) ∧
    (lcSolveCases f spec sysAddr heap).2.map Prod.fst =
      spec.map (fun pr => pr.1.name) ∧
    (lcSolveCases f spec sysAddr heap).2.map Prod.snd =
      (List.range spec.length).map (fun i => heap.length + i) := by
  induction spec generalizing heap with
  | nil => simp [lcSolveCases]
  | cons pr rest ih =>
      obtain ⟨lc, factor⟩ := pr
      have hlen2 : ((heap ++ [heap.getD sysAddr default]).set heap.length
          (f ((heap ++ [heap.getD sysAddr default]).getD heap.length default)
            lc factor)).length = heap.length + 1 := by
        simp
      obtain ⟨ihlen, ihframe, ihfst, ihsnd⟩ :=
        ih ((heap ++ [heap.getD sysAddr default]).set heap.length
          (f ((heap ++ [heap.getD sysAddr default]).getD heap.length default)
            lc factor))
      rcases hrec : lcSolveCases f rest sysAddr
          ((heap ++ [heap.getD sysAddr default]).set heap.length
            (f ((heap ++ [heap.getD sysAddr default]).getD heap.length
              default) lc factor)) with ⟨heapOut, results⟩
      rw [hrec] at ihlen ihframe ihfst ihsnd
      rw [hlen2] at ihlen ihsnd
      simp only at ihlen ihframe ihfst ihsnd
      refine ⟨?_, ?_, ?_, ?_⟩
      · simp only [lcSolveCases, hrec]
        simp only [List.length_cons]
        omega
      · intro a ha
        simp only [lcSolveCases, hrec]
        rw [ihframe a (by rw [hlen2]; omega)]
        rw [List.getElem?_set_ne (by omega)]
        rw [List.getElem?_append_left (by omega)]
      · simp only [lcSolveCases, hrec, List.map_cons, ihfst]
      · simp only [lcSolveCases, hrec, List.map_cons, List.length_cons, ihsnd]
        rw [List.range_succ_eq_map]
        simp only [List.map_cons, List.map_map, Nat.add_zero]
        refine congrArg (List.cons _) ?_
        refine List.map_congr_left ?_
        intro i _
        simp only [Function.comp_apply]
        omega

end LoadCombinationLemmas

/-- C9: Modelled from the spec: evaluating a load combination never
writes to any pre-existing heap cell, so the template model and every
other live object are unchanged; each case is solved in a freshly
allocated deep copy, the combination is accumulated in one further
fresh copy, the returned mapping lists one entry per added case name in
insertion order followed by the literal key "combination", and all
returned addresses are distinct fresh cells at or above the initial
heap size, so no two entries share state with each other or with the
original. -/
theorem load_combination_deepcopy_isolation {M : Type} [Inhabited M]
    (applyAndSolve : M → LoadCaseRef → ℚ → M) (elemSum : M → M → M)
    (spec : List (LoadCaseRef × ℚ)) (sysAddr : ℕ) (heap : List M) :
    (∀ a, a < heap.length →
      (lcSolve applyAndSolve elemSum spec sysAddr heap).1[a]? = heap[a]?) ∧
    (lcSolve applyAndSolve elemSum spec sysAddr heap).2.map Prod.fst =
      spec.map (fun pr => pr.1.name) ++ ["combination"] ∧
    (lcSolve applyAndSolve elemSum spec sysAddr heap).2.map Prod.snd =
      (List.range (spec.length + 1)).map (fun i => heap.length + i) ∧
    (∀ pr ∈ (lcSolve applyAndSolve elemSum spec sysAddr heap).2,
      heap.length ≤ pr.2) ∧
    ((lcSolve applyAndSolve elemSum spec sysAddr heap).2.map Prod.snd).Nodup
    := by
  obtain ⟨hlen, hframe, hfst, hsnd⟩ :=
    lcSolveCases_spec applyAndSolve spec sysAddr heap
  rcases hcases : lcSolveCases applyAndSolve spec sysAddr heap
    with ⟨heap1, results⟩
  rw [hcases] at hlen hframe hfst hsnd
  simp only at hlen hframe hfst hsnd
  have haddr : (lcSolve applyAndSolve elemSum spec sysAddr heap).2.map
      Prod.snd = (List.range (spec.length + 1)).map
        (fun i => heap.length + i) := by
    simp only [lcSolve, hcases, List.map_append, List.map_cons,
      List.map_nil, hsnd]
    rw [List.range_succ, List.map_append, hlen]
    simp
  refine ⟨?_, ?_, haddr, ?_, ?_⟩
  · intro a ha
    simp only [lcSolve, hcases]
    rw [List.getElem?_set_ne (by simp; omega)]
    rw [List.getElem?_append_left (by omega)]
    exact hframe a ha
  · simp only [lcSolve, hcases, List.map_append, List.map_cons,
      List.map_nil, hfst]
  · intro pr hpr
    have hm : pr.2 ∈ (lcSolve applyAndSolve elemSum spec sysAddr
        heap).2.map Prod.snd := List.mem_map_of_mem Prod.snd hpr
    rw [haddr] at hm
    obtain ⟨i, _, hEq⟩ := List.mem_map.mp hm
    omega
  · rw [haddr]
    refine List.Nodup.map ?_ (List.nodup_range _)
    intro a b hab
    simp only at hab
    omega

/-- C9 witness. -/
theorem load_combination_deepcopy_isolation_witness :
    (0 < [(5 : ℚ)].length) ∧
    (lcSolve (fun (m : ℚ) _ q => m + q) (fun a b => a + b)
      [(LoadCaseRef.mk "a", 1), (LoadCaseRef.mk "b", 2)] 0
      [(5 : ℚ)]).1[0]? = [(5 : ℚ)][0]? ∧
    (lcSolve (fun (m : ℚ) _ q => m + q) (fun a b => a + b)
      [(LoadCaseRef.mk "a", 1), (LoadCaseRef.mk "b", 2)] 0
      [(5 : ℚ)]).2.map Prod.fst = ["a", "b", "combination"] :=
  ⟨by decide,
   (load_combination_deepcopy_isolation (fun (m : ℚ) _ q => m + q)
     (fun a b => a + b) [(LoadCaseRef.mk "a", 1), (LoadCaseRef.mk "b", 2)]
     0 [(5 : ℚ)]).1 0 (by decide),
   (load_combination_deepcopy_isolation (fun (m : ℚ) _ q => m + q)
     (fun a b => a + b) [(LoadCaseRef.mk "a", 1), (LoadCaseRef.mk "b", 2)]
     0 [(5 : ℚ)]).2.1⟩

end AnaStruct
